import Mathlib

/-!
Shallow embedding of the DRM display backend's state model and commit engine
(the `drm_*` state structures and functions of the backend source file), with
theorems checking the natural-language specification's claims against it.

Modelling conventions:
* C heap pointers become `Nat` identifiers into association lists held in an
  explicit `World` record; `NULL` becomes `Option.none`.
* Hardware ioctls (`drmModeSetPlane`, `drmModeSetCrtc`, `drmModePageFlip`,
  `drmModeAtomicCommit`, ...) do not change compositor-side state; their
  return codes are supplied by explicit oracle records, and the calls made
  are recorded in an event trace so ordering claims can be stated.
* Functions are translated statement by statement from the source; asserted
  preconditions in the C become hypotheses of the theorems.
-/

set_option autoImplicit false

namespace Drm

/-- Plane types, from `enum wdrm_plane_type` (primary/scanout, overlay, cursor). -/
inductive PlaneType where
  | Primary
  | Overlay
  | CursorType
deriving DecidableEq, Repr

/-- Power states, from `enum dpms_enum` (`WESTON_DPMS_ON/STANDBY/SUSPEND/OFF`). -/
inductive Dpms where
  | On
  | Standby
  | Suspend
  | Off
deriving DecidableEq, Repr

/-- Apply modes, from `enum drm_state_apply_mode` (`DRM_STATE_APPLY_SYNC/ASYNC`). -/
inductive ApplyMode where
  | Sync
  | Async
deriving DecidableEq, Repr

/-- Duplication modes, from `enum drm_output_state_duplicate_mode`. -/
inductive DupMode where
  | PreservePlanes
  | ClearPlanes
deriving DecidableEq, Repr

/-! ## Framebuffer registry (`struct drm_fb` and `drm_fb_*` functions)

This part models a single reference-counted framebuffer in isolation, with an
event trace recording the hardware-visible calls (`drmModeAddFB[2]`,
`drmModeRmFB`, `munmap`, `DRM_IOCTL_MODE_DESTROY_DUMB`, gbm destruction), so
that registration/unregistration counting and ordering can be proved. -/

/-- Buffer types, from `enum drm_fb_type` (the `BUFFER_*` values that can reach
`drm_fb_unref`; `BUFFER_INVALID` is excluded as the code asserts against it). -/
inductive FbType where
  | PixmanDumb
  | GbmSurface
  | Client
  | CursorBuf
deriving DecidableEq, Repr

/-- Fields of `struct drm_fb` used by the destruction paths. -/
structure DrmFb where
  refcnt : Nat
  fb_id : Nat
  ftype : FbType
  hasMap : Bool
  size : Nat
  handle : Nat
deriving DecidableEq, Repr

/-- Hardware-visible events emitted by the framebuffer lifecycle functions. -/
inductive FbEvent where
  | CreateDumbIoctl
  | AddFB (id : Nat)
  | RmFB (id : Nat)
  | MunmapDumb
  | DestroyDumbIoctl (handle : Nat)
  | GbmBoDestroy
  | GbmSurfaceReleaseBuffer
  | FreeStruct
deriving DecidableEq, Repr

/-- Trace of `drm_fb_destroy`: `drmModeRmFB` if an fb id is registered, then
`free(fb)`. -/
def drm_fb_destroy (fb : DrmFb) : List FbEvent :=
  (if fb.fb_id ≠ 0 then [FbEvent.RmFB fb.fb_id] else []) ++ [FbEvent.FreeStruct]

/-- Trace of `drm_fb_destroy_dumb`: `munmap` the mapping (when mapped and
non-empty), `DRM_IOCTL_MODE_DESTROY_DUMB` on the handle, then `drm_fb_destroy`. -/
def drm_fb_destroy_dumb (fb : DrmFb) : List FbEvent :=
  (if fb.hasMap ∧ 0 < fb.size then [FbEvent.MunmapDumb] else []) ++
    (FbEvent.DestroyDumbIoctl fb.handle :: drm_fb_destroy fb)

/-- Trace of `drm_fb_destroy_gbm`, the gbm user-data destroy callback invoked
from `gbm_bo_destroy`: it runs `drm_fb_destroy` (unregistering the fb id)
before gbm tears the buffer object down. -/
def drm_fb_destroy_gbm (fb : DrmFb) : List FbEvent :=
  drm_fb_destroy fb ++ [FbEvent.GbmBoDestroy]

/-- Increment of `drm_fb_ref`. -/
def drm_fb_ref (fb : DrmFb) : DrmFb :=
  { fb with refcnt := fb.refcnt + 1 }

/-- Decrement of `drm_fb_unref` on a non-null framebuffer: if the count stays
positive nothing else happens; on the transition to zero the type-specific
destructor runs. A `BUFFER_GBM_SURFACE` buffer is released back to its gbm
surface and the `drm_fb` record survives (it stays attached to the buffer
object as user data); the other types destroy the framebuffer. -/
def drm_fb_unref (fb : DrmFb) : Option DrmFb × List FbEvent :=
  if 0 < fb.refcnt - 1 then (some { fb with refcnt := fb.refcnt - 1 }, [])
  else
    match fb.ftype with
    | FbType.PixmanDumb => (none, drm_fb_destroy_dumb fb)
    | FbType.CursorBuf => (none, drm_fb_destroy_gbm fb)
    | FbType.Client => (none, drm_fb_destroy_gbm fb)
    | FbType.GbmSurface =>
        (some { fb with refcnt := 0 }, [FbEvent.GbmSurfaceReleaseBuffer])

/-- Ioctl outcomes consumed by `drm_fb_create_dumb`. -/
structure CreateDumbIo where
  formatOk : Bool
  createOk : Bool
  addFb2Ok : Bool
  addFbOk : Bool
  mapOk : Bool
  mmapOk : Bool
deriving DecidableEq, Repr

/-- Model of `drm_fb_create_dumb`: allocates a dumb buffer, registers a
hardware fb id (`drmModeAddFB2` with a `drmModeAddFB` fallback), maps it; on
failure after registration the id is removed again (`err_add_fb` label). The
`fbId` and `handle` arguments stand for the ids the kernel would return. -/
def drm_fb_create_dumb (io : CreateDumbIo) (fbId handle size : Nat) :
    Option DrmFb × List FbEvent :=
  if ¬io.formatOk then (none, [])
  else if ¬io.createOk then (none, [FbEvent.CreateDumbIoctl])
  else if ¬(io.addFb2Ok ∨ io.addFbOk) then
    (none, [FbEvent.CreateDumbIoctl, FbEvent.DestroyDumbIoctl handle])
  else if ¬(io.mapOk ∧ io.mmapOk) then
    (none, [FbEvent.CreateDumbIoctl, FbEvent.AddFB fbId, FbEvent.RmFB fbId,
            FbEvent.DestroyDumbIoctl handle])
  else
    (some { refcnt := 1, fb_id := fbId, ftype := FbType.PixmanDumb,
            hasMap := true, size := size, handle := handle },
     [FbEvent.CreateDumbIoctl, FbEvent.AddFB fbId])

/-- Reference-count operations applied by users of a framebuffer. -/
inductive FbOp where
  | Ref
  | Unref
deriving DecidableEq, Repr

/-- Run a sequence of ref/unref operations on a live framebuffer, collecting
the emitted hardware events. The run stops if the framebuffer is destroyed. -/
def drm_fb_run : List FbOp → DrmFb → Option DrmFb × List FbEvent
  | [], fb => (some fb, [])
  | FbOp.Ref :: ops, fb => drm_fb_run ops (drm_fb_ref fb)
  | FbOp.Unref :: ops, fb =>
    match drm_fb_unref fb with
    | (some fb', evs) =>
        let r := drm_fb_run ops fb'
        (r.1, evs ++ r.2)
    | (none, evs) => (none, evs)

/-- Count occurrences of `RmFB` events in a trace. -/
def countRmFB (evs : List FbEvent) : Nat :=
  evs.countP (fun e => match e with | FbEvent.RmFB _ => true | _ => false)

/-- Count occurrences of `AddFB` events in a trace. -/
def countAddFB (evs : List FbEvent) : Nat :=
  evs.countP (fun e => match e with | FbEvent.AddFB _ => true | _ => false)

end Drm

namespace Drm

/-! ## Association-list heap

C heap pointers are modelled as `Nat` identifiers into association lists. -/

/-- Look up a key in an association list. -/
def assocFind {α : Type} : List (Nat × α) → Nat → Option α
  | [], _ => none
  | (k', v) :: t, k => if k' = k then some v else assocFind t k

/-- Update the value stored at a key (no effect when the key is absent). -/
def assocSet {α : Type} (l : List (Nat × α)) (k : Nat) (v : α) : List (Nat × α) :=
  l.map fun p => if p.1 = k then (k, v) else p

/-- Remove every entry with the given key. -/
def assocErase {α : Type} (l : List (Nat × α)) (k : Nat) : List (Nat × α) :=
  l.filter fun p => p.1 != k

@[simp] theorem assocFind_nil {α : Type} (k : Nat) :
    assocFind ([] : List (Nat × α)) k = none := rfl

@[simp] theorem assocFind_cons {α : Type} (k' k : Nat) (v : α) (t : List (Nat × α)) :
    assocFind ((k', v) :: t) k = if k' = k then some v else assocFind t k := rfl

@[simp] theorem assocSet_nil {α : Type} (k : Nat) (v : α) :
    assocSet ([] : List (Nat × α)) k v = [] := rfl

@[simp] theorem assocSet_cons {α : Type} (pk k : Nat) (pv v : α) (t : List (Nat × α)) :
    assocSet ((pk, pv) :: t) k v =
      (if pk = k then (k, v) else (pk, pv)) :: assocSet t k v := by
  by_cases h : pk = k <;> simp [assocSet, h]

@[simp] theorem assocErase_nil {α : Type} (k : Nat) :
    assocErase ([] : List (Nat × α)) k = [] := rfl

@[simp] theorem assocErase_cons {α : Type} (pk k : Nat) (pv : α) (t : List (Nat × α)) :
    assocErase ((pk, pv) :: t) k =
      if pk = k then assocErase t k else (pk, pv) :: assocErase t k := by
  by_cases h : pk = k <;> simp [assocErase, List.filter_cons, h]

theorem assocFind_assocSet_ne {α : Type} (l : List (Nat × α)) (k k' : Nat) (v : α)
    (h : k' ≠ k) : assocFind (assocSet l k v) k' = assocFind l k' := by
  induction l with
  | nil => rfl
  | cons p t ih =>
    obtain ⟨pk, pv⟩ := p
    by_cases hpk : pk = k
    · subst hpk
      simp [Ne.symm h, ih]
    · simp [hpk, ih]

theorem assocFind_assocSet_self {α : Type} (l : List (Nat × α)) (k : Nat) (v x : α)
    (h : assocFind l k = some x) : assocFind (assocSet l k v) k = some v := by
  induction l with
  | nil => simp at h
  | cons p t ih =>
    obtain ⟨pk, pv⟩ := p
    by_cases hpk : pk = k
    · subst hpk
      simp
    · simp [hpk] at h
      simp [hpk, ih h]

theorem assocFind_assocErase {α : Type} (l : List (Nat × α)) (k k' : Nat) :
    assocFind (assocErase l k) k' =
      if k' = k then none else assocFind l k' := by
  induction l with
  | nil => simp
  | cons p t ih =>
    obtain ⟨pk, pv⟩ := p
    by_cases hpk : pk = k
    · subst hpk
      rw [assocErase_cons, if_pos rfl, ih]
      simp only [assocFind_cons]
      by_cases hk' : k' = pk
      · simp [hk']
      · have hpk' : ¬pk = k' := fun h => hk' h.symm
        simp [hk', hpk']
    · simp only [assocErase_cons, if_neg hpk, assocFind_cons]
      by_cases hpk' : pk = k'
      · subst hpk'
        simp [hpk]
      · rw [if_neg hpk', ih]
        by_cases h2 : k' = k <;> simp [h2, hpk']

/-! ## State model (`struct drm_plane_state` / `drm_output_state` /
`drm_pending_state` / `drm_plane` / `drm_output` / `drm_backend`)

Only the fields the verified functions read or write are carried. Source and
destination rectangles are omitted: the claims under test never inspect them
(the legacy-path geometry assertions are about those rectangles only). -/

/-- Fields of `struct drm_plane_state`. `output = none` means the plane is
being disabled by this state; `output_state = none` means the state is no
longer linked into an output state under construction. -/
structure PlaneState where
  plane : Nat
  output : Option Nat
  output_state : Option Nat
  fb : Option Nat
  complete : Bool
deriving DecidableEq, Repr

/-- Fields of `struct drm_plane`: the plane type and the state currently live
on the hardware (`state_cur`). -/
structure Plane where
  ptype : PlaneType
  state_cur : Option Nat
deriving DecidableEq, Repr

/-- Fields of `struct drm_output_state`: owning output, owning pending state
(none once committed), the intrusive plane-state list (head-first, as built by
`wl_list_insert` at the head), and the desired power state. -/
structure OutputState where
  output : Nat
  pending_state : Option Nat
  plane_list : List Nat
  dpms : Dpms
deriving DecidableEq, Repr

/-- Fields of `struct drm_pending_state`: the output-state list. -/
structure PendingState where
  output_list : List Nat
deriving DecidableEq, Repr

/-- Fields of `struct drm_output` used by the commit and completion paths.
`awaiting_completion` stands for
`base.repaint_status == REPAINT_AWAITING_COMPLETION`, `has_dpms_prop` for
`props_conn[WDRM_CONNECTOR_DPMS].prop_id != 0`, and `disable_planes` for
`base.disable_planes`. -/
structure Output where
  state_cur : Option Nat
  state_last : Option Nat
  page_flip_pending : Bool
  vblank_pending : Nat
  atomic_complete_pending : Bool
  destroy_pending : Bool
  disable_pending : Bool
  dpms_off_pending : Bool
  enabled : Bool
  virtualOut : Bool
  scanout_plane : Nat
  cursor_plane : Option Nat
  cursor_view : Option Nat
  awaiting_completion : Bool
  has_dpms_prop : Bool
  disable_planes : Bool
deriving DecidableEq, Repr

/-- Reference count and stride of a registered framebuffer, as seen by the
state model (the full per-buffer lifecycle is modelled separately above). -/
structure FbRef where
  refcnt : Nat
  stride : Nat
deriving DecidableEq, Repr

/-- The backend heap: every live object, keyed by identifier, plus the
backend-wide flags `state_invalid`, `atomic_modeset` and `sprites_hidden`. -/
structure World where
  next_id : Nat
  plane_states : List (Nat × PlaneState)
  output_states : List (Nat × OutputState)
  pendings : List (Nat × PendingState)
  planes : List (Nat × Plane)
  outputs : List (Nat × Output)
  fb_refs : List (Nat × FbRef)
  state_invalid : Bool
  atomic_modeset : Bool
  sprites_hidden : Bool
deriving DecidableEq, Repr

/-- Look up a plane state. -/
def World.psGet (w : World) (i : Nat) : Option PlaneState := assocFind w.plane_states i

/-- Overwrite a plane state. -/
def World.psSet (w : World) (i : Nat) (v : PlaneState) : World :=
  { w with plane_states := assocSet w.plane_states i v }

/-- Look up an output state. -/
def World.osGet (w : World) (i : Nat) : Option OutputState := assocFind w.output_states i

/-- Overwrite an output state. -/
def World.osSet (w : World) (i : Nat) (v : OutputState) : World :=
  { w with output_states := assocSet w.output_states i v }

/-- Look up a pending state. -/
def World.pdGet (w : World) (i : Nat) : Option PendingState := assocFind w.pendings i

/-- Overwrite a pending state. -/
def World.pdSet (w : World) (i : Nat) (v : PendingState) : World :=
  { w with pendings := assocSet w.pendings i v }

/-- Look up a plane. -/
def World.plGet (w : World) (i : Nat) : Option Plane := assocFind w.planes i

/-- Overwrite a plane. -/
def World.plSet (w : World) (i : Nat) (v : Plane) : World :=
  { w with planes := assocSet w.planes i v }

/-- Look up an output. -/
def World.outGet (w : World) (i : Nat) : Option Output := assocFind w.outputs i

/-- Overwrite an output. -/
def World.outSet (w : World) (i : Nat) (v : Output) : World :=
  { w with outputs := assocSet w.outputs i v }

/-- Projection of `drm_fb_ref` onto the reference-count table: bump the count
of a referenced framebuffer. -/
def world_fb_ref_refs (t : List (Nat × FbRef)) (fbId : Nat) : List (Nat × FbRef) :=
  match assocFind t fbId with
  | none => t
  | some r => assocSet t fbId { r with refcnt := r.refcnt + 1 }

/-- Projection of `drm_fb_ref` onto the backend heap. -/
def world_fb_ref (w : World) (fbId : Nat) : World :=
  { w with fb_refs := world_fb_ref_refs w.fb_refs fbId }

/-- Projection of `drm_fb_unref` onto the reference-count table: a null
argument is ignored, otherwise the count drops and the framebuffer is
released on the transition to zero. -/
def world_fb_unref_refs (t : List (Nat × FbRef)) (fb : Option Nat) :
    List (Nat × FbRef) :=
  match fb with
  | none => t
  | some fbId =>
    match assocFind t fbId with
    | none => t
    | some r =>
      if 0 < r.refcnt - 1 then assocSet t fbId { r with refcnt := r.refcnt - 1 }
      else assocErase t fbId

/-- Projection of `drm_fb_unref` onto the backend heap. -/
def world_fb_unref (w : World) (fb : Option Nat) : World :=
  { w with fb_refs := world_fb_unref_refs w.fb_refs fb }

/-- Model of `drm_plane_state_alloc`: allocate a zero-initialised plane state
and, when an owning output state is given, link it at the head of that
state's plane list. Returns the new identifier. -/
def drm_plane_state_alloc (w : World) (state_output : Option Nat) (plane : Nat) :
    World × Nat :=
  let i := w.next_id
  let ps : PlaneState :=
    { plane := plane, output := none, output_state := state_output,
      fb := none, complete := false }
  let w1 : World := { w with next_id := i + 1, plane_states := (i, ps) :: w.plane_states }
  match state_output with
  | some osId =>
    match w1.osGet osId with
    | some os => (w1.osSet osId { os with plane_list := i :: os.plane_list }, i)
    | none => (w1, i)
  | none => (w1, i)

/-- Model of `drm_plane_state_free`: a null state is ignored; otherwise the
state is unlinked from its output state and detached (`output_state := none`),
and it is deallocated (releasing its framebuffer reference) unless it is still
the plane's hardware-live state and `force` is not set. -/
def drm_plane_state_free (w : World) (state : Option Nat) (force : Bool) : World :=
  match state with
  | none => w
  | some psId =>
    match w.psGet psId with
    | none => w
    | some ps =>
      let w1 :=
        match ps.output_state with
        | some osId =>
          match w.osGet osId with
          | some os => w.osSet osId { os with plane_list := os.plane_list.filter (· != psId) }
          | none => w
        | none => w
      let w2 := w1.psSet psId { ps with output_state := none }
      let isCur :=
        match w2.plGet ps.plane with
        | some pl => pl.state_cur == some psId
        | none => false
      if force || !isCur then
        let w3 := world_fb_unref w2 ps.fb
        { w3 with plane_states := assocErase w3.plane_states psId }
      else w2

/-- Body of the same-plane freeing loop at the head of
`drm_plane_state_duplicate`: free a pre-existing state for the same plane. -/
def dup_free_same_plane (srcPlane : Nat) (acc : World) (old : Nat) : World :=
  match acc.psGet old with
  | some oldPs =>
    if oldPs.plane = srcPlane then drm_plane_state_free acc (some old) false
    else acc
  | none => acc

/-- Model of `drm_plane_state_duplicate`: copy `src` into a fresh state owned
by `state_output`, first freeing any state for the same plane already present
there, then linking the copy, taking a framebuffer reference, and clearing the
completion flag. -/
def drm_plane_state_duplicate (w : World) (state_output : Nat) (src : Nat) :
    World × Nat :=
  match w.psGet src with
  | none => (w, 0)
  | some srcPs =>
    let i := w.next_id
    let w1 : World := { w with next_id := i + 1, plane_states := (i, srcPs) :: w.plane_states }
    let w2 :=
      match w1.osGet state_output with
      | none => w1
      | some os =>
        os.plane_list.foldl (dup_free_same_plane srcPs.plane) w1
    let w3 :=
      match w2.osGet state_output with
      | none => w2
      | some os => w2.osSet state_output { os with plane_list := i :: os.plane_list }
    let w4 :=
      match srcPs.fb with
      | some f => world_fb_ref w3 f
      | none => w3
    let w5 := w4.psSet i { srcPs with output_state := some state_output, complete := false }
    (w5, i)

/-- Model of `drm_output_state_get_existing_plane`: the first state in the
output state's plane list that belongs to `plane`. -/
def drm_output_state_get_existing_plane (w : World) (osId : Nat) (plane : Nat) :
    Option Nat :=
  match w.osGet osId with
  | none => none
  | some os =>
    os.plane_list.find? fun psId =>
      match w.psGet psId with
      | some ps => ps.plane == plane
      | none => false

/-- Model of `drm_output_state_get_plane`: the existing state for the plane,
or a freshly allocated one. -/
def drm_output_state_get_plane (w : World) (osId : Nat) (plane : Nat) :
    World × Nat :=
  match drm_output_state_get_existing_plane w osId plane with
  | some psId => (w, psId)
  | none => drm_plane_state_alloc w (some osId) plane

/-- Model of `drm_output_state_alloc`: a fresh, empty output state (power
state off), linked into the owning pending state when one is given. -/
def drm_output_state_alloc (w : World) (output : Nat) (pending : Option Nat) :
    World × Nat :=
  let i := w.next_id
  let os : OutputState :=
    { output := output, pending_state := pending, plane_list := [], dpms := Dpms.Off }
  let w1 : World := { w with next_id := i + 1, output_states := (i, os) :: w.output_states }
  match pending with
  | some pid =>
    match w1.pdGet pid with
    | some p => (w1.pdSet pid { p with output_list := i :: p.output_list }, i)
    | none => (w1, i)
  | none => (w1, i)

/-- Model of `drm_output_state_duplicate`: copy the source state into a new
one owned by `pending`; plane states whose `output` is null (already disabled)
are dropped, the rest are duplicated (`PreservePlanes`) or replaced with fresh
disabling states (`ClearPlanes`). This is the body of the plane loop. -/
def drm_output_state_duplicate_plane (i : Nat) (plane_mode : DupMode)
    (acc : World) (psId : Nat) : World :=
  match acc.psGet psId with
  | none => acc
  | some ps =>
    if ps.output = none then acc
    else
      match plane_mode with
      | DupMode.ClearPlanes => (drm_plane_state_alloc acc (some i) ps.plane).1
      | DupMode.PreservePlanes => (drm_plane_state_duplicate acc i psId).1

/-- Model of `drm_output_state_duplicate` (continued): link the fresh state
into the pending state's output list when one is given. -/
def drm_output_state_duplicate_link (w1 : World) (pending : Option Nat) (i : Nat) :
    World :=
  match pending with
  | some pid =>
    match w1.pdGet pid with
    | some p => w1.pdSet pid { p with output_list := i :: p.output_list }
    | none => w1
  | none => w1

/-- Model of `drm_output_state_duplicate` (continued): the function proper. -/
def drm_output_state_duplicate (w : World) (src : Nat) (pending : Option Nat)
    (plane_mode : DupMode) : World × Nat :=
  match w.osGet src with
  | none => (w, 0)
  | some srcOs =>
    let i := w.next_id
    let dst : OutputState := { srcOs with pending_state := pending, plane_list := [] }
    let w1 : World := { w with next_id := i + 1, output_states := (i, dst) :: w.output_states }
    let w2 := drm_output_state_duplicate_link w1 pending i
    let w3 :=
      srcOs.plane_list.foldl (drm_output_state_duplicate_plane i plane_mode) w2
    (w3, i)

/-- Model of `drm_output_state_free`: a null state is ignored; otherwise every
plane state in the list is freed (without force), the state is unlinked from
its pending state, and deallocated. -/
def drm_output_state_free (w : World) (state : Option Nat) : World :=
  match state with
  | none => w
  | some osId =>
    match w.osGet osId with
    | none => w
    | some os =>
      let w1 := os.plane_list.foldl
        (fun acc psId => drm_plane_state_free acc (some psId) false) w
      let w2 :=
        match os.pending_state with
        | some pid =>
          match w1.pdGet pid with
          | some p => w1.pdSet pid { p with output_list := p.output_list.filter (· != osId) }
          | none => w1
        | none => w1
      { w2 with output_states := assocErase w2.output_states osId }

/-- Model of `drm_output_get_disable_state`: duplicate the output's current
state in `CLEAR_PLANES` mode into the pending state and set its power state
to off. -/
def drm_output_get_disable_state (w : World) (pending : Nat) (output : Nat) :
    World × Nat :=
  match w.outGet output with
  | none => (w, 0)
  | some out =>
    match out.state_cur with
    | none => (w, 0)
    | some cur =>
      let r := drm_output_state_duplicate w cur (some pending) DupMode.ClearPlanes
      match r.1.osGet r.2 with
      | some os => (r.1.osSet r.2 { os with dpms := Dpms.Off }, r.2)
      | none => r

/-- Model of `drm_pending_state_alloc`. -/
def drm_pending_state_alloc (w : World) : World × Nat :=
  let i := w.next_id
  ({ w with next_id := i + 1, pendings := (i, { output_list := [] }) :: w.pendings }, i)

/-- Model of `drm_pending_state_free`: a null pending state is ignored;
otherwise every connected output state is freed and the structure deallocated. -/
def drm_pending_state_free (w : World) (pending : Option Nat) : World :=
  match pending with
  | none => w
  | some pid =>
    match w.pdGet pid with
    | none => w
    | some p =>
      let w1 := p.output_list.foldl
        (fun acc osId => drm_output_state_free acc (some osId)) w
      { w1 with pendings := assocErase w1.pendings pid }

/-! ## Commit engine -/

/-- Deferred actions triggered from the completion path. `drm_output_destroy`,
`weston_output_disable` and the DPMS-off restart (which allocates a fresh
pending state, builds a disable state and re-enters
`drm_pending_state_apply_sync`) live partly outside this model, so their
selection is recorded as an emitted action rather than executed in place. -/
inductive CompleteAction where
  | ActDestroy
  | ActDisable
  | ActDpmsOff
  | ActNone
  | ActFinishFrame
deriving DecidableEq, Repr

/-- Hardware submissions recorded by the commit engine. -/
inductive Ev where
  | SetPlaneIoctl (plane : Nat) (fbId : Nat)
  | SetCursorIoctl (handle : Nat)
  | MoveCursorIoctl
  | SetCrtcIoctl (fbId : Nat)
  | PageFlipIoctl (fbId : Nat)
  | VBlankRequest (plane : Nat)
  | DpmsProp (level : Dpms)
  | AtomicCommitIoctl
  | Complete (a : CompleteAction)
deriving DecidableEq, Repr

/-- Disposal of the orphaned previous state at the head of the assignment
loop body (the `plane->state_cur && !plane->state_cur->output_state` check). -/
def assign_plane_dispose (w : World) (pl : Plane) : World :=
  match pl.state_cur with
  | some curId =>
    match w.psGet curId with
    | some curPs =>
      if curPs.output_state = none then drm_plane_state_free w (some curId) true
      else w
    | none => w
  | none => w

/-- Body of the plane loop at the end of `drm_output_assign_state`: replace
the plane's `state_cur` with the new state after disposing of an orphaned
previous state, then either mark the new state complete (synchronous apply)
or arm the legacy completion counters (page flip for the primary plane, one
vblank per overlay; nothing in atomic mode). -/
def drm_output_assign_state_plane (w : World) (outputId : Nat) (mode : ApplyMode)
    (psId : Nat) : World :=
  match w.psGet psId with
  | none => w
  | some ps =>
    match w.plGet ps.plane with
    | none => w
    | some pl =>
      let w1 := assign_plane_dispose w pl
      let w2 :=
        match w1.plGet ps.plane with
        | some pl2 => w1.plSet ps.plane { pl2 with state_cur := some psId }
        | none => w1
      if mode ≠ ApplyMode.Async then
        match w2.psGet psId with
        | some ps2 => w2.psSet psId { ps2 with complete := true }
        | none => w2
      else if w2.atomic_modeset then w2
      else
        match pl.ptype with
        | PlaneType.Overlay =>
          match w2.outGet outputId with
          | some o => w2.outSet outputId { o with vblank_pending := o.vblank_pending + 1 }
          | none => w2
        | PlaneType.Primary =>
          match w2.outGet outputId with
          | some o => w2.outSet outputId { o with page_flip_pending := true }
          | none => w2
        | PlaneType.CursorType => w2

/-- Stage of `drm_output_assign_state`: `wl_list_remove(&state->link)` — drop
the state from its pending state's output list. -/
def assign_unlink_pending (w : World) (os : OutputState) (osId : Nat) : World :=
  match os.pending_state with
  | some pid =>
    match w.pdGet pid with
    | some p => w.pdSet pid { p with output_list := p.output_list.filter (· != osId) }
    | none => w
  | none => w

/-- Stage of `drm_output_assign_state`: `state->pending_state = NULL`. -/
def assign_set_pending_none (w : World) (osId : Nat) : World :=
  match w.osGet osId with
  | some os2 => w.osSet osId { os2 with pending_state := none }
  | none => w

/-- Stage of `drm_output_assign_state`: `output->state_cur = state`. -/
def assign_point_output (w : World) (output osId : Nat) : World :=
  match w.outGet output with
  | some out2 => w.outSet output { out2 with state_cur := some osId }
  | none => w

/-- Stage of `drm_output_assign_state`: arm the atomic completion flag for an
asynchronous atomic commit. -/
def assign_arm_atomic (w : World) (output : Nat) (mode : ApplyMode) : World :=
  if w.atomic_modeset ∧ mode = ApplyMode.Async then
    match w.outGet output with
    | some out3 => w.outSet output { out3 with atomic_complete_pending := true }
    | none => w
  else w

/-- Model of `drm_output_assign_state`: make the submitted state the output's
current state. In asynchronous mode the prior current state is retained as
`state_last` until the hardware confirms; in synchronous mode it is freed
immediately. The state is unlinked from its pending state, the atomic
completion flag is armed when appropriate, and every touched plane is
repointed by the plane loop. The caller must respect `assert(!output->state_last)`. -/
def drm_output_assign_state (w : World) (osId : Nat) (mode : ApplyMode) : World :=
  match w.osGet osId with
  | none => w
  | some os =>
    match w.outGet os.output with
    | none => w
    | some out =>
      let w1 :=
        if mode = ApplyMode.Async then
          w.outSet os.output { out with state_last := out.state_cur }
        else
          drm_output_state_free w out.state_cur
      let w2 := assign_unlink_pending w1 os osId
      let w3 := assign_set_pending_none w2 osId
      let w4 := assign_point_output w3 os.output osId
      let w5 := assign_arm_atomic w4 os.output mode
      os.plane_list.foldl (fun acc psId => drm_output_assign_state_plane acc os.output mode psId) w5

/-- Body of the completion-marking loop in `drm_output_update_complete`. -/
def mark_complete_body (acc : World) (psId : Nat) : World :=
  match acc.psGet psId with
  | some ps => acc.psSet psId { ps with complete := true }
  | none => acc

/-- Model of `drm_output_update_complete`: mark every plane state of the
current state complete, free the superseded previous state, then act on at
most one deferred request — destroy takes precedence over disable, disable
over the DPMS-off restart; with no request pending, a DPMS-off state outside
a repaint cycle returns silently and anything else finishes the frame. -/
def drm_output_update_complete (w : World) (outputId : Nat) :
    World × CompleteAction :=
  match w.outGet outputId with
  | none => (w, CompleteAction.ActNone)
  | some out =>
    let w1 :=
      match out.state_cur with
      | some cur =>
        match w.osGet cur with
        | some os => os.plane_list.foldl mark_complete_body w
        | none => w
      | none => w
    let w2 := drm_output_state_free w1 out.state_last
    let w3 :=
      match w2.outGet outputId with
      | some o => w2.outSet outputId { o with state_last := none }
      | none => w2
    match w3.outGet outputId with
    | none => (w3, CompleteAction.ActNone)
    | some o3 =>
      if o3.destroy_pending then
        (w3.outSet outputId
          { o3 with destroy_pending := false, disable_pending := false,
                    dpms_off_pending := false },
         CompleteAction.ActDestroy)
      else if o3.disable_pending then
        (w3.outSet outputId
          { o3 with disable_pending := false, dpms_off_pending := false },
         CompleteAction.ActDisable)
      else if o3.dpms_off_pending then
        (w3.outSet outputId { o3 with dpms_off_pending := false },
         CompleteAction.ActDpmsOff)
      else
        let curDpms :=
          match o3.state_cur with
          | some cur =>
            match w3.osGet cur with
            | some os => os.dpms
            | none => Dpms.On
          | none => Dpms.On
        if curDpms = Dpms.Off ∧ ¬o3.awaiting_completion then
          (w3, CompleteAction.ActNone)
        else (w3, CompleteAction.ActFinishFrame)

/-- Model of `vblank_handler` (legacy overlay completion): decrement the
output's vblank count and run the retirement path only when neither a page
flip nor another vblank remains outstanding. Returns whether the retirement
path ran. -/
def vblank_handler (w : World) (psId : Nat) : World × Bool × CompleteAction :=
  match w.psGet psId with
  | none => (w, false, CompleteAction.ActNone)
  | some ps =>
    match ps.output_state with
    | none => (w, false, CompleteAction.ActNone)
    | some osId =>
      match w.osGet osId with
      | none => (w, false, CompleteAction.ActNone)
      | some os =>
        match w.outGet os.output with
        | none => (w, false, CompleteAction.ActNone)
        | some out =>
          let w1 := w.outSet os.output { out with vblank_pending := out.vblank_pending - 1 }
          match w1.outGet os.output with
          | none => (w1, false, CompleteAction.ActNone)
          | some out1 =>
            if out1.page_flip_pending ∨ 0 < out1.vblank_pending then
              (w1, false, CompleteAction.ActNone)
            else
              let r := drm_output_update_complete w1 os.output
              (r.1, true, r.2)

/-- Model of `page_flip_handler` (legacy scanout completion): clear the page
flip flag and run the retirement path unless overlay vblanks remain
outstanding. Returns whether the retirement path ran. -/
def page_flip_handler (w : World) (outputId : Nat) : World × Bool × CompleteAction :=
  match w.outGet outputId with
  | none => (w, false, CompleteAction.ActNone)
  | some out =>
    let w1 := w.outSet outputId { out with page_flip_pending := false }
    match w1.outGet outputId with
    | none => (w1, false, CompleteAction.ActNone)
    | some out1 =>
      if 0 < out1.vblank_pending then (w1, false, CompleteAction.ActNone)
      else
        let r := drm_output_update_complete w1 outputId
        (r.1, true, r.2)

/-- Model of `atomic_flip_handler`: ignore events for unknown or disabled
outputs, otherwise clear the atomic completion flag and run the retirement
path. Returns whether the retirement path ran. -/
def atomic_flip_handler (w : World) (outputId : Nat) : World × Bool × CompleteAction :=
  match w.outGet outputId with
  | none => (w, false, CompleteAction.ActNone)
  | some out =>
    if ¬out.enabled then (w, false, CompleteAction.ActNone)
    else
      let w1 := w.outSet outputId { out with atomic_complete_pending := false }
      let r := drm_output_update_complete w1 outputId
      (r.1, true, r.2)

/-- Model of `drm_output_deinit`: the renderer teardown and plane restacking
act outside this model; the observable state change is that the output's
connector and CRTC become unused and `state_invalid` is forced so the next
commit reprograms them. -/
def drm_output_deinit (w : World) (outputId : Nat) : World :=
  let _ := outputId
  { w with state_invalid := true }

/-- Model of `drm_output_disable`: while any completion is outstanding (page
flip, overlay vblank, or atomic commit) the disable is only recorded in
`disable_pending` and `-1` is returned; otherwise an enabled output is
deinitialised, the flag is cleared and `0` returned. -/
def drm_output_disable (w : World) (outputId : Nat) : World × Int :=
  match w.outGet outputId with
  | none => (w, -1)
  | some out =>
    if out.page_flip_pending ∨ 0 < out.vblank_pending ∨ out.atomic_complete_pending then
      (w.outSet outputId { out with disable_pending := true }, -1)
    else
      let w1 := if out.enabled then drm_output_deinit w outputId else w
      match w1.outGet outputId with
      | some o2 => (w1.outSet outputId { o2 with disable_pending := false }, 0)
      | none => (w1, 0)

/-- Model of `drm_output_set_cursor`: emits the cursor ioctls the legacy path
performs for the cursor plane's state (upload only when the framebuffer
changed, then move); the pixel upload, damage bookkeeping and the
`cursors_are_broken` error fallback have no effect on the modelled state. -/
def drm_output_set_cursor (w : World) (osId : Nat) : List Ev :=
  match w.osGet osId with
  | none => []
  | some st =>
    match w.outGet st.output with
    | none => []
    | some out =>
      match out.cursor_plane with
      | none => []
      | some cp =>
        match drm_output_state_get_existing_plane w osId cp with
        | none => []
        | some psId =>
          match w.psGet psId with
          | none => []
          | some ps =>
            match ps.fb with
            | none => [Ev.SetCursorIoctl 0]
            | some f =>
              let curFb :=
                match w.plGet cp with
                | some pl =>
                  match pl.state_cur with
                  | some cid => (w.psGet cid).bind (fun c => c.fb)
                  | none => none
                | none => none
              (if curFb ≠ some f then [Ev.SetCursorIoctl f] else []) ++
                [Ev.MoveCursorIoctl]

/-- Return codes of the legacy ioctls whose failure changes control flow in
`drm_output_apply_state_legacy`. The disable-path `drmModeSetPlane`,
`drmModeSetCursor` and `drmModeSetCrtc` failures, and the enable-path
`drmModeSetPlane`, `drmWaitVBlank` and DPMS property failures, are logged
without affecting control flow and therefore need no oracle entry. -/
structure LegacyIo where
  setCrtcOk : Bool
  pageFlipOk : Bool
deriving DecidableEq, Repr

/-- Helper for the `err:` label of `drm_output_apply_state_legacy`: clear the
tracked cursor view and free the output state. -/
def drm_output_apply_state_legacy_err (w : World) (outputId osId : Nat) : World :=
  let w1 :=
    match w.outGet outputId with
    | some o => w.outSet outputId { o with cursor_view := none }
    | none => w
  drm_output_state_free w1 (some osId)

/-- Model of `drm_output_apply_state_legacy`. A state that is not powering
the output on clears every overlay plane, the cursor and then the CRTC (null
framebuffer), assigns synchronously, and completes on the spot with a
software timestamp, returning 0 regardless of ioctl failures (they are only
logged). A powering-on state performs a mode set when required (resync or
stride change), queues a page flip, updates the cursor, programs each overlay
(requesting one vblank event per overlay), updates the DPMS property when it
changed, and assigns asynchronously; a failed mode set or page flip takes
the `err:` path, freeing the state and returning -1 while the output keeps
its previous live state. Geometry assertions on the scanout state concern
rectangle fields outside this model. -/
def drm_output_apply_state_legacy (w : World) (osId : Nat) (io : LegacyIo) :
    World × Int × List Ev :=
  match w.osGet osId with
  | none => (w, -1, [])
  | some st =>
    match w.outGet st.output with
    | none => (w, -1, [])
    | some out =>
      let w0 :=
        if out.disable_planes then
          w.outSet st.output { out with cursor_view := none }
        else w
      if st.dpms ≠ Dpms.On then
        let overlayEvs := st.plane_list.filterMap fun psId =>
          match w0.psGet psId with
          | some ps =>
            match w0.plGet ps.plane with
            | some pl =>
              if pl.ptype = PlaneType.Overlay then some (Ev.SetPlaneIoctl ps.plane 0)
              else none
            | none => none
          | none => none
        let cursorEvs :=
          match out.cursor_plane with
          | some _ => [Ev.SetCursorIoctl 0]
          | none => []
        let w1 := drm_output_assign_state w0 osId ApplyMode.Sync
        let r := drm_output_update_complete w1 st.output
        (r.1, 0, overlayEvs ++ cursorEvs ++ [Ev.SetCrtcIoctl 0, Ev.Complete r.2])
      else
        match drm_output_state_get_existing_plane w0 osId out.scanout_plane with
        | none => (drm_output_apply_state_legacy_err w0 st.output osId, -1, [])
        | some ssId =>
          match w0.psGet ssId with
          | none => (drm_output_apply_state_legacy_err w0 st.output osId, -1, [])
          | some ss =>
            let fbId := ss.fb.getD 0
            let strideOf := fun (f : Option Nat) =>
              match f with
              | some fid =>
                match assocFind w0.fb_refs fid with
                | some r => r.stride
                | none => 0
              | none => 0
            let curFb :=
              match w0.plGet out.scanout_plane with
              | some pl =>
                match pl.state_cur with
                | some cid => (w0.psGet cid).bind (fun c => c.fb)
                | none => none
              | none => none
            let needModeset :=
              w0.state_invalid || curFb == none || strideOf curFb != strideOf ss.fb
            let msEvs := if needModeset then [Ev.SetCrtcIoctl fbId] else []
            if needModeset && !io.setCrtcOk then
              (drm_output_apply_state_legacy_err w0 st.output osId, -1, msEvs)
            else if ¬io.pageFlipOk then
              (drm_output_apply_state_legacy_err w0 st.output osId, -1,
               msEvs ++ [Ev.PageFlipIoctl fbId])
            else
              let curEvs := drm_output_set_cursor w0 osId
              let ovEvs := st.plane_list.foldr
                (fun psId acc =>
                  match w0.psGet psId with
                  | some ps =>
                    match w0.plGet ps.plane with
                    | some pl =>
                      if pl.ptype = PlaneType.Overlay then
                        let ovFb :=
                          match ps.fb with
                          | some f => if w0.sprites_hidden then 0 else f
                          | none => 0
                        Ev.SetPlaneIoctl ps.plane ovFb :: Ev.VBlankRequest ps.plane :: acc
                      else acc
                    | none => acc
                  | none => acc) []
              let curDpms :=
                match out.state_cur with
                | some cur =>
                  match w0.osGet cur with
                  | some os => os.dpms
                  | none => st.dpms
                | none => st.dpms
              let dpmsEvs :=
                if out.has_dpms_prop ∧ st.dpms ≠ curDpms then [Ev.DpmsProp st.dpms]
                else []
              let wN := drm_output_assign_state w0 osId ApplyMode.Async
              (wN, 0, msEvs ++ [Ev.PageFlipIoctl fbId] ++ curEvs ++ ovEvs ++ dpmsEvs)

/-- Return codes of the calls made by the atomic path. `compileOk` stands for
the per-output result of `drm_output_apply_state_atomic` (blob creation plus
the CRTC/connector/plane `drmModeAtomicAddProperty` calls — these build the
request object only and do not touch backend state), `resyncOk` for the
property lookups performed for unused connectors and CRTCs when
`state_invalid` forces a full resync, and `commitOk` for
`drmModeAtomicCommit` itself. -/
structure AtomicIo where
  reqAllocOk : Bool
  resyncOk : Bool
  compileOk : Nat → Bool
  commitOk : Bool

/-- Model of `drm_pending_state_apply_atomic`. Allocation failure of the
request returns -1 without touching anything (the pending state survives).
Otherwise the request is compiled (including the resync additions when
`state_invalid`); if compilation or the commit ioctl fails, nothing is
assigned, the pending state is freed and the error returned, leaving
`state_invalid` untouched. On success every output state is assigned with
the requested mode, `state_invalid` is cleared and the now-empty pending
state freed. -/
def drm_pending_state_apply_atomic (w : World) (pid : Nat) (mode : ApplyMode)
    (io : AtomicIo) : World × Int × List Ev :=
  match w.pdGet pid with
  | none => (w, -1, [])
  | some p =>
    if ¬io.reqAllocOk then (w, -1, [])
    else
      let compileFailed :=
        (w.state_invalid ∧ ¬io.resyncOk) ∨ p.output_list.any (fun osId => ¬io.compileOk osId)
      if compileFailed then (drm_pending_state_free w (some pid), -1, [])
      else if ¬io.commitOk then
        (drm_pending_state_free w (some pid), -1, [Ev.AtomicCommitIoctl])
      else
        let w1 := p.output_list.foldl
          (fun acc osId => drm_output_assign_state acc osId mode) w
        let w2 : World := { w1 with state_invalid := false }
        (drm_pending_state_free w2 (some pid), 0, [Ev.AtomicCommitIoctl])

/-- Per-output-state oracles used by `drm_pending_state_apply`. -/
structure PendingIo where
  atomic : AtomicIo
  legacy : Nat → LegacyIo

/-- Body of the output loop of `drm_pending_state_apply` on the legacy path:
virtual outputs are assigned directly (asynchronously); real outputs go
through `drm_output_apply_state_legacy`, whose failure is logged and
otherwise ignored. -/
def drm_pending_state_apply_body (io : Nat → LegacyIo) (acc : World) (osId : Nat) :
    World :=
  match acc.osGet osId with
  | none => acc
  | some os =>
    match acc.outGet os.output with
    | none => acc
    | some out =>
      if out.virtualOut then drm_output_assign_state acc osId ApplyMode.Async
      else (drm_output_apply_state_legacy acc osId (io osId)).1

/-- Output loop of `drm_pending_state_apply` over a snapshot of the pending
state's output list (`wl_list_for_each_safe`). -/
def drm_pending_state_apply_loop (w : World) (osIds : List Nat) (io : Nat → LegacyIo) :
    World :=
  osIds.foldl (drm_pending_state_apply_body io) w

/-- Model of `drm_pending_state_apply`, the asynchronous flush entry point.
On an atomic backend it defers to `drm_pending_state_apply_atomic`. On the
legacy path it disables unused CRTCs when `state_invalid` is set (pure
ioctls), applies each output state in turn ignoring individual failures,
unconditionally clears `state_invalid`, frees the pending state and
returns 0. -/
def drm_pending_state_apply (w : World) (pid : Nat) (io : PendingIo) : World × Int :=
  if w.atomic_modeset then
    let r := drm_pending_state_apply_atomic w pid ApplyMode.Async io.atomic
    (r.1, r.2.1)
  else
    let osIds := ((w.pdGet pid).map PendingState.output_list).getD []
    let w1 := drm_pending_state_apply_loop w osIds io.legacy
    let w2 : World := { w1 with state_invalid := false }
    (drm_pending_state_free w2 (some pid), 0)

/-- Model of `drm_plane_state_put_back`: a null state is ignored; otherwise
the state is freed (without force) and, if the plane's hardware-live state
still shows an enabled framebuffer, a fresh empty state is allocated in its
place so the output state keeps an entry for the plane. -/
def drm_plane_state_put_back (w : World) (state : Option Nat) : World :=
  match state with
  | none => w
  | some psId =>
    match w.psGet psId with
    | none => w
    | some ps =>
      let state_output := ps.output_state
      let plane := ps.plane
      let w1 := drm_plane_state_free w (some psId) false
      let liveFb :=
        match w1.plGet plane with
        | some pl =>
          match pl.state_cur with
          | some cid => (w1.psGet cid).bind (fun c => c.fb)
          | none => none
        | none => none
      match liveFb with
      | none => w1
      | some _ => (drm_plane_state_alloc w1 state_output plane).1

/-! ## Plane assignment (`drm_assign_planes`)

The per-view placement helpers (`drm_output_prepare_cursor_view`,
`drm_output_prepare_scanout_view`, `drm_output_prepare_overlay_view`) succeed
or fail based on buffer properties, transforms and plane availability; their
outcomes are per-view oracle bits here. Regions (`pixman_region32_t`) are
finite pixel sets, for which `pixman_region32_intersect` /
`pixman_region32_union` / `pixman_region32_not_empty` are set intersection,
union and nonemptiness. -/

/-- Per-view input to the assignment loop: the view's transformed bounding
box and whether each placement helper would succeed for it. -/
structure ViewInfo where
  bbox : Finset (Int × Int)
  cursorOk : Bool
  scanoutOk : Bool
  overlayOk : Bool
deriving DecidableEq

/-- The plane a view ends up on. -/
inductive PlanePick where
  | PrimaryPlane
  | CursorPick
  | ScanoutPick
  | OverlayPick
deriving DecidableEq, Repr

/-- Which placement helpers the loop body invoked for a view. -/
inductive PrepareAttempt where
  | TryCursor
  | TryScanout
  | TryOverlay
deriving DecidableEq, Repr

/-- Loop state of `drm_assign_planes`: the accumulated renderer-covered
region and whether scanout has been claimed this cycle. -/
structure AssignAcc where
  renderer_region : Finset (Int × Int)
  picked_scanout : Bool
deriving DecidableEq

/-- Body of the view loop in `drm_assign_planes`: a view whose bounding box
overlaps the renderer region, or arriving after scanout was claimed, goes to
the primary plane without trying any placement helper; otherwise cursor,
scanout and overlay placement are tried in that order, falling back to the
primary plane. Views on the primary plane union their bounding box into the
renderer region. Returns the new loop state, the chosen plane and the
helpers invoked. -/
def drm_assign_planes_step (acc : AssignAcc) (v : ViewInfo) :
    AssignAcc × PlanePick × List PrepareAttempt :=
  let surface_overlap := acc.renderer_region ∩ v.bbox
  if surface_overlap.Nonempty ∨ acc.picked_scanout then
    ({ acc with renderer_region := acc.renderer_region ∪ v.bbox },
     PlanePick.PrimaryPlane, [])
  else if v.cursorOk then (acc, PlanePick.CursorPick, [PrepareAttempt.TryCursor])
  else if v.scanoutOk then
    ({ acc with picked_scanout := true }, PlanePick.ScanoutPick,
     [PrepareAttempt.TryCursor, PrepareAttempt.TryScanout])
  else if v.overlayOk then
    (acc, PlanePick.OverlayPick,
     [PrepareAttempt.TryCursor, PrepareAttempt.TryScanout, PrepareAttempt.TryOverlay])
  else
    ({ acc with renderer_region := acc.renderer_region ∪ v.bbox },
     PlanePick.PrimaryPlane,
     [PrepareAttempt.TryCursor, PrepareAttempt.TryScanout, PrepareAttempt.TryOverlay])

/-- The view loop of `drm_assign_planes`, starting from an empty renderer
region with scanout unclaimed. -/
def drm_assign_planes (views : List ViewInfo) : AssignAcc :=
  views.foldl (fun acc v => (drm_assign_planes_step acc v).1)
    { renderer_region := ∅, picked_scanout := false }

/-! ## Theorems -/

/-- Helper: `drm_fb_destroy_dumb` does not read the reference count. -/
theorem drm_fb_destroy_dumb_refcnt (fb : DrmFb) (n : Nat) :
    drm_fb_destroy_dumb { fb with refcnt := n } = drm_fb_destroy_dumb fb := rfl

/-- Helper: a run over a live dumb framebuffer emits no hardware event until
the reference count crosses to zero, at which point it emits exactly the
`drm_fb_destroy_dumb` trace; a surviving framebuffer differs only in its
reference count, which stays positive. -/
theorem drm_fb_run_dumb (ops : List FbOp) (fb : DrmFb)
    (ht : fb.ftype = FbType.PixmanDumb) (hr : 0 < fb.refcnt) :
    ((drm_fb_run ops fb).2 =
      (if (drm_fb_run ops fb).1 = none then drm_fb_destroy_dumb fb else [])) ∧
    (∀ fb', (drm_fb_run ops fb).1 = some fb' →
      fb' = { fb with refcnt := fb'.refcnt } ∧ 0 < fb'.refcnt) := by
  induction ops generalizing fb with
  | nil =>
    refine ⟨by simp [drm_fb_run], ?_⟩
    intro fb' h
    simp [drm_fb_run] at h
    subst h
    exact ⟨rfl, hr⟩
  | cons op ops ih =>
    cases op with
    | Ref =>
      have hrec := ih (drm_fb_ref fb) ht (Nat.succ_pos _)
      have hrw : drm_fb_run (FbOp.Ref :: ops) fb = drm_fb_run ops (drm_fb_ref fb) := rfl
      rw [hrw]
      refine ⟨?_, ?_⟩
      · rw [hrec.1]
        have : drm_fb_destroy_dumb (drm_fb_ref fb) = drm_fb_destroy_dumb fb := rfl
        rw [this]
      · intro fb' h
        obtain ⟨heq, hpos⟩ := hrec.2 fb' h
        exact ⟨heq, hpos⟩
    | Unref =>
      by_cases hz : 0 < fb.refcnt - 1
      · have hun : drm_fb_unref fb = (some { fb with refcnt := fb.refcnt - 1 }, []) := by
          simp [drm_fb_unref, hz]
        have hrec := ih { fb with refcnt := fb.refcnt - 1 } ht hz
        have hrw : drm_fb_run (FbOp.Unref :: ops) fb =
            ((drm_fb_run ops { fb with refcnt := fb.refcnt - 1 }).1,
             [] ++ (drm_fb_run ops { fb with refcnt := fb.refcnt - 1 }).2) := by
          simp [drm_fb_run, hun]
        rw [hrw]
        refine ⟨?_, ?_⟩
        · simp only [List.nil_append]
          rw [hrec.1]
          have : drm_fb_destroy_dumb { fb with refcnt := fb.refcnt - 1 } =
              drm_fb_destroy_dumb fb := rfl
          rw [this]
        · intro fb' h
          simp only at h
          obtain ⟨heq, hpos⟩ := hrec.2 fb' h
          exact ⟨heq, hpos⟩
      · have hun : drm_fb_unref fb = (none, drm_fb_destroy_dumb fb) := by
          unfold drm_fb_unref
          rw [if_neg hz, ht]
        have hrw : drm_fb_run (FbOp.Unref :: ops) fb = (none, drm_fb_destroy_dumb fb) := by
          simp [drm_fb_run, hun]
        rw [hrw]
        exact ⟨by simp, fun fb' h => by simp at h⟩

/-- Concrete dumb framebuffer at the point of its final unref. -/
def fbDumbEx : DrmFb :=
  { refcnt := 1, fb_id := 5, ftype := FbType.PixmanDumb,
    hasMap := true, size := 4096, handle := 7 }

/-- Concrete gbm-surface-backed framebuffer at the point of its final unref. -/
def fbSurfEx : DrmFb :=
  { refcnt := 1, fb_id := 9, ftype := FbType.GbmSurface,
    hasMap := false, size := 0, handle := 8 }

/-- C4 counterexample: on the zero-crossing unref of a dumb framebuffer the
code unmaps the dumb memory and destroys the allocation first and calls
`drmModeRmFB` only afterwards (inside `drm_fb_destroy`), so the hardware id is
not unregistered before the backing is released as the claim states; and the
zero-crossing unref of a gbm-surface-backed framebuffer releases the buffer
back to its surface without unregistering the id at all. -/
theorem c4_counterexample :
    (drm_fb_unref fbDumbEx).2 =
      [FbEvent.MunmapDumb, FbEvent.DestroyDumbIoctl 7, FbEvent.RmFB 5,
       FbEvent.FreeStruct] ∧
    List.indexOf FbEvent.MunmapDumb (drm_fb_unref fbDumbEx).2 <
      List.indexOf (FbEvent.RmFB 5) (drm_fb_unref fbDumbEx).2 ∧
    countRmFB (drm_fb_unref fbSurfEx).2 = 0 ∧
    (drm_fb_unref fbSurfEx).1 = some { fbSurfEx with refcnt := 0 } := by
  decide

/-- Helper: a successful `drm_fb_create_dumb` yields exactly the advertised
fresh framebuffer and a trace with a single registration. -/
theorem drm_fb_create_dumb_success (io : CreateDumbIo) (fbId handle size : Nat)
    (fb : DrmFb) (h : (drm_fb_create_dumb io fbId handle size).1 = some fb) :
    fb = DrmFb.mk 1 fbId FbType.PixmanDumb true size handle ∧
    (drm_fb_create_dumb io fbId handle size).2 =
      [FbEvent.CreateDumbIoctl, FbEvent.AddFB fbId] := by
  unfold drm_fb_create_dumb at h ⊢
  split_ifs at h ⊢
  exact ⟨(Option.some.inj h).symm, rfl⟩

/-- C4 (amended): for a successfully created dumb framebuffer, the hardware
framebuffer id is registered exactly once (at creation) and unregistered
exactly once, on the unref that takes the reference count from 1 to 0; on
that zero-crossing the dumb memory is unmapped and its allocation destroyed
before the hardware id is unregistered. -/
theorem c4_dumb_fb_register_once (io : CreateDumbIo) (fbId handle size : Nat)
    (ops : List FbOp) (fb : DrmFb)
    (hcreate : (drm_fb_create_dumb io fbId handle size).1 = some fb)
    (hid : fbId ≠ 0) (hsz : 0 < size) :
    countAddFB (drm_fb_create_dumb io fbId handle size).2 = 1 ∧
    countRmFB (drm_fb_create_dumb io fbId handle size).2 = 0 ∧
    countRmFB (drm_fb_run ops fb).2 =
      (if (drm_fb_run ops fb).1 = none then 1 else 0) ∧
    ((drm_fb_run ops fb).1 = none →
      (drm_fb_run ops fb).2 =
        [FbEvent.MunmapDumb, FbEvent.DestroyDumbIoctl handle,
         FbEvent.RmFB fbId, FbEvent.FreeStruct]) := by
  obtain ⟨hfb, htr⟩ := drm_fb_create_dumb_success io fbId handle size fb hcreate
  subst hfb
  have hrun := drm_fb_run_dumb ops (DrmFb.mk 1 fbId FbType.PixmanDumb true size handle)
    rfl Nat.one_pos
  refine ⟨by rw [htr]; rfl, by rw [htr]; rfl, ?_, ?_⟩
  · rw [hrun.1]
    by_cases hh : (drm_fb_run ops
        (DrmFb.mk 1 fbId FbType.PixmanDumb true size handle)).1 = none
    · rw [if_pos hh, if_pos hh]
      simp [drm_fb_destroy_dumb, drm_fb_destroy, countRmFB, hid, hsz,
            List.countP_cons]
    · rw [if_neg hh, if_neg hh]
      rfl
  · intro hnone
    rw [hrun.1, if_pos hnone]
    simp [drm_fb_destroy_dumb, drm_fb_destroy, hid, hsz]

/-- All-success ioctl oracle for dumb-buffer creation. -/
def c4Io : CreateDumbIo :=
  { formatOk := true, createOk := true, addFb2Ok := true, addFbOk := true,
    mapOk := true, mmapOk := true }

/-- Witness for C4 (amended) at a concrete creation and a concrete
ref/unref/unref sequence. -/
theorem c4_dumb_fb_register_once_witness :
    (drm_fb_run [FbOp.Ref, FbOp.Unref, FbOp.Unref] fbDumbEx).2 =
      [FbEvent.MunmapDumb, FbEvent.DestroyDumbIoctl 7, FbEvent.RmFB 5,
       FbEvent.FreeStruct] := by
  have h := c4_dumb_fb_register_once c4Io 5 7 4096
    [FbOp.Ref, FbOp.Unref, FbOp.Unref] fbDumbEx (by decide) (by decide) (by decide)
  exact h.2.2.2 (by decide)

/-- C10: each state-releasing operation — framebuffer unref, plane-state
free, plane-state put-back, output-state free and pending-state free —
accepts a null argument and returns immediately, leaving the world unchanged. -/
theorem c10_release_null_is_noop :
    ∀ (w : World) (force : Bool),
      world_fb_unref w none = w ∧
      drm_plane_state_free w none force = w ∧
      drm_plane_state_put_back w none = w ∧
      drm_output_state_free w none = w ∧
      drm_pending_state_free w none = w :=
  fun _ _ => ⟨rfl, rfl, rfl, rfl, rfl⟩

/-- Helper: one assignment step never shrinks the renderer-covered region. -/
theorem drm_assign_planes_step_region_subset (acc : AssignAcc) (v : ViewInfo) :
    acc.renderer_region ⊆ (drm_assign_planes_step acc v).1.renderer_region := by
  unfold drm_assign_planes_step
  by_cases hov : (acc.renderer_region ∩ v.bbox).Nonempty ∨ acc.picked_scanout = true
  · rw [if_pos hov]
    exact Finset.subset_union_left
  · rw [if_neg hov]
    split_ifs <;> simp [Finset.subset_union_left, Finset.Subset.refl]

/-- C7: a surface whose bounding box meets the renderer-covered region, or
processed after scanout was claimed, goes to the primary plane with no
cursor/scanout/overlay placement attempted; a surface assigned to the primary
plane unions its bounding box into the renderer-covered region; and the
renderer-covered region after processing `n + 1` surfaces contains the region
after `n` surfaces. -/
theorem c7_forced_renderer_and_monotone (acc : AssignAcc) (v : ViewInfo)
    (views : List ViewInfo) (n : Nat) :
    (((acc.renderer_region ∩ v.bbox).Nonempty ∨ acc.picked_scanout = true) →
      drm_assign_planes_step acc v =
        ({ acc with renderer_region := acc.renderer_region ∪ v.bbox },
         PlanePick.PrimaryPlane, [])) ∧
    ((drm_assign_planes_step acc v).2.1 = PlanePick.PrimaryPlane →
      (drm_assign_planes_step acc v).1.renderer_region =
        acc.renderer_region ∪ v.bbox) ∧
    acc.renderer_region ⊆ (drm_assign_planes_step acc v).1.renderer_region ∧
    (drm_assign_planes (views.take n)).renderer_region ⊆
      (drm_assign_planes (views.take (n + 1))).renderer_region := by
  refine ⟨?_, ?_, drm_assign_planes_step_region_subset acc v, ?_⟩
  · intro h
    unfold drm_assign_planes_step
    rw [if_pos h]
  · intro h
    unfold drm_assign_planes_step at h ⊢
    by_cases hov : (acc.renderer_region ∩ v.bbox).Nonempty ∨ acc.picked_scanout = true
    · rw [if_pos hov]
    · rw [if_neg hov] at h ⊢
      split_ifs at h ⊢ <;> simp_all
  · rw [List.take_succ]
    unfold drm_assign_planes
    rw [List.foldl_append]
    cases hv : views[n]? with
    | none => simp
    | some v' =>
      simp only [Option.toList_some, List.foldl_cons, List.foldl_nil]
      exact drm_assign_planes_step_region_subset _ v'

/-- Concrete loop state with one pixel already renderer-covered. -/
def accEx : AssignAcc :=
  { renderer_region := {((0 : Int), (0 : Int))}, picked_scanout := false }

/-- Concrete view overlapping that pixel, with every placement helper able to
succeed. -/
def viewEx : ViewInfo :=
  { bbox := {((0 : Int), (0 : Int))}, cursorOk := true, scanoutOk := true,
    overlayOk := true }

/-- Witness for C7: the overlapping view is forced to the primary plane with
no placement attempted. -/
theorem c7_forced_renderer_and_monotone_witness :
    drm_assign_planes_step accEx viewEx =
      ({ accEx with renderer_region := accEx.renderer_region ∪ viewEx.bbox },
       PlanePick.PrimaryPlane, []) :=
  (c7_forced_renderer_and_monotone accEx viewEx [] 0).1 (by decide)

/-! ### Heap access lemmas -/

@[simp] theorem psGet_osSet (w : World) (i : Nat) (v : OutputState) (j : Nat) :
    (w.osSet i v).psGet j = w.psGet j := rfl

@[simp] theorem psGet_pdSet (w : World) (i : Nat) (v : PendingState) (j : Nat) :
    (w.pdSet i v).psGet j = w.psGet j := rfl

@[simp] theorem psGet_plSet (w : World) (i : Nat) (v : Plane) (j : Nat) :
    (w.plSet i v).psGet j = w.psGet j := rfl

@[simp] theorem psGet_outSet (w : World) (i : Nat) (v : Output) (j : Nat) :
    (w.outSet i v).psGet j = w.psGet j := rfl

@[simp] theorem osGet_psSet (w : World) (i : Nat) (v : PlaneState) (j : Nat) :
    (w.psSet i v).osGet j = w.osGet j := rfl

@[simp] theorem osGet_pdSet (w : World) (i : Nat) (v : PendingState) (j : Nat) :
    (w.pdSet i v).osGet j = w.osGet j := rfl

@[simp] theorem osGet_plSet (w : World) (i : Nat) (v : Plane) (j : Nat) :
    (w.plSet i v).osGet j = w.osGet j := rfl

@[simp] theorem osGet_outSet (w : World) (i : Nat) (v : Output) (j : Nat) :
    (w.outSet i v).osGet j = w.osGet j := rfl

@[simp] theorem outGet_psSet (w : World) (i : Nat) (v : PlaneState) (j : Nat) :
    (w.psSet i v).outGet j = w.outGet j := rfl

@[simp] theorem outGet_osSet (w : World) (i : Nat) (v : OutputState) (j : Nat) :
    (w.osSet i v).outGet j = w.outGet j := rfl

@[simp] theorem outGet_pdSet (w : World) (i : Nat) (v : PendingState) (j : Nat) :
    (w.pdSet i v).outGet j = w.outGet j := rfl

@[simp] theorem outGet_plSet (w : World) (i : Nat) (v : Plane) (j : Nat) :
    (w.plSet i v).outGet j = w.outGet j := rfl

@[simp] theorem plGet_psSet (w : World) (i : Nat) (v : PlaneState) (j : Nat) :
    (w.psSet i v).plGet j = w.plGet j := rfl

@[simp] theorem plGet_osSet (w : World) (i : Nat) (v : OutputState) (j : Nat) :
    (w.osSet i v).plGet j = w.plGet j := rfl

@[simp] theorem plGet_pdSet (w : World) (i : Nat) (v : PendingState) (j : Nat) :
    (w.pdSet i v).plGet j = w.plGet j := rfl

@[simp] theorem plGet_outSet (w : World) (i : Nat) (v : Output) (j : Nat) :
    (w.outSet i v).plGet j = w.plGet j := rfl

@[simp] theorem pdGet_psSet (w : World) (i : Nat) (v : PlaneState) (j : Nat) :
    (w.psSet i v).pdGet j = w.pdGet j := rfl

@[simp] theorem pdGet_osSet (w : World) (i : Nat) (v : OutputState) (j : Nat) :
    (w.osSet i v).pdGet j = w.pdGet j := rfl

@[simp] theorem pdGet_plSet (w : World) (i : Nat) (v : Plane) (j : Nat) :
    (w.plSet i v).pdGet j = w.pdGet j := rfl

@[simp] theorem pdGet_outSet (w : World) (i : Nat) (v : Output) (j : Nat) :
    (w.outSet i v).pdGet j = w.pdGet j := rfl

theorem osGet_osSet_self (w : World) (i : Nat) (v os : OutputState)
    (h : w.osGet i = some os) : (w.osSet i v).osGet i = some v :=
  assocFind_assocSet_self w.output_states i v os h

theorem osGet_osSet_ne (w : World) (i : Nat) (v : OutputState) (j : Nat)
    (h : j ≠ i) : (w.osSet i v).osGet j = w.osGet j :=
  assocFind_assocSet_ne w.output_states i j v h

theorem psGet_psSet_self (w : World) (i : Nat) (v ps : PlaneState)
    (h : w.psGet i = some ps) : (w.psSet i v).psGet i = some v :=
  assocFind_assocSet_self w.plane_states i v ps h

theorem psGet_psSet_ne (w : World) (i : Nat) (v : PlaneState) (j : Nat)
    (h : j ≠ i) : (w.psSet i v).psGet j = w.psGet j :=
  assocFind_assocSet_ne w.plane_states i j v h

theorem outGet_outSet_self (w : World) (i : Nat) (v out : Output)
    (h : w.outGet i = some out) : (w.outSet i v).outGet i = some v :=
  assocFind_assocSet_self w.outputs i v out h

theorem outGet_outSet_ne (w : World) (i : Nat) (v : Output) (j : Nat)
    (h : j ≠ i) : (w.outSet i v).outGet j = w.outGet j :=
  assocFind_assocSet_ne w.outputs i j v h

theorem pdGet_pdSet_self (w : World) (i : Nat) (v p : PendingState)
    (h : w.pdGet i = some p) : (w.pdSet i v).pdGet i = some v :=
  assocFind_assocSet_self w.pendings i v p h

theorem pdGet_pdSet_ne (w : World) (i : Nat) (v : PendingState) (j : Nat)
    (h : j ≠ i) : (w.pdSet i v).pdGet j = w.pdGet j :=
  assocFind_assocSet_ne w.pendings i j v h

/-- Helper: allocating a plane state linked into an existing output state
prepends a fresh identifier to that state's plane list; the fresh state is
fully zeroed (no output, no framebuffer) and all other plane-state lookups
are untouched. -/
theorem drm_plane_state_alloc_linked (w : World) (i plane : Nat) (os : OutputState)
    (h : w.osGet i = some os) :
    (drm_plane_state_alloc w (some i) plane).1.osGet i =
      some { os with plane_list := w.next_id :: os.plane_list } ∧
    ∀ j, (drm_plane_state_alloc w (some i) plane).1.psGet j =
      (if w.next_id = j then
        some { plane := plane, output := none, output_state := some i,
               fb := none, complete := false }
       else w.psGet j) := by
  unfold drm_plane_state_alloc
  have h1 : (World.osGet
      { w with next_id := w.next_id + 1,
               plane_states := (w.next_id,
                 { plane := plane, output := none, output_state := some i,
                   fb := none, complete := false }) :: w.plane_states } i) = some os := h
  simp only [h1]
  constructor
  · exact osGet_osSet_self _ i _ os h1
  · intro j
    rfl

/-- Helper: the CLEAR_PLANES duplication loop adds only freshly allocated
(null-output, null-framebuffer) plane states to the destination output state
and preserves its other fields. -/
theorem dup_clear_fold_ok (i : Nat) (l : List Nat) :
    ∀ (acc : World) (osAcc : OutputState),
      acc.osGet i = some osAcc →
      (∀ psId ∈ osAcc.plane_list, ∃ ps, acc.psGet psId = some ps ∧
        ps.fb = none ∧ ps.output = none) →
      ∃ osFin,
        (l.foldl (drm_output_state_duplicate_plane i DupMode.ClearPlanes) acc).osGet i
          = some osFin ∧
        osFin.pending_state = osAcc.pending_state ∧
        osFin.dpms = osAcc.dpms ∧
        osFin.output = osAcc.output ∧
        ∀ psId ∈ osFin.plane_list, ∃ ps,
          (l.foldl (drm_output_state_duplicate_plane i DupMode.ClearPlanes) acc).psGet psId
            = some ps ∧ ps.fb = none ∧ ps.output = none := by
  induction l with
  | nil =>
    intro acc osAcc h1 h2
    exact ⟨osAcc, h1, rfl, rfl, rfl, h2⟩
  | cons x xs ih =>
    intro acc osAcc h1 h2
    rw [List.foldl_cons]
    rcases hx : acc.psGet x with _ | ps
    · have hbody : drm_output_state_duplicate_plane i DupMode.ClearPlanes acc x = acc := by
        unfold drm_output_state_duplicate_plane
        rw [hx]
      rw [hbody]
      exact ih acc osAcc h1 h2
    · by_cases hop : ps.output = none
      · have hbody : drm_output_state_duplicate_plane i DupMode.ClearPlanes acc x = acc := by
          unfold drm_output_state_duplicate_plane
          rw [hx]
          simp [hop]
        rw [hbody]
        exact ih acc osAcc h1 h2
      · have hbody : drm_output_state_duplicate_plane i DupMode.ClearPlanes acc x =
            (drm_plane_state_alloc acc (some i) ps.plane).1 := by
          unfold drm_output_state_duplicate_plane
          rw [hx]
          simp [hop]
        rw [hbody]
        obtain ⟨hos, hps⟩ := drm_plane_state_alloc_linked acc i ps.plane osAcc h1
        have h2' : ∀ psId ∈ (osAcc.plane_list.cons acc.next_id), ∃ ps',
            (drm_plane_state_alloc acc (some i) ps.plane).1.psGet psId = some ps' ∧
            ps'.fb = none ∧ ps'.output = none := by
          intro psId hmem
          rcases List.mem_cons.mp hmem with hl | hr
          · subst hl
            rw [hps acc.next_id, if_pos rfl]
            exact ⟨_, rfl, rfl, rfl⟩
          · by_cases hnj : acc.next_id = psId
            · rw [hps psId, if_pos hnj]
              exact ⟨_, rfl, rfl, rfl⟩
            · obtain ⟨ps', hps', hfb, hop'⟩ := h2 psId hr
              rw [hps psId, if_neg hnj]
              exact ⟨ps', hps', hfb, hop'⟩
        obtain ⟨osFin, hfin, hp, hd, ho, hinv⟩ :=
          ih _ { osAcc with plane_list := acc.next_id :: osAcc.plane_list } hos h2'
        exact ⟨osFin, hfin, hp, hd, ho, hinv⟩


@[simp] theorem osGet_duplicate_link (w1 : World) (pending : Option Nat) (i j : Nat) :
    (drm_output_state_duplicate_link w1 pending i).osGet j = w1.osGet j := by
  unfold drm_output_state_duplicate_link
  cases pending with
  | none => rfl
  | some pid =>
    rcases hpd : w1.pdGet pid with _ | p <;> simp [hpd]

@[simp] theorem psGet_duplicate_link (w1 : World) (pending : Option Nat) (i j : Nat) :
    (drm_output_state_duplicate_link w1 pending i).psGet j = w1.psGet j := by
  unfold drm_output_state_duplicate_link
  cases pending with
  | none => rfl
  | some pid =>
    rcases hpd : w1.pdGet pid with _ | p <;> simp [hpd]

/-- Helper: CLEAR_PLANES duplication yields a state carrying the source's
output and power state, owned by the given pending state, all of whose plane
states are freshly allocated with null framebuffer and null output. -/
theorem drm_output_state_duplicate_clear_ok (w : World) (src : Nat)
    (pending : Option Nat) (srcOs : OutputState) (hos : w.osGet src = some srcOs) :
    ∃ osFin,
      (drm_output_state_duplicate w src pending DupMode.ClearPlanes).1.osGet
        (drm_output_state_duplicate w src pending DupMode.ClearPlanes).2 = some osFin ∧
      osFin.pending_state = pending ∧
      osFin.dpms = srcOs.dpms ∧
      osFin.output = srcOs.output ∧
      ∀ psId ∈ osFin.plane_list, ∃ ps,
        (drm_output_state_duplicate w src pending DupMode.ClearPlanes).1.psGet psId
          = some ps ∧ ps.fb = none ∧ ps.output = none := by
  unfold drm_output_state_duplicate
  rw [hos]
  dsimp only
  exact dup_clear_fold_ok w.next_id srcOs.plane_list _
    { output := srcOs.output, pending_state := pending, plane_list := [],
      dpms := srcOs.dpms }
    (by rw [osGet_duplicate_link]; simp [World.osGet])
    (fun psId hmem => absurd hmem (List.not_mem_nil psId))

/-- C8: the disable-state constructor (CLEAR_PLANES duplication of the
output's current state, with DPMS forced off) produces a state whose plane
states all carry a null framebuffer and a null owning output — exactly the
assertions (`ps->fb == NULL`, `ps->output == NULL`) of the legacy disable
branch — and whose power state is off. -/
theorem c8_disable_state_fully_null (w : World) (pid outputId : Nat)
    (out : Output) (curId : Nat) (curOs : OutputState)
    (hout : w.outGet outputId = some out)
    (hcur : out.state_cur = some curId)
    (hos : w.osGet curId = some curOs) :
    ∃ os,
      (drm_output_get_disable_state w pid outputId).1.osGet
        (drm_output_get_disable_state w pid outputId).2 = some os ∧
      os.dpms = Dpms.Off ∧
      ∀ psId ∈ os.plane_list, ∃ ps,
        (drm_output_get_disable_state w pid outputId).1.psGet psId = some ps ∧
        ps.fb = none ∧ ps.output = none := by
  obtain ⟨osFin, hfin, hp, hd, ho, hinv⟩ :=
    drm_output_state_duplicate_clear_ok w curId (some pid) curOs hos
  unfold drm_output_get_disable_state
  rw [hout]
  dsimp only
  rw [hcur]
  dsimp only
  rw [hfin]
  dsimp only
  refine ⟨{ osFin with dpms := Dpms.Off }, ?_, rfl, ?_⟩
  · exact osGet_osSet_self _ _ _ osFin hfin
  · intro psId hmem
    obtain ⟨ps, hps, hfb, hop⟩ := hinv psId hmem
    exact ⟨ps, by rw [psGet_osSet]; exact hps, hfb, hop⟩

/-- Concrete backend heap used by the witnesses: one enabled output (id 10)
scanning out plane-state 5 on primary plane 1 with overlay plane 2 showing
plane-state 6, an idle cursor plane 3 with resting state 7, a live output
state 20, an empty pending state 30 and two registered framebuffers. -/
def outEx : Output :=
  { state_cur := some 20, state_last := none, page_flip_pending := false,
    vblank_pending := 0, atomic_complete_pending := false,
    destroy_pending := false, disable_pending := false, dpms_off_pending := false,
    enabled := true, virtualOut := false, scanout_plane := 1, cursor_plane := some 3,
    cursor_view := none, awaiting_completion := true, has_dpms_prop := true,
    disable_planes := false }

/-- Concrete live output state for output 10. -/
def osCurEx : OutputState :=
  { output := 10, pending_state := none, plane_list := [5, 6], dpms := Dpms.On }

/-- Concrete world around `outEx`/`osCurEx`. -/
def wEx : World :=
  { next_id := 50,
    plane_states :=
      [(5, { plane := 1, output := some 10, output_state := some 20,
             fb := some 100, complete := true }),
       (6, { plane := 2, output := some 10, output_state := some 20,
             fb := some 101, complete := true }),
       (7, { plane := 3, output := none, output_state := none,
             fb := none, complete := true })],
    output_states := [(20, osCurEx)],
    pendings := [(30, { output_list := [] })],
    planes :=
      [(1, { ptype := PlaneType.Primary, state_cur := some 5 }),
       (2, { ptype := PlaneType.Overlay, state_cur := some 6 }),
       (3, { ptype := PlaneType.CursorType, state_cur := some 7 })],
    outputs := [(10, outEx)],
    fb_refs := [(100, { refcnt := 1, stride := 4 }), (101, { refcnt := 1, stride := 4 })],
    state_invalid := false, atomic_modeset := false, sprites_hidden := false }

/-- Witness for C8 at the concrete world. -/
theorem c8_disable_state_fully_null_witness :
    ∃ os,
      (drm_output_get_disable_state wEx 30 10).1.osGet
        (drm_output_get_disable_state wEx 30 10).2 = some os ∧
      os.dpms = Dpms.Off ∧
      ∀ psId ∈ os.plane_list, ∃ ps,
        (drm_output_get_disable_state wEx 30 10).1.psGet psId = some ps ∧
        ps.fb = none ∧ ps.output = none :=
  c8_disable_state_fully_null wEx 30 10 outEx 20 osCurEx rfl rfl rfl

/-! ### Frame lemmas: which heap components each operation can touch -/

/-- Shape of `drm_plane_state_free`: it can only modify the plane-state
table, the output-state table and the framebuffer reference counts. -/
theorem drm_plane_state_free_shape (w : World) (s : Option Nat) (f : Bool) :
    ∃ X Y Z, drm_plane_state_free w s f =
      { w with plane_states := X, output_states := Y, fb_refs := Z } := by
  unfold drm_plane_state_free
  dsimp only
  repeat' split
  all_goals exact ⟨_, _, _, rfl⟩

/-- Shape of `drm_output_state_free`: it can only modify the plane-state,
output-state, pending-state and framebuffer tables. -/
theorem drm_output_state_free_shape (w : World) (s : Option Nat) :
    ∃ X Y P Z, drm_output_state_free w s =
      { w with plane_states := X, output_states := Y, pendings := P, fb_refs := Z } := by
  have hfold : ∀ (l : List Nat) (acc : World), ∃ X Y Z,
      l.foldl (fun a psId => drm_plane_state_free a (some psId) false) acc =
        { acc with plane_states := X, output_states := Y, fb_refs := Z } := by
    intro l
    induction l with
    | nil => intro acc; exact ⟨_, _, _, rfl⟩
    | cons x xs ih =>
      intro acc
      rw [List.foldl_cons]
      obtain ⟨X1, Y1, Z1, h1⟩ := drm_plane_state_free_shape acc (some x) false
      obtain ⟨X2, Y2, Z2, h2⟩ := ih (drm_plane_state_free acc (some x) false)
      rw [h2, h1]
      exact ⟨_, _, _, rfl⟩
  unfold drm_output_state_free
  try dsimp only
  repeat' split
  all_goals try exact ⟨_, _, _, _, rfl⟩
  all_goals {
    obtain ⟨X, Y, Z, hf⟩ := hfold _ w
    rw [hf]
    try dsimp only
    repeat' split
    all_goals exact ⟨_, _, _, _, rfl⟩
  }

/-- Shape of `drm_pending_state_free`: it can only modify the plane-state,
output-state, pending-state and framebuffer tables. -/
theorem drm_pending_state_free_shape (w : World) (s : Option Nat) :
    ∃ X Y P Z, drm_pending_state_free w s =
      { w with plane_states := X, output_states := Y, pendings := P, fb_refs := Z } := by
  have hfold : ∀ (l : List Nat) (acc : World), ∃ X Y P Z,
      l.foldl (fun a osId => drm_output_state_free a (some osId)) acc =
        { acc with plane_states := X, output_states := Y, pendings := P, fb_refs := Z } := by
    intro l
    induction l with
    | nil => intro acc; exact ⟨_, _, _, _, rfl⟩
    | cons x xs ih =>
      intro acc
      rw [List.foldl_cons]
      obtain ⟨X1, Y1, P1, Z1, h1⟩ := drm_output_state_free_shape acc (some x)
      obtain ⟨X2, Y2, P2, Z2, h2⟩ := ih (drm_output_state_free acc (some x))
      rw [h2, h1]
      exact ⟨_, _, _, _, rfl⟩
  unfold drm_pending_state_free
  try dsimp only
  repeat' split
  all_goals try exact ⟨_, _, _, _, rfl⟩
  all_goals {
    obtain ⟨X, Y, P, Z, hf⟩ := hfold _ w
    rw [hf]
    try dsimp only
    repeat' split
    all_goals exact ⟨_, _, _, _, rfl⟩
  }

theorem drm_plane_state_free_outGet (w : World) (s : Option Nat) (f : Bool) (j : Nat) :
    (drm_plane_state_free w s f).outGet j = w.outGet j := by
  obtain ⟨X, Y, Z, h⟩ := drm_plane_state_free_shape w s f
  rw [h]
  rfl

theorem drm_plane_state_free_plGet (w : World) (s : Option Nat) (f : Bool) (j : Nat) :
    (drm_plane_state_free w s f).plGet j = w.plGet j := by
  obtain ⟨X, Y, Z, h⟩ := drm_plane_state_free_shape w s f
  rw [h]
  rfl

theorem drm_plane_state_free_pdGet (w : World) (s : Option Nat) (f : Bool) (j : Nat) :
    (drm_plane_state_free w s f).pdGet j = w.pdGet j := by
  obtain ⟨X, Y, Z, h⟩ := drm_plane_state_free_shape w s f
  rw [h]
  rfl

theorem drm_output_state_free_outGet (w : World) (s : Option Nat) (j : Nat) :
    (drm_output_state_free w s).outGet j = w.outGet j := by
  obtain ⟨X, Y, P, Z, h⟩ := drm_output_state_free_shape w s
  rw [h]
  rfl

theorem drm_output_state_free_plGet (w : World) (s : Option Nat) (j : Nat) :
    (drm_output_state_free w s).plGet j = w.plGet j := by
  obtain ⟨X, Y, P, Z, h⟩ := drm_output_state_free_shape w s
  rw [h]
  rfl

theorem drm_pending_state_free_outGet (w : World) (s : Option Nat) (j : Nat) :
    (drm_pending_state_free w s).outGet j = w.outGet j := by
  obtain ⟨X, Y, P, Z, h⟩ := drm_pending_state_free_shape w s
  rw [h]
  rfl

theorem drm_pending_state_free_plGet (w : World) (s : Option Nat) (j : Nat) :
    (drm_pending_state_free w s).plGet j = w.plGet j := by
  obtain ⟨X, Y, P, Z, h⟩ := drm_pending_state_free_shape w s
  rw [h]
  rfl

theorem drm_pending_state_free_state_invalid (w : World) (s : Option Nat) :
    (drm_pending_state_free w s).state_invalid = w.state_invalid := by
  obtain ⟨X, Y, P, Z, h⟩ := drm_pending_state_free_shape w s
  rw [h]

/-- Freeing one plane state leaves every other plane-state lookup unchanged. -/
theorem drm_plane_state_free_psGet_ne (w : World) (psId : Nat) (f : Bool) (x : Nat)
    (hne : psId ≠ x) :
    (drm_plane_state_free w (some psId) f).psGet x = w.psGet x := by
  have hset : ∀ (l : List (Nat × PlaneState)) (v : PlaneState),
      assocFind (assocSet l psId v) x = assocFind l x :=
    fun l v => assocFind_assocSet_ne l psId x v (Ne.symm hne)
  have herase : ∀ (l : List (Nat × PlaneState)),
      assocFind (assocErase l psId) x = assocFind l x := by
    intro l
    rw [assocFind_assocErase, if_neg (Ne.symm hne)]
  unfold drm_plane_state_free
  try dsimp only
  repeat' split
  all_goals
    simp only [World.psGet, World.psSet, World.osSet, world_fb_unref, hset, herase]

/-- Freeing an output state leaves plane states outside its plane list
unchanged. -/
theorem drm_output_state_free_psGet (w : World) (osId : Nat) (os : OutputState)
    (x : Nat) (hos : w.osGet osId = some os) (hx : x ∉ os.plane_list) :
    (drm_output_state_free w (some osId)).psGet x = w.psGet x := by
  have hfold : ∀ (l : List Nat) (acc : World), (∀ y ∈ l, y ≠ x) →
      (l.foldl (fun a psId => drm_plane_state_free a (some psId) false) acc).psGet x
        = acc.psGet x := by
    intro l
    induction l with
    | nil => intro acc _; rfl
    | cons y ys ih =>
      intro acc hall
      rw [List.foldl_cons, ih _ (fun z hz => hall z (List.mem_cons_of_mem y hz)),
        drm_plane_state_free_psGet_ne acc y false x (hall y (List.mem_cons_self y ys))]
  have hmain := hfold os.plane_list w (fun z hz hzx => hx (hzx ▸ hz))
  simp only [World.psGet] at hmain
  unfold drm_output_state_free
  try dsimp only
  rw [hos]
  try dsimp only
  repeat' split
  all_goals
    simp only [World.psGet, World.pdSet]
  all_goals exact hmain

/-- Freeing an output state removes it from the heap. -/
theorem drm_output_state_free_osGet_self (w : World) (osId : Nat) :
    (drm_output_state_free w (some osId)).osGet osId = none := by
  unfold drm_output_state_free
  try dsimp only
  rcases hos : w.osGet osId with _ | os
  · exact hos
  · try dsimp only
    repeat' split
    all_goals
      simp [World.osGet, World.pdSet, assocFind_assocErase]

theorem mark_complete_body_outGet (acc : World) (psId j : Nat) :
    (mark_complete_body acc psId).outGet j = acc.outGet j := by
  unfold mark_complete_body
  repeat' split
  all_goals rfl

theorem mark_complete_body_osGet (acc : World) (psId j : Nat) :
    (mark_complete_body acc psId).osGet j = acc.osGet j := by
  unfold mark_complete_body
  repeat' split
  all_goals rfl

theorem mark_fold_outGet (l : List Nat) (acc : World) (j : Nat) :
    (l.foldl mark_complete_body acc).outGet j = acc.outGet j := by
  induction l generalizing acc with
  | nil => rfl
  | cons y ys ih => rw [List.foldl_cons, ih, mark_complete_body_outGet]

theorem mark_fold_osGet (l : List Nat) (acc : World) (j : Nat) :
    (l.foldl mark_complete_body acc).osGet j = acc.osGet j := by
  induction l generalizing acc with
  | nil => rfl
  | cons y ys ih => rw [List.foldl_cons, ih, mark_complete_body_osGet]

theorem mark_complete_body_psGet_ne (acc : World) (psId x : Nat) (hne : psId ≠ x) :
    (mark_complete_body acc psId).psGet x = acc.psGet x := by
  unfold mark_complete_body
  repeat' split
  all_goals first
    | rfl
    | exact psGet_psSet_ne acc _ _ x (Ne.symm hne)

theorem mark_fold_psGet_ne (l : List Nat) (acc : World) (x : Nat) (hx : x ∉ l) :
    (l.foldl mark_complete_body acc).psGet x = acc.psGet x := by
  induction l generalizing acc with
  | nil => rfl
  | cons y ys ih =>
    rw [List.foldl_cons, ih _ (fun h => hx (List.mem_cons_of_mem y h)),
      mark_complete_body_psGet_ne acc y x (fun h => hx (h ▸ List.mem_cons_self y ys))]

theorem mark_complete_body_isSome (acc : World) (psId x : Nat)
    (h : (acc.psGet x).isSome) : ((mark_complete_body acc psId).psGet x).isSome := by
  unfold mark_complete_body
  rcases hps : acc.psGet psId with _ | ps
  · exact h
  · by_cases hxy : psId = x
    · subst hxy
      rw [psGet_psSet_self acc psId _ ps hps]
      rfl
    · rw [psGet_psSet_ne acc psId _ x (Ne.symm hxy)]
      exact h

theorem mark_fold_psGet_mem (l : List Nat) (acc : World) (x : Nat) (hx : x ∈ l)
    (hsome : (acc.psGet x).isSome) :
    ∃ ps', (l.foldl mark_complete_body acc).psGet x = some ps' ∧
      ps'.complete = true := by
  induction l generalizing acc with
  | nil => exact absurd hx (List.not_mem_nil x)
  | cons y ys ih =>
    rw [List.foldl_cons]
    by_cases hmem : x ∈ ys
    · exact ih _ hmem (mark_complete_body_isSome acc y x hsome)
    · have hxy : x = y := by
        rcases List.mem_cons.mp hx with h | h
        · exact h
        · exact absurd h hmem
      subst hxy
      rcases hps : acc.psGet x with _ | ps
      · rw [hps] at hsome
        simp at hsome
      · have hstep : (mark_complete_body acc x).psGet x =
            some { ps with complete := true } := by
          unfold mark_complete_body
          rw [hps]
          exact psGet_psSet_self acc x _ ps hps
        rw [mark_fold_psGet_ne ys _ x hmem, hstep]
        exact ⟨_, rfl, rfl⟩

/-- Specification of `drm_output_update_complete`: the previous state is
freed and cleared, every plane state of the current state is marked complete,
all deferral flags end cleared, and the single deferred action is selected
with destroy before disable before DPMS-off. -/
theorem drm_output_update_complete_spec (w : World) (outputId : Nat) (out : Output)
    (curId : Nat) (curOs : OutputState)
    (hout : w.outGet outputId = some out)
    (hcur : out.state_cur = some curId)
    (hcuros : w.osGet curId = some curOs)
    (hps_all : ∀ psId ∈ curOs.plane_list, (w.psGet psId).isSome)
    (hdisj : ∀ lastId lastOs, out.state_last = some lastId →
      w.osGet lastId = some lastOs →
      ∀ psId ∈ curOs.plane_list, psId ∉ lastOs.plane_list) :
    (∃ o', (drm_output_update_complete w outputId).1.outGet outputId = some o' ∧
      o'.state_last = none ∧ o'.destroy_pending = false ∧
      o'.disable_pending = false ∧ o'.dpms_off_pending = false) ∧
    (∀ lastId, out.state_last = some lastId →
      (drm_output_update_complete w outputId).1.osGet lastId = none) ∧
    (∀ psId ∈ curOs.plane_list, ∃ ps',
      (drm_output_update_complete w outputId).1.psGet psId = some ps' ∧
      ps'.complete = true) ∧
    (out.destroy_pending = true →
      (drm_output_update_complete w outputId).2 = CompleteAction.ActDestroy) ∧
    (out.destroy_pending = false → out.disable_pending = true →
      (drm_output_update_complete w outputId).2 = CompleteAction.ActDisable) ∧
    (out.destroy_pending = false → out.disable_pending = false →
      out.dpms_off_pending = true →
      (drm_output_update_complete w outputId).2 = CompleteAction.ActDpmsOff) := by
  have hW2out :
      (drm_output_state_free (curOs.plane_list.foldl mark_complete_body w)
        out.state_last).outGet outputId = some out := by
    rw [drm_output_state_free_outGet, mark_fold_outGet, hout]
  have hW2ps : ∀ psId ∈ curOs.plane_list, ∃ ps',
      (drm_output_state_free (curOs.plane_list.foldl mark_complete_body w)
        out.state_last).psGet psId = some ps' ∧ ps'.complete = true := by
    intro psId hmem
    obtain ⟨ps', hps', hc⟩ :=
      mark_fold_psGet_mem curOs.plane_list w psId hmem (hps_all psId hmem)
    rcases hlast : out.state_last with _ | lastId
    · exact ⟨ps', hps', hc⟩
    · rcases hlos : w.osGet lastId with _ | lastOs
      · have : (curOs.plane_list.foldl mark_complete_body w).osGet lastId = none := by
          rw [mark_fold_osGet, hlos]
        refine ⟨ps', ?_, hc⟩
        unfold drm_output_state_free
        dsimp only
        rw [this]
        exact hps'
      · have hosW1 : (curOs.plane_list.foldl mark_complete_body w).osGet lastId
            = some lastOs := by
          rw [mark_fold_osGet, hlos]
        rw [drm_output_state_free_psGet _ lastId lastOs psId hosW1
          (hdisj lastId lastOs hlast hlos psId hmem)]
        exact ⟨ps', hps', hc⟩
  have hW2os : ∀ lastId, out.state_last = some lastId →
      (drm_output_state_free (curOs.plane_list.foldl mark_complete_body w)
        out.state_last).osGet lastId = none := by
    intro lastId hlast
    rw [hlast]
    exact drm_output_state_free_osGet_self _ lastId
  unfold drm_output_update_complete
  rw [hout]
  dsimp only
  rw [hcur]
  dsimp only
  rw [hcuros]
  dsimp only
  rw [hW2out]
  dsimp only
  rw [outGet_outSet_self _ _ _ _ hW2out]
  dsimp only
  by_cases hd : out.destroy_pending = true
  · rw [if_pos hd]
    refine ⟨⟨_, outGet_outSet_self _ _ _ _ (outGet_outSet_self _ _ _ _ hW2out), rfl, rfl, rfl, rfl⟩,
      ?_, ?_, fun _ => rfl, fun hnd _ => absurd hd (by simp [hnd]), fun hnd _ _ => absurd hd (by simp [hnd])⟩
    · intro lastId hlast
      simp only [osGet_outSet]
      exact hW2os lastId hlast
    · intro psId hmem
      obtain ⟨ps', hps', hc⟩ := hW2ps psId hmem
      exact ⟨ps', by simp only [psGet_outSet]; exact hps', hc⟩
  · rw [if_neg hd]
    by_cases hdis : out.disable_pending = true
    · rw [if_pos hdis]
      refine ⟨⟨_, outGet_outSet_self _ _ _ _ (outGet_outSet_self _ _ _ _ hW2out), rfl,
        by simpa using hd, rfl, rfl⟩,
        ?_, ?_, fun h => absurd h hd, fun _ _ => rfl, fun _ hnd _ => absurd hdis (by simp [hnd])⟩
      · intro lastId hlast
        simp only [osGet_outSet]
        exact hW2os lastId hlast
      · intro psId hmem
        obtain ⟨ps', hps', hc⟩ := hW2ps psId hmem
        exact ⟨ps', by simp only [psGet_outSet]; exact hps', hc⟩
    · rw [if_neg hdis]
      by_cases hdp : out.dpms_off_pending = true
      · rw [if_pos hdp]
        refine ⟨⟨_, outGet_outSet_self _ _ _ _ (outGet_outSet_self _ _ _ _ hW2out), rfl,
          by simpa using hd, by simpa using hdis, rfl⟩,
          ?_, ?_, fun h => absurd h hd, fun _ h => absurd h hdis, fun _ _ _ => rfl⟩
        · intro lastId hlast
          simp only [osGet_outSet]
          exact hW2os lastId hlast
        · intro psId hmem
          obtain ⟨ps', hps', hc⟩ := hW2ps psId hmem
          exact ⟨ps', by simp only [psGet_outSet]; exact hps', hc⟩
      · rw [if_neg hdp]
        split_ifs with hcond
        all_goals {
          refine ⟨⟨_, outGet_outSet_self _ _ _ _ hW2out, rfl, by simpa using hd,
            by simpa using hdis, by simpa using hdp⟩,
            ?_, ?_, fun h => absurd h hd, fun _ h => absurd h hdis,
            fun _ _ h => absurd h hdp⟩
          · intro lastId hlast
            simp only [osGet_outSet]
            exact hW2os lastId hlast
          · intro psId hmem
            obtain ⟨ps', hps', hc⟩ := hW2ps psId hmem
            exact ⟨ps', by simp only [psGet_outSet]; exact hps', hc⟩
        }

/-- C2: the retirement path runs only once all of an output's
outstanding-completion counters (page-flip flag, overlay vblank count,
atomic-pending flag) are zero — each completion handler decrements its
counter and retires exactly when nothing remains outstanding; when it runs,
the previous output state is freed, the current state's plane states are
marked complete, and exactly one queued deferred action is selected, destroy
before disable before DPMS-off; and a disable() issued while completions are
outstanding only sets the disable-pending flag and returns -1, submitting
nothing. -/
theorem c2_retirement_gated_and_deferred :
    (∀ (w : World) (psId : Nat) (ps : PlaneState) (osId : Nat) (os : OutputState)
        (out : Output),
      w.psGet psId = some ps → ps.output_state = some osId →
      w.osGet osId = some os → w.outGet os.output = some out →
      out.atomic_complete_pending = false →
      ((vblank_handler w psId).2.1 = true ↔
        (out.page_flip_pending = false ∧ out.vblank_pending - 1 = 0 ∧
         out.atomic_complete_pending = false))) ∧
    (∀ (w : World) (outputId : Nat) (out : Output),
      w.outGet outputId = some out → out.atomic_complete_pending = false →
      ((page_flip_handler w outputId).2.1 = true ↔
        (out.vblank_pending = 0 ∧ out.atomic_complete_pending = false))) ∧
    (∀ (w : World) (outputId : Nat) (out : Output),
      w.outGet outputId = some out → out.enabled = true →
      (atomic_flip_handler w outputId).2.1 = true) ∧
    (∀ (w : World) (outputId : Nat) (out : Output) (curId : Nat) (curOs : OutputState),
      w.outGet outputId = some out → out.state_cur = some curId →
      w.osGet curId = some curOs →
      (∀ psId ∈ curOs.plane_list, (w.psGet psId).isSome) →
      (∀ lastId lastOs, out.state_last = some lastId →
        w.osGet lastId = some lastOs →
        ∀ psId ∈ curOs.plane_list, psId ∉ lastOs.plane_list) →
      (∃ o', (drm_output_update_complete w outputId).1.outGet outputId = some o' ∧
        o'.state_last = none ∧ o'.destroy_pending = false ∧
        o'.disable_pending = false ∧ o'.dpms_off_pending = false) ∧
      (∀ lastId, out.state_last = some lastId →
        (drm_output_update_complete w outputId).1.osGet lastId = none) ∧
      (∀ psId ∈ curOs.plane_list, ∃ ps',
        (drm_output_update_complete w outputId).1.psGet psId = some ps' ∧
        ps'.complete = true) ∧
      (out.destroy_pending = true →
        (drm_output_update_complete w outputId).2 = CompleteAction.ActDestroy) ∧
      (out.destroy_pending = false → out.disable_pending = true →
        (drm_output_update_complete w outputId).2 = CompleteAction.ActDisable) ∧
      (out.destroy_pending = false → out.disable_pending = false →
        out.dpms_off_pending = true →
        (drm_output_update_complete w outputId).2 = CompleteAction.ActDpmsOff)) ∧
    (∀ (w : World) (outputId : Nat) (out : Output),
      w.outGet outputId = some out →
      (out.page_flip_pending = true ∨ 0 < out.vblank_pending ∨
        out.atomic_complete_pending = true) →
      drm_output_disable w outputId =
        (w.outSet outputId { out with disable_pending := true }, -1)) := by
  refine ⟨?_, ?_, ?_, ?_, ?_⟩
  · intro w psId ps osId os out hps hpos hos hout hatomic
    unfold vblank_handler
    rw [hps]
    dsimp only
    rw [hpos]
    dsimp only
    rw [hos]
    dsimp only
    rw [hout]
    dsimp only
    rw [outGet_outSet_self _ _ _ _ hout]
    dsimp only
    by_cases hc : out.page_flip_pending = true ∨ 0 < out.vblank_pending - 1
    · rw [if_pos hc]
      dsimp only
      constructor
      · intro h
        cases h
      · rintro ⟨h1, h2, _⟩
        rcases hc with hc | hc
        · rw [h1] at hc
          cases hc
        · rw [h2] at hc
          cases (Nat.lt_irrefl 0 hc)
    · rw [if_neg hc]
      dsimp only
      push_neg at hc
      simp only [Bool.not_eq_true] at hc
      exact ⟨fun _ => ⟨hc.1, Nat.le_antisymm hc.2 (Nat.zero_le _), hatomic⟩,
        fun _ => rfl⟩
  · intro w outputId out hout hatomic
    unfold page_flip_handler
    rw [hout]
    dsimp only
    rw [outGet_outSet_self _ _ _ _ hout]
    dsimp only
    by_cases hc : 0 < out.vblank_pending
    · rw [if_pos hc]
      dsimp only
      constructor
      · intro h
        cases h
      · rintro ⟨h1, _⟩
        rw [h1] at hc
        cases (Nat.lt_irrefl 0 hc)
    · rw [if_neg hc]
      dsimp only
      exact ⟨fun _ => ⟨Nat.eq_zero_of_not_pos hc, hatomic⟩, fun _ => rfl⟩
  · intro w outputId out hout hen
    unfold atomic_flip_handler
    rw [hout]
    dsimp only
    rw [if_neg (by rw [hen]; exact fun h => h rfl)]
  · intro w outputId out curId curOs hout hcur hcuros hps hdisj
    exact drm_output_update_complete_spec w outputId out curId curOs hout hcur
      hcuros hps hdisj
  · intro w outputId out hout hpend
    unfold drm_output_disable
    rw [hout]
    dsimp only
    rw [if_pos hpend]

/-- Concrete output with a page flip outstanding (asynchronous commit in
flight: current state 20, previous state still awaiting retirement). -/
def outPendEx : Output :=
  { outEx with page_flip_pending := true }

/-- Concrete world in which output 10 has a completion outstanding. -/
def wPendEx : World :=
  { wEx with outputs := [(10, outPendEx)] }

/-- Witness for C2: with a page flip outstanding, disable() only sets the
disable-pending flag and returns -1. -/
theorem c2_retirement_gated_and_deferred_witness :
    drm_output_disable wPendEx 10 =
      (wPendEx.outSet 10 { outPendEx with disable_pending := true }, -1) :=
  c2_retirement_gated_and_deferred.2.2.2.2 wPendEx 10 outPendEx rfl (Or.inl rfl)

theorem plGet_plSet_self (w : World) (i : Nat) (v pl : Plane)
    (h : w.plGet i = some pl) : (w.plSet i v).plGet i = some v :=
  assocFind_assocSet_self w.planes i v pl h

theorem plGet_plSet_ne (w : World) (i : Nat) (v : Plane) (j : Nat)
    (h : j ≠ i) : (w.plSet i v).plGet j = w.plGet j :=
  assocFind_assocSet_ne w.planes i j v h

theorem assign_plane_dispose_plGet (w : World) (pl : Plane) (j : Nat) :
    (assign_plane_dispose w pl).plGet j = w.plGet j := by
  unfold assign_plane_dispose
  repeat' split
  all_goals first
    | rfl
    | rw [drm_plane_state_free_plGet]

theorem assign_plane_dispose_outGet (w : World) (pl : Plane) (j : Nat) :
    (assign_plane_dispose w pl).outGet j = w.outGet j := by
  unfold assign_plane_dispose
  repeat' split
  all_goals first
    | rfl
    | rw [drm_plane_state_free_outGet]

theorem assign_plane_dispose_psGet (w : World) (pl : Plane) (x : Nat)
    (hx : pl.state_cur ≠ some x) :
    (assign_plane_dispose w pl).psGet x = w.psGet x := by
  unfold assign_plane_dispose
  rcases hcur : pl.state_cur with _ | curId
  · rfl
  · have hne : curId ≠ x := fun h => hx (by rw [hcur, h])
    try dsimp only
    repeat' split
    all_goals first
      | rfl
      | rw [drm_plane_state_free_psGet_ne _ _ _ _ hne]

/-- Freeing a detached (ownerless) plane state does not touch output states. -/
theorem drm_plane_state_free_osGet_detached (w : World) (psId : Nat)
    (ps : PlaneState) (f : Bool) (hps : w.psGet psId = some ps)
    (hdet : ps.output_state = none) (j : Nat) :
    (drm_plane_state_free w (some psId) f).osGet j = w.osGet j := by
  unfold drm_plane_state_free
  try dsimp only
  rw [hps]
  try dsimp only
  rw [hdet]
  try dsimp only
  repeat' split
  all_goals rfl

theorem assign_plane_dispose_osGet (w : World) (pl : Plane) (j : Nat) :
    (assign_plane_dispose w pl).osGet j = w.osGet j := by
  unfold assign_plane_dispose
  repeat' split
  all_goals first
    | rfl
    | (rename_i curPs hcur hdet
       exact drm_plane_state_free_osGet_detached w _ curPs true hcur hdet j)

/-- One assignment-loop step leaves output states untouched. -/
theorem assign_plane_osGet (w : World) (outputId : Nat) (mode : ApplyMode)
    (psId j : Nat) :
    (drm_output_assign_state_plane w outputId mode psId).osGet j = w.osGet j := by
  unfold drm_output_assign_state_plane
  rcases hps : w.psGet psId with _ | ps
  · rfl
  · try dsimp only
    rcases hpl : w.plGet ps.plane with _ | pl
    · rfl
    · try dsimp only
      rcases hv : (assign_plane_dispose w pl).plGet ps.plane with _ | pl2
      all_goals try dsimp only
      all_goals repeat' split
      all_goals (
        repeat first
          | rw [osGet_psSet]
          | rw [osGet_plSet]
          | rw [osGet_outSet]
        exact assign_plane_dispose_osGet w pl j)

/-- One assignment-loop step leaves planes other than the touched one
unchanged. -/
theorem assign_plane_plGet_ne (w : World) (outputId : Nat) (mode : ApplyMode)
    (psId p : Nat) (h : ∀ ps, w.psGet psId = some ps → ps.plane ≠ p) :
    (drm_output_assign_state_plane w outputId mode psId).plGet p = w.plGet p := by
  unfold drm_output_assign_state_plane
  rcases hps : w.psGet psId with _ | ps
  · rfl
  · have hne := h ps hps
    try dsimp only
    rcases hpl : w.plGet ps.plane with _ | pl
    · rfl
    · try dsimp only
      rcases hv : (assign_plane_dispose w pl).plGet ps.plane with _ | pl2
      all_goals try dsimp only
      all_goals repeat' split
      all_goals (
        repeat first
          | rw [plGet_psSet]
          | rw [plGet_outSet]
          | rw [plGet_plSet_ne _ _ _ _ (Ne.symm hne)]
        exact assign_plane_dispose_plGet w pl p)

/-- One assignment-loop step repoints the touched plane at the submitted
plane state. -/
theorem assign_plane_pointer (w : World) (outputId : Nat) (mode : ApplyMode)
    (psId : Nat) (ps : PlaneState) (pl : Plane)
    (hps : w.psGet psId = some ps) (hpl : w.plGet ps.plane = some pl) :
    ∃ pl', (drm_output_assign_state_plane w outputId mode psId).plGet ps.plane
      = some pl' ∧ pl'.state_cur = some psId := by
  unfold drm_output_assign_state_plane
  rw [hps]
  try dsimp only
  rw [hpl]
  try dsimp only
  have hv : (assign_plane_dispose w pl).plGet ps.plane = some pl := by
    rw [assign_plane_dispose_plGet]
    exact hpl
  rw [hv]
  try dsimp only
  have hfinal : ((assign_plane_dispose w pl).plSet ps.plane
      { pl with state_cur := some psId }).plGet ps.plane
      = some { pl with state_cur := some psId } :=
    plGet_plSet_self _ _ _ pl hv
  repeat' split
  all_goals (
    repeat first
      | rw [plGet_psSet]
      | rw [plGet_outSet]
    exact ⟨_, hfinal, rfl⟩)

/-- One assignment-loop step leaves plane states other than the submitted
one and the disposed orphan unchanged. -/
theorem assign_plane_psGet_ne (w : World) (outputId : Nat) (mode : ApplyMode)
    (psId x : Nat) (hne : psId ≠ x)
    (hlive : ∀ plId pl, w.plGet plId = some pl → pl.state_cur ≠ some x) :
    (drm_output_assign_state_plane w outputId mode psId).psGet x = w.psGet x := by
  unfold drm_output_assign_state_plane
  rcases hps : w.psGet psId with _ | ps
  · rfl
  · try dsimp only
    rcases hpl : w.plGet ps.plane with _ | pl
    · rfl
    · try dsimp only
      have hdisp : (assign_plane_dispose w pl).psGet x = w.psGet x :=
        assign_plane_dispose_psGet w pl x (hlive ps.plane pl hpl)
      rcases hv : (assign_plane_dispose w pl).plGet ps.plane with _ | pl2
      all_goals try dsimp only
      all_goals repeat' split
      all_goals (
        repeat first
          | rw [psGet_outSet]
          | rw [psGet_plSet]
          | rw [psGet_psSet_ne _ _ _ _ (Ne.symm hne)]
        exact hdisp)

/-- Planes seen after one assignment-loop step: either unchanged, or pointing
at the submitted state. -/
theorem assign_plane_plGet_cases (w : World) (outputId : Nat) (mode : ApplyMode)
    (psId : Nat) (plId : Nat) (pl' : Plane)
    (h : (drm_output_assign_state_plane w outputId mode psId).plGet plId = some pl') :
    w.plGet plId = some pl' ∨ pl'.state_cur = some psId := by
  by_cases hsame : ∀ ps, w.psGet psId = some ps → ps.plane ≠ plId
  · left
    rw [assign_plane_plGet_ne w outputId mode psId plId hsame] at h
    exact h
  · push_neg at hsame
    obtain ⟨ps, hps, hplane⟩ := hsame
    rcases hpl : w.plGet ps.plane with _ | pl
    · left
      unfold drm_output_assign_state_plane at h
      rw [hps] at h
      simp only at h
      rw [hpl] at h
      exact h
    · obtain ⟨pl2, hpl2, hcur⟩ :=
        assign_plane_pointer w outputId mode psId ps pl hps hpl
      subst hplane
      rw [hpl2] at h
      right
      rw [← Option.some.inj h]
      exact hcur
/-- The commit-relevant fields of an output record: the live-state pointer and
the retained previous-state pointer. The assignment plane loop only touches
the completion counters, never these. -/
def outKey (o : Output) : Option Nat × Option Nat := (o.state_cur, o.state_last)

/-- One assignment-loop step preserves every output's live-state and
previous-state pointers (it only arms completion counters). -/
theorem assign_plane_outKey (w : World) (outputId : Nat) (mode : ApplyMode)
    (psId j : Nat) :
    ((drm_output_assign_state_plane w outputId mode psId).outGet j).map outKey
      = (w.outGet j).map outKey := by
  unfold drm_output_assign_state_plane
  rcases hps : w.psGet psId with _ | ps
  · rfl
  · try dsimp only
    rcases hpl : w.plGet ps.plane with _ | pl
    · rfl
    · try dsimp only
      rcases hv : (assign_plane_dispose w pl).plGet ps.plane with _ | pl2
      all_goals try dsimp only
      all_goals repeat' split
      all_goals first
        | (repeat first
             | rw [outGet_psSet]
             | rw [outGet_plSet]
           rw [assign_plane_dispose_outGet])
        | (rename_i o ho
           by_cases hj : j = outputId
           · subst hj
             rw [outGet_outSet_self _ _ _ _ ho]
             first
               | rw [outGet_plSet, assign_plane_dispose_outGet] at ho
               | rw [assign_plane_dispose_outGet] at ho
             rw [ho]
             rfl
           · rw [outGet_outSet_ne _ _ _ _ hj]
             repeat first
               | rw [outGet_plSet]
               | rw [assign_plane_dispose_outGet])

/-- The whole assignment plane loop leaves output states untouched. -/
theorem assign_fold_osGet (outputId : Nat) (mode : ApplyMode) (j : Nat) :
    ∀ (l : List Nat) (v : World),
    (l.foldl (fun acc psId => drm_output_assign_state_plane acc outputId mode psId) v).osGet j
      = v.osGet j := by
  intro l
  induction l with
  | nil => intro v; rfl
  | cons a t ih =>
    intro v
    rw [List.foldl_cons, ih, assign_plane_osGet]

/-- The whole assignment plane loop preserves every output's live-state and
previous-state pointers. -/
theorem assign_fold_outKey (outputId : Nat) (mode : ApplyMode) (j : Nat) :
    ∀ (l : List Nat) (v : World),
    ((l.foldl (fun acc psId => drm_output_assign_state_plane acc outputId mode psId) v).outGet j).map outKey
      = (v.outGet j).map outKey := by
  intro l
  induction l with
  | nil => intro v; rfl
  | cons a t ih =>
    intro v
    rw [List.foldl_cons, ih, assign_plane_outKey]
/-- After freeing a plane state, any record still found under its id is
detached from every output state. -/
theorem drm_plane_state_free_psGet_self (w : World) (psId : Nat) (f : Bool)
    (ps' : PlaneState)
    (h : (drm_plane_state_free w (some psId) f).psGet psId = some ps') :
    ps'.output_state = none := by
  revert h
  unfold drm_plane_state_free
  try dsimp only
  rcases hps : w.psGet psId with _ | ps
  · intro h
    rw [hps] at h
    exact Option.noConfusion h
  · try dsimp only
    repeat' split
    all_goals intro h
    all_goals first
      | (simp only [World.psGet, World.psSet, World.osSet, world_fb_unref,
           assocFind_assocErase, if_true] at h
         exact Option.noConfusion h)
      | (rw [psGet_psSet_self _ _ _ ps
           (by first | exact hps | (rw [psGet_osSet]; exact hps))] at h
         rw [← Option.some.inj h])

/-- Freeing a plane state that is not owned by output state `j` leaves that
output state unchanged. -/
theorem drm_plane_state_free_osGet_ne (w : World) (psId : Nat) (f : Bool)
    (j : Nat)
    (h : ∀ ps, w.psGet psId = some ps → ps.output_state ≠ some j) :
    (drm_plane_state_free w (some psId) f).osGet j = w.osGet j := by
  unfold drm_plane_state_free
  try dsimp only
  rcases hps : w.psGet psId with _ | ps
  · rfl
  · have hj := h ps hps
    try dsimp only
    rcases hos : ps.output_state with _ | osId
    · try dsimp only
      repeat' split
      all_goals
        simp only [World.osGet, World.psSet, world_fb_unref]
    · have hne : j ≠ osId := fun e => hj (by rw [hos, e])
      have hset : ∀ (l : List (Nat × OutputState)) (v : OutputState),
          assocFind (assocSet l osId v) j = assocFind l j :=
        fun l v => assocFind_assocSet_ne l osId j v hne
      try dsimp only
      repeat' split
      all_goals
        simp only [World.osGet, World.psSet, World.osSet, world_fb_unref, hset]

/-- The plane-state-freeing loop of `drm_output_state_free` leaves every
output state it does not own unchanged. -/
theorem free_fold_osGet_ne (j : Nat) : ∀ (l : List Nat) (w : World),
    (∀ y ∈ l, ∀ ps, w.psGet y = some ps → ps.output_state ≠ some j) →
    (l.foldl (fun acc psId => drm_plane_state_free acc (some psId) false) w).osGet j
      = w.osGet j := by
  intro l
  induction l with
  | nil => intro w _; rfl
  | cons y ys ih =>
    intro w hall
    rw [List.foldl_cons]
    have hnext : ∀ z ∈ ys, ∀ ps,
        (drm_plane_state_free w (some y) false).psGet z = some ps →
          ps.output_state ≠ some j := by
      intro z hz ps hps
      by_cases hzy : z = y
      · subst hzy
        rw [drm_plane_state_free_psGet_self w z false ps hps]
        exact Option.noConfusion
      · rw [drm_plane_state_free_psGet_ne w y false z (fun e => hzy e.symm)] at hps
        exact hall z (List.mem_cons_of_mem y hz) ps hps
    rw [ih _ hnext,
      drm_plane_state_free_osGet_ne w y false j (hall y (List.mem_cons_self y ys))]

/-- Freeing one output state leaves a different output state unchanged,
provided none of the freed state's plane states claims the survivor as its
owner. -/
theorem drm_output_state_free_osGet_ne (w : World) (sId : Nat) (os : OutputState)
    (j : Nat) (hos : w.osGet sId = some os) (hne : j ≠ sId)
    (hown : ∀ p ∈ os.plane_list, ∀ ps, w.psGet p = some ps →
      ps.output_state ≠ some j) :
    (drm_output_state_free w (some sId)).osGet j = w.osGet j := by
  have hfold := free_fold_osGet_ne j os.plane_list w hown
  simp only [World.osGet] at hfold
  unfold drm_output_state_free
  try dsimp only
  rw [hos]
  try dsimp only
  repeat' split
  all_goals (
    simp only [World.osGet, World.pdSet, assocFind_assocErase]
    rw [if_neg hne]
    exact hfold)
/-- The assignment plane loop leaves a plane state unchanged when it is not a
candidate and no plane is live on it. -/
theorem assign_fold_psGet (outputId : Nat) (mode : ApplyMode) (x : Nat) :
    ∀ (l : List Nat) (v : World), x ∉ l →
    (∀ plId pl, v.plGet plId = some pl → pl.state_cur ≠ some x) →
    (l.foldl (fun acc psId => drm_output_assign_state_plane acc outputId mode psId) v).psGet x
      = v.psGet x := by
  intro l
  induction l with
  | nil => intro v _ _; rfl
  | cons a t ih =>
    intro v hx hlive
    rw [List.foldl_cons]
    have hax : a ≠ x := fun e => hx (e ▸ List.mem_cons_self a t)
    have hlive' : ∀ plId pl,
        (drm_output_assign_state_plane v outputId mode a).plGet plId = some pl →
          pl.state_cur ≠ some x := by
      intro plId pl hpl
      rcases assign_plane_plGet_cases v outputId mode a plId pl hpl with hold | hnew
      · exact hlive plId pl hold
      · rw [hnew]
        intro e
        exact hax (Option.some.inj e)
    rw [ih _ (fun e => hx (List.mem_cons_of_mem a e)) hlive',
      assign_plane_psGet_ne v outputId mode a x hax hlive]

/-- The assignment plane loop leaves a plane unchanged when no candidate's
plane state targets it, candidates are distinct, and no plane is live on a
candidate. -/
theorem assign_fold_plGet (outputId : Nat) (mode : ApplyMode) (p : Nat) :
    ∀ (l : List Nat) (v : World), l.Nodup →
    (∀ plId pl, v.plGet plId = some pl → ∀ x ∈ l, pl.state_cur ≠ some x) →
    (∀ y ∈ l, ∀ psy, v.psGet y = some psy → psy.plane ≠ p) →
    (l.foldl (fun acc psId => drm_output_assign_state_plane acc outputId mode psId) v).plGet p
      = v.plGet p := by
  intro l
  induction l with
  | nil => intro v _ _ _; rfl
  | cons a t ih =>
    intro v hnd hlive hnp
    rw [List.foldl_cons]
    obtain ⟨hat, hndt⟩ := List.nodup_cons.mp hnd
    have hstep_ps : ∀ y ∈ t,
        (drm_output_assign_state_plane v outputId mode a).psGet y = v.psGet y := by
      intro y hy
      exact assign_plane_psGet_ne v outputId mode a y (fun e => hat (e ▸ hy))
        (fun plId pl hpl => hlive plId pl hpl y (List.mem_cons_of_mem a hy))
    have hlive' : ∀ plId pl,
        (drm_output_assign_state_plane v outputId mode a).plGet plId = some pl →
          ∀ z ∈ t, pl.state_cur ≠ some z := by
      intro plId pl hpl z hz
      rcases assign_plane_plGet_cases v outputId mode a plId pl hpl with hold | hnew
      · exact hlive plId pl hold z (List.mem_cons_of_mem a hz)
      · rw [hnew]
        intro e
        exact hat (by rw [Option.some.inj e]; exact hz)
    have hnp' : ∀ y ∈ t, ∀ psy,
        (drm_output_assign_state_plane v outputId mode a).psGet y = some psy →
          psy.plane ≠ p := by
      intro y hy psy hpsy
      rw [hstep_ps y hy] at hpsy
      exact hnp y (List.mem_cons_of_mem a hy) psy hpsy
    rw [ih _ hndt hlive' hnp',
      assign_plane_plGet_ne v outputId mode a p
        (fun ps hps => hnp a (List.mem_cons_self a t) ps hps)]
/-- The assignment plane loop repoints every candidate's plane at that
candidate, under the loop's well-formedness conditions: distinct candidates
on distinct planes that exist, with no plane live on any candidate yet. -/
theorem assign_fold_pointer (outputId : Nat) (mode : ApplyMode) :
    ∀ (l : List Nat) (v : World), l.Nodup →
    (∀ plId pl, v.plGet plId = some pl → ∀ x ∈ l, pl.state_cur ≠ some x) →
    (∀ x ∈ l, ∀ psx, v.psGet x = some psx → ∃ pl, v.plGet psx.plane = some pl) →
    (∀ x ∈ l, ∀ y ∈ l, ∀ psx psy, v.psGet x = some psx → v.psGet y = some psy →
      psx.plane = psy.plane → x = y) →
    ∀ x ∈ l, ∀ psx, v.psGet x = some psx →
      ∃ pl', (l.foldl (fun acc psId => drm_output_assign_state_plane acc outputId mode psId) v).plGet psx.plane
        = some pl' ∧ pl'.state_cur = some x := by
  intro l
  induction l with
  | nil =>
    intro v _ _ _ _ x hx
    exact absurd hx (List.not_mem_nil x)
  | cons a t ih =>
    intro v hnd hlive hex hinj x hx psx hpsx
    rw [List.foldl_cons]
    obtain ⟨hat, hndt⟩ := List.nodup_cons.mp hnd
    have hstep_ps : ∀ y ∈ t,
        (drm_output_assign_state_plane v outputId mode a).psGet y = v.psGet y := by
      intro y hy
      exact assign_plane_psGet_ne v outputId mode a y (fun e => hat (e ▸ hy))
        (fun plId pl hpl => hlive plId pl hpl y (List.mem_cons_of_mem a hy))
    have hlive' : ∀ plId pl,
        (drm_output_assign_state_plane v outputId mode a).plGet plId = some pl →
          ∀ z ∈ t, pl.state_cur ≠ some z := by
      intro plId pl hpl z hz
      rcases assign_plane_plGet_cases v outputId mode a plId pl hpl with hold | hnew
      · exact hlive plId pl hold z (List.mem_cons_of_mem a hz)
      · rw [hnew]
        intro e
        exact hat (by rw [Option.some.inj e]; exact hz)
    rcases List.mem_cons.mp hx with rfl | hxt
    · obtain ⟨pla, hpla⟩ := hex x (List.mem_cons_self x t) psx hpsx
      obtain ⟨pl0, hpl0, hcur0⟩ := assign_plane_pointer v outputId mode x psx pla hpsx hpla
      have hframe : (t.foldl (fun acc psId => drm_output_assign_state_plane acc outputId mode psId)
          (drm_output_assign_state_plane v outputId mode x)).plGet psx.plane
          = (drm_output_assign_state_plane v outputId mode x).plGet psx.plane := by
        apply assign_fold_plGet outputId mode psx.plane t _ hndt hlive'
        intro y hy psy hpsy hplane
        rw [hstep_ps y hy] at hpsy
        have := hinj y (List.mem_cons_of_mem x hy) x (List.mem_cons_self x t)
          psy psx hpsy hpsx hplane
        rw [this] at hy
        exact hat hy
      exact ⟨pl0, by rw [hframe, hpl0], hcur0⟩
    · have hex' : ∀ z ∈ t, ∀ psz,
          (drm_output_assign_state_plane v outputId mode a).psGet z = some psz →
            ∃ pl, (drm_output_assign_state_plane v outputId mode a).plGet psz.plane = some pl := by
        intro z hz psz hpsz
        rw [hstep_ps z hz] at hpsz
        obtain ⟨plz, hplz⟩ := hex z (List.mem_cons_of_mem a hz) psz hpsz
        rcases hpsa : v.psGet a with _ | psa
        · have heq : drm_output_assign_state_plane v outputId mode a = v := by
            unfold drm_output_assign_state_plane
            rw [hpsa]
          rw [heq]
          exact ⟨plz, hplz⟩
        · by_cases hpp : psa.plane = psz.plane
          · rcases hpla : v.plGet psa.plane with _ | pla
            · have heq : drm_output_assign_state_plane v outputId mode a = v := by
                unfold drm_output_assign_state_plane
                rw [hpsa]
                try dsimp only
                rw [hpla]
              rw [heq]
              exact ⟨plz, hplz⟩
            · obtain ⟨pl0, hpl0, _⟩ := assign_plane_pointer v outputId mode a psa pla hpsa hpla
              rw [← hpp]
              exact ⟨pl0, hpl0⟩
          · have hne_pl := assign_plane_plGet_ne v outputId mode a psz.plane
              (by
                intro ps hps
                rw [hps] at hpsa
                rw [(Option.some.inj hpsa).symm] at hpp
                exact hpp)
            rw [hne_pl]
            exact ⟨plz, hplz⟩
      have hinj' : ∀ z ∈ t, ∀ u ∈ t, ∀ psz psu,
          (drm_output_assign_state_plane v outputId mode a).psGet z = some psz →
          (drm_output_assign_state_plane v outputId mode a).psGet u = some psu →
            psz.plane = psu.plane → z = u := by
        intro z hz u hu psz psu h1 h2 hp
        rw [hstep_ps z hz] at h1
        rw [hstep_ps u hu] at h2
        exact hinj z (List.mem_cons_of_mem a hz) u (List.mem_cons_of_mem a hu)
          psz psu h1 h2 hp
      exact ih (drm_output_assign_state_plane v outputId mode a) hndt hlive' hex' hinj'
        x hxt psx (by rw [hstep_ps x hxt]; exact hpsx)
theorem assign_unlink_pending_osGet (w : World) (os : OutputState) (osId j : Nat) :
    (assign_unlink_pending w os osId).osGet j = w.osGet j := by
  unfold assign_unlink_pending
  repeat' split
  all_goals simp only [osGet_pdSet]

theorem assign_unlink_pending_outGet (w : World) (os : OutputState) (osId j : Nat) :
    (assign_unlink_pending w os osId).outGet j = w.outGet j := by
  unfold assign_unlink_pending
  repeat' split
  all_goals simp only [outGet_pdSet]

theorem assign_unlink_pending_plGet (w : World) (os : OutputState) (osId j : Nat) :
    (assign_unlink_pending w os osId).plGet j = w.plGet j := by
  unfold assign_unlink_pending
  repeat' split
  all_goals simp only [plGet_pdSet]

theorem assign_unlink_pending_psGet (w : World) (os : OutputState) (osId j : Nat) :
    (assign_unlink_pending w os osId).psGet j = w.psGet j := by
  unfold assign_unlink_pending
  repeat' split
  all_goals simp only [psGet_pdSet]

theorem assign_set_pending_none_osGet_self (w : World) (osId : Nat)
    (os2 : OutputState) (h : w.osGet osId = some os2) :
    (assign_set_pending_none w osId).osGet osId
      = some { os2 with pending_state := none } := by
  unfold assign_set_pending_none
  rw [h]
  exact osGet_osSet_self w osId _ os2 h

theorem assign_set_pending_none_osGet_ne (w : World) (osId j : Nat) (h : j ≠ osId) :
    (assign_set_pending_none w osId).osGet j = w.osGet j := by
  unfold assign_set_pending_none
  repeat' split
  · exact osGet_osSet_ne w osId _ j h
  · rfl

theorem assign_set_pending_none_outGet (w : World) (osId j : Nat) :
    (assign_set_pending_none w osId).outGet j = w.outGet j := by
  unfold assign_set_pending_none
  repeat' split
  all_goals simp only [outGet_osSet]

theorem assign_set_pending_none_plGet (w : World) (osId j : Nat) :
    (assign_set_pending_none w osId).plGet j = w.plGet j := by
  unfold assign_set_pending_none
  repeat' split
  all_goals simp only [plGet_osSet]

theorem assign_set_pending_none_psGet (w : World) (osId j : Nat) :
    (assign_set_pending_none w osId).psGet j = w.psGet j := by
  unfold assign_set_pending_none
  repeat' split
  all_goals simp only [psGet_osSet]

theorem assign_point_output_outGet_self (w : World) (output osId : Nat)
    (out2 : Output) (h : w.outGet output = some out2) :
    (assign_point_output w output osId).outGet output
      = some { out2 with state_cur := some osId } := by
  unfold assign_point_output
  rw [h]
  exact outGet_outSet_self w output _ out2 h

theorem assign_point_output_osGet (w : World) (output osId j : Nat) :
    (assign_point_output w output osId).osGet j = w.osGet j := by
  unfold assign_point_output
  repeat' split
  all_goals simp only [osGet_outSet]

theorem assign_point_output_plGet (w : World) (output osId j : Nat) :
    (assign_point_output w output osId).plGet j = w.plGet j := by
  unfold assign_point_output
  repeat' split
  all_goals simp only [plGet_outSet]

theorem assign_point_output_psGet (w : World) (output osId j : Nat) :
    (assign_point_output w output osId).psGet j = w.psGet j := by
  unfold assign_point_output
  repeat' split
  all_goals simp only [psGet_outSet]

theorem assign_arm_atomic_outKey (w : World) (output : Nat) (mode : ApplyMode)
    (j : Nat) :
    ((assign_arm_atomic w output mode).outGet j).map outKey
      = (w.outGet j).map outKey := by
  unfold assign_arm_atomic
  repeat' split
  all_goals try rfl
  rename_i o ho
  by_cases hj : j = output
  · subst hj
    rw [outGet_outSet_self _ _ _ _ ho, ho]
    rfl
  · rw [outGet_outSet_ne _ _ _ _ hj]

theorem assign_arm_atomic_osGet (w : World) (output : Nat) (mode : ApplyMode)
    (j : Nat) :
    (assign_arm_atomic w output mode).osGet j = w.osGet j := by
  unfold assign_arm_atomic
  repeat' split
  all_goals simp only [osGet_outSet]

theorem assign_arm_atomic_plGet (w : World) (output : Nat) (mode : ApplyMode)
    (j : Nat) :
    (assign_arm_atomic w output mode).plGet j = w.plGet j := by
  unfold assign_arm_atomic
  repeat' split
  all_goals simp only [plGet_outSet]

theorem assign_arm_atomic_psGet (w : World) (output : Nat) (mode : ApplyMode)
    (j : Nat) :
    (assign_arm_atomic w output mode).psGet j = w.psGet j := by
  unfold assign_arm_atomic
  repeat' split
  all_goals simp only [psGet_outSet]
/-- Force-freeing an existing plane state removes it from the heap. -/
theorem drm_plane_state_free_psGet_force (w : World) (psId : Nat)
    (ps : PlaneState) (hps : w.psGet psId = some ps) :
    (drm_plane_state_free w (some psId) true).psGet psId = none := by
  unfold drm_plane_state_free
  try dsimp only
  rw [hps]
  try dsimp only
  rw [Bool.true_or, if_pos rfl]
  repeat' split
  all_goals
    simp only [World.psGet, World.psSet, World.osSet, world_fb_unref,
      assocFind_assocErase, if_true]

theorem outKey_map_extract (o : Option Output) (k : Option Nat × Option Nat)
    (h : o.map outKey = some k) : ∃ out5, o = some out5 ∧ outKey out5 = k := by
  rcases o with _ | out5
  · exact Option.noConfusion h
  · exact ⟨out5, rfl, Option.some.inj h⟩

/-- The part of `drm_output_assign_state` before the plane loop: the world it
hands to the loop has the candidate as the output's live state, the candidate
unlinked from its pending state, planes untouched, candidate plane states
untouched, and — on a synchronous apply — the prior live state freed. -/
theorem assign_prefold_spec (w : World) (osId : Nat) (mode : ApplyMode)
    (os : OutputState) (out : Output)
    (hos : w.osGet osId = some os)
    (hout : w.outGet os.output = some out)
    (hlast : out.state_last = none)
    (hsync : mode = ApplyMode.Sync → ∀ oldId, out.state_cur = some oldId →
      oldId ≠ osId ∧ ∃ oldOs, w.osGet oldId = some oldOs ∧
        (∀ p ∈ oldOs.plane_list, p ∉ os.plane_list) ∧
        (∀ p ∈ oldOs.plane_list, ∀ ps, w.psGet p = some ps →
          ps.output_state ≠ some osId)) :
    ∃ v : World,
      drm_output_assign_state w osId mode
        = os.plane_list.foldl
            (fun acc psId => drm_output_assign_state_plane acc os.output mode psId) v ∧
      v.osGet osId = some { os with pending_state := none } ∧
      (v.outGet os.output).map outKey
        = some (some osId, if mode = ApplyMode.Async then out.state_cur else none) ∧
      (∀ j, v.plGet j = w.plGet j) ∧
      (∀ x ∈ os.plane_list, v.psGet x = w.psGet x) ∧
      (mode = ApplyMode.Sync → ∀ oldId, out.state_cur = some oldId →
        v.osGet oldId = none) := by
  rcases mode with _ | _
  · -- synchronous apply
    have hS := hsync rfl
    have hifneg : (if ApplyMode.Sync = ApplyMode.Async then
          w.outSet os.output { out with state_last := out.state_cur }
        else drm_output_state_free w out.state_cur)
        = drm_output_state_free w out.state_cur :=
      if_neg (fun h => ApplyMode.noConfusion h)
    have h1os : (drm_output_state_free w out.state_cur).osGet osId = some os := by
      rcases hcur : out.state_cur with _ | oldId
      · exact hos
      · obtain ⟨hne, oldOs, holdOs, _, hown⟩ := hS oldId hcur
        exact (drm_output_state_free_osGet_ne w oldId oldOs osId holdOs
          (Ne.symm hne) hown).trans hos
    have h1out : (drm_output_state_free w out.state_cur).outGet os.output = some out :=
      (drm_output_state_free_outGet w out.state_cur os.output).trans hout
    refine ⟨assign_arm_atomic (assign_point_output (assign_set_pending_none
        (assign_unlink_pending (drm_output_state_free w out.state_cur) os osId) osId)
        os.output osId) os.output ApplyMode.Sync, ?_, ?_, ?_, ?_, ?_, ?_⟩
    · unfold drm_output_assign_state
      rw [hos]
      try dsimp only
      rw [hout]
      try dsimp only
      rw [hifneg]
    · rw [assign_arm_atomic_osGet, assign_point_output_osGet,
        assign_set_pending_none_osGet_self _ _ os
          ((assign_unlink_pending_osGet _ os osId osId).trans h1os)]
    · refine Eq.trans ?_ (by rw [if_neg (fun h => ApplyMode.noConfusion h)])
      rw [assign_arm_atomic_outKey,
        assign_point_output_outGet_self _ _ osId out
          ((assign_set_pending_none_outGet _ osId os.output).trans
            ((assign_unlink_pending_outGet _ os osId os.output).trans h1out))]
      show some (some osId, out.state_last) = _
      rw [hlast]
    · intro j
      rw [assign_arm_atomic_plGet, assign_point_output_plGet,
        assign_set_pending_none_plGet, assign_unlink_pending_plGet]
      exact drm_output_state_free_plGet w out.state_cur j
    · intro x hx
      rw [assign_arm_atomic_psGet, assign_point_output_psGet,
        assign_set_pending_none_psGet, assign_unlink_pending_psGet]
      rcases hcur : out.state_cur with _ | oldId
      · rfl
      · obtain ⟨_, oldOs, holdOs, hdisj, _⟩ := hS oldId hcur
        exact drm_output_state_free_psGet w oldId oldOs x holdOs
          (fun hmem => hdisj x hmem hx)
    · intro _ oldId hcur
      obtain ⟨hne, _⟩ := hS oldId hcur
      rw [assign_arm_atomic_osGet, assign_point_output_osGet,
        assign_set_pending_none_osGet_ne _ _ _ hne, assign_unlink_pending_osGet,
        hcur]
      exact drm_output_state_free_osGet_self w oldId
  · -- asynchronous apply
    have hifpos : (if ApplyMode.Async = ApplyMode.Async then
          w.outSet os.output { out with state_last := out.state_cur }
        else drm_output_state_free w out.state_cur)
        = w.outSet os.output { out with state_last := out.state_cur } :=
      if_pos (Eq.refl ApplyMode.Async)
    have h1os : (w.outSet os.output { out with state_last := out.state_cur }).osGet osId
        = some os := by
      rw [osGet_outSet]
      exact hos
    have h1out : (w.outSet os.output { out with state_last := out.state_cur }).outGet os.output
        = some { out with state_last := out.state_cur } :=
      outGet_outSet_self w os.output _ out hout
    refine ⟨assign_arm_atomic (assign_point_output (assign_set_pending_none
        (assign_unlink_pending (w.outSet os.output { out with state_last := out.state_cur })
          os osId) osId)
        os.output osId) os.output ApplyMode.Async, ?_, ?_, ?_, ?_, ?_, ?_⟩
    · unfold drm_output_assign_state
      rw [hos]
      try dsimp only
      rw [hout]
      try dsimp only
      rw [hifpos]
    · rw [assign_arm_atomic_osGet, assign_point_output_osGet,
        assign_set_pending_none_osGet_self _ _ os
          ((assign_unlink_pending_osGet _ os osId osId).trans h1os)]
    · refine Eq.trans ?_ (by rw [if_pos (Eq.refl ApplyMode.Async)])
      rw [assign_arm_atomic_outKey,
        assign_point_output_outGet_self _ _ osId _
          ((assign_set_pending_none_outGet _ osId os.output).trans
            ((assign_unlink_pending_outGet _ os osId os.output).trans h1out))]
      rfl
    · intro j
      rw [assign_arm_atomic_plGet, assign_point_output_plGet,
        assign_set_pending_none_plGet, assign_unlink_pending_plGet, plGet_outSet]
    · intro x _
      rw [assign_arm_atomic_psGet, assign_point_output_psGet,
        assign_set_pending_none_psGet, assign_unlink_pending_psGet, psGet_outSet]
    · intro h
      exact ApplyMode.noConfusion h
/-- C3: `drm_output_assign_state` on an output with no previous state
outstanding commits the candidate as the output's new live state. In
asynchronous mode the prior live state is retained as the output's single
previous state (`state_last`); in synchronous mode it is freed immediately.
Every plane touched by the candidate is repointed at its new plane state,
and the loop's disposal step frees an orphaned prior plane state — one with
no owning output state. -/
theorem c3_assign_commits_candidate
    (w : World) (osId : Nat) (mode : ApplyMode) (os : OutputState) (out : Output)
    (hos : w.osGet osId = some os)
    (hout : w.outGet os.output = some out)
    (hlast : out.state_last = none)
    (hsync : mode = ApplyMode.Sync → ∀ oldId, out.state_cur = some oldId →
      oldId ≠ osId ∧ ∃ oldOs, w.osGet oldId = some oldOs ∧
        (∀ p ∈ oldOs.plane_list, p ∉ os.plane_list) ∧
        (∀ p ∈ oldOs.plane_list, ∀ ps, w.psGet p = some ps →
          ps.output_state ≠ some osId))
    (hnd : os.plane_list.Nodup)
    (hlive : ∀ plId pl, w.plGet plId = some pl → ∀ x ∈ os.plane_list,
      pl.state_cur ≠ some x)
    (hex : ∀ x ∈ os.plane_list, ∀ psx, w.psGet x = some psx →
      ∃ pl, w.plGet psx.plane = some pl)
    (hinj : ∀ x ∈ os.plane_list, ∀ y ∈ os.plane_list, ∀ psx psy,
      w.psGet x = some psx → w.psGet y = some psy → psx.plane = psy.plane →
      x = y) :
    (∃ out', (drm_output_assign_state w osId mode).outGet os.output = some out' ∧
      out'.state_cur = some osId ∧
      out'.state_last = (if mode = ApplyMode.Async then out.state_cur else none)) ∧
    (drm_output_assign_state w osId mode).osGet osId
      = some { os with pending_state := none } ∧
    (mode = ApplyMode.Sync → ∀ oldId, out.state_cur = some oldId →
      (drm_output_assign_state w osId mode).osGet oldId = none) ∧
    (∀ x ∈ os.plane_list, ∀ psx, w.psGet x = some psx →
      ∃ pl', (drm_output_assign_state w osId mode).plGet psx.plane = some pl' ∧
        pl'.state_cur = some x) ∧
    (∀ (v : World) (pl : Plane) (curId : Nat) (curPs : PlaneState),
      pl.state_cur = some curId → v.psGet curId = some curPs →
      curPs.output_state = none →
      (assign_plane_dispose v pl).psGet curId = none) := by
  obtain ⟨v, heq, hvos, hvkey, hvpl, hvps, hvold⟩ :=
    assign_prefold_spec w osId mode os out hos hout hlast hsync
  have hlive' : ∀ plId pl, v.plGet plId = some pl → ∀ x ∈ os.plane_list,
      pl.state_cur ≠ some x := by
    intro plId pl hpl
    rw [hvpl plId] at hpl
    exact hlive plId pl hpl
  have hex' : ∀ x ∈ os.plane_list, ∀ psx, v.psGet x = some psx →
      ∃ pl, v.plGet psx.plane = some pl := by
    intro x hx psx hpsx
    rw [hvps x hx] at hpsx
    obtain ⟨pl, hpl⟩ := hex x hx psx hpsx
    exact ⟨pl, by rw [hvpl]; exact hpl⟩
  have hinj' : ∀ x ∈ os.plane_list, ∀ y ∈ os.plane_list, ∀ psx psy,
      v.psGet x = some psx → v.psGet y = some psy → psx.plane = psy.plane →
      x = y := by
    intro x hx y hy psx psy h1 h2 hp
    rw [hvps x hx] at h1
    rw [hvps y hy] at h2
    exact hinj x hx y hy psx psy h1 h2 hp
  refine ⟨?_, ?_, ?_, ?_, ?_⟩
  · have hk : ((drm_output_assign_state w osId mode).outGet os.output).map outKey
        = some (some osId, if mode = ApplyMode.Async then out.state_cur else none) := by
      rw [heq, assign_fold_outKey, hvkey]
    obtain ⟨out', ho', hk'⟩ := outKey_map_extract _ _ hk
    exact ⟨out', ho', congrArg Prod.fst hk', congrArg Prod.snd hk'⟩
  · rw [heq, assign_fold_osGet]
    exact hvos
  · intro hm oldId hcur
    rw [heq, assign_fold_osGet]
    exact hvold hm oldId hcur
  · intro x hx psx hpsx
    have hpsx' : v.psGet x = some psx := by
      rw [hvps x hx]
      exact hpsx
    obtain ⟨pl', hpl', hcur'⟩ := assign_fold_pointer os.output mode os.plane_list v
      hnd hlive' hex' hinj' x hx psx hpsx'
    refine ⟨pl', ?_, hcur'⟩
    rw [heq]
    exact hpl'
  · intro v2 pl curId curPs hcur hps hdet
    unfold assign_plane_dispose
    rw [hcur]
    try dsimp only
    rw [hps]
    try dsimp only
    rw [if_pos hdet]
    exact drm_plane_state_free_psGet_force v2 curId curPs hps
/-- Concrete output for the assignment scenario: live on state 20, no
previous state outstanding. -/
def outC3 : Output :=
  { state_cur := some 20, state_last := none, page_flip_pending := false,
    vblank_pending := 0, atomic_complete_pending := false,
    destroy_pending := false, disable_pending := false, dpms_off_pending := false,
    enabled := true, virtualOut := false, scanout_plane := 1, cursor_plane := none,
    cursor_view := none, awaiting_completion := true, has_dpms_prop := true,
    disable_planes := false }

/-- Concrete candidate output state 21 for output 10, holding plane state 5
on plane 1, still linked to pending state 30. -/
def osC3 : OutputState :=
  { output := 10, pending_state := some 30, plane_list := [5], dpms := Dpms.On }

/-- Concrete world for the assignment scenario: the candidate state 21
competes with the live state 20 whose plane state 4 is still current on
plane 1. -/
def wC3 : World :=
  { next_id := 50,
    plane_states :=
      [(5, { plane := 1, output := some 10, output_state := some 21,
             fb := none, complete := false }),
       (4, { plane := 1, output := some 10, output_state := some 20,
             fb := none, complete := true })],
    output_states :=
      [(21, osC3),
       (20, { output := 10, pending_state := none, plane_list := [4],
              dpms := Dpms.On })],
    pendings := [(30, { output_list := [21] })],
    planes := [(1, { ptype := PlaneType.Primary, state_cur := some 4 })],
    outputs := [(10, outC3)],
    fb_refs := [],
    state_invalid := false, atomic_modeset := false, sprites_hidden := false }

/-- Witness for C3: an asynchronous assignment of candidate state 21 in the
concrete world. -/
theorem c3_assign_commits_candidate_witness :
    (∃ out', (drm_output_assign_state wC3 21 ApplyMode.Async).outGet osC3.output
        = some out' ∧ out'.state_cur = some 21 ∧
      out'.state_last
        = (if ApplyMode.Async = ApplyMode.Async then outC3.state_cur else none)) ∧
    (drm_output_assign_state wC3 21 ApplyMode.Async).osGet 21
      = some { osC3 with pending_state := none } ∧
    (ApplyMode.Async = ApplyMode.Sync → ∀ oldId, outC3.state_cur = some oldId →
      (drm_output_assign_state wC3 21 ApplyMode.Async).osGet oldId = none) ∧
    (∀ x ∈ osC3.plane_list, ∀ psx, wC3.psGet x = some psx →
      ∃ pl', (drm_output_assign_state wC3 21 ApplyMode.Async).plGet psx.plane
        = some pl' ∧ pl'.state_cur = some x) ∧
    (∀ (v : World) (pl : Plane) (curId : Nat) (curPs : PlaneState),
      pl.state_cur = some curId → v.psGet curId = some curPs →
      curPs.output_state = none →
      (assign_plane_dispose v pl).psGet curId = none) :=
  c3_assign_commits_candidate wC3 21 ApplyMode.Async osC3 outC3 rfl rfl rfl
    (fun h => ApplyMode.noConfusion h)
    (by decide)
    (by
      intro plId pl hpl x hx
      simp only [wC3, World.plGet, assocFind_cons, assocFind_nil] at hpl
      by_cases h1 : (1 : Nat) = plId
      · rw [if_pos h1] at hpl
        cases Option.some.inj hpl
        simp only [osC3] at hx
        cases List.mem_singleton.mp hx
        decide
      · rw [if_neg h1] at hpl
        exact Option.noConfusion hpl)
    (by
      intro x hx psx hpsx
      cases List.mem_singleton.mp hx
      cases Option.some.inj hpsx
      exact ⟨{ ptype := PlaneType.Primary, state_cur := some 4 }, rfl⟩)
    (by
      intro x hx y hy psx psy h1 h2 hp
      cases List.mem_singleton.mp hx
      cases List.mem_singleton.mp hy
      rfl)
@[simp] theorem psGet_world_fb_ref (w : World) (f j : Nat) :
    (world_fb_ref w f).psGet j = w.psGet j := rfl

@[simp] theorem osGet_world_fb_ref (w : World) (f j : Nat) :
    (world_fb_ref w f).osGet j = w.osGet j := rfl

/-- Freeing a plane state unlinks it from its owning output state's plane
list. -/
theorem drm_plane_state_free_osGet_owner (acc : World) (old tgt : Nat)
    (oldPs : PlaneState) (osAcc : OutputState)
    (hps : acc.psGet old = some oldPs)
    (howner : oldPs.output_state = some tgt)
    (hos : acc.osGet tgt = some osAcc) :
    (drm_plane_state_free acc (some old) false).osGet tgt
      = some { osAcc with plane_list := osAcc.plane_list.filter (· != old) } := by
  unfold drm_plane_state_free
  try dsimp only
  rw [hps]
  try dsimp only
  rw [howner]
  try dsimp only
  rw [hos]
  try dsimp only
  repeat' split
  all_goals (
    simp only [World.osGet, World.psSet, World.osSet, world_fb_unref]
    exact assocFind_assocSet_self acc.output_states tgt _ osAcc hos)

/-- The same-plane freeing loop of `drm_plane_state_duplicate`: afterwards the
target output state survives with only its plane list shrunk, no surviving
listed state processed by the loop is on the source's plane, and plane states
outside the processed list are untouched. -/
theorem dup_free_fold_spec (sp tgt : Nat) : ∀ (l : List Nat) (acc : World)
    (osAcc : OutputState), l.Nodup →
    acc.osGet tgt = some osAcc →
    (∀ p ∈ l, ∀ ps, acc.psGet p = some ps → ps.output_state = some tgt) →
    ∃ os2, (l.foldl (dup_free_same_plane sp) acc).osGet tgt = some os2 ∧
      os2.output = osAcc.output ∧ os2.pending_state = osAcc.pending_state ∧
      os2.dpms = osAcc.dpms ∧
      (∀ p ∈ os2.plane_list, p ∈ osAcc.plane_list) ∧
      (∀ p ∈ os2.plane_list, p ∈ l → ∀ ps',
        (l.foldl (dup_free_same_plane sp) acc).psGet p = some ps' →
          ps'.plane ≠ sp) ∧
      (∀ p, p ∉ l →
        (l.foldl (dup_free_same_plane sp) acc).psGet p = acc.psGet p) := by
  intro l
  induction l with
  | nil =>
    intro acc osAcc _ hos _
    exact ⟨osAcc, hos, rfl, rfl, rfl, fun p hp => hp,
      fun p _ hp => absurd hp (List.not_mem_nil p), fun p _ => rfl⟩
  | cons a t ih =>
    intro acc osAcc hnd hos hown
    obtain ⟨hat, hndt⟩ := List.nodup_cons.mp hnd
    rw [List.foldl_cons]
    rcases hpsa : acc.psGet a with _ | oldPs
    · have hstep : dup_free_same_plane sp acc a = acc := by
        unfold dup_free_same_plane
        rw [hpsa]
      rw [hstep]
      obtain ⟨os2, h2, hf1, hf2, hf3, hsub, hsame, hpres⟩ := ih acc osAcc hndt hos
        (fun p hp ps hps => hown p (List.mem_cons_of_mem a hp) ps hps)
      refine ⟨os2, h2, hf1, hf2, hf3, hsub, ?_, ?_⟩
      · intro p hp hpl ps' hps'
        rcases List.mem_cons.mp hpl with rfl | hpt
        · rw [hpres p hat, hpsa] at hps'
          exact Option.noConfusion hps'
        · exact hsame p hp hpt ps' hps'
      · intro p hp
        exact hpres p (fun hpt => hp (List.mem_cons_of_mem a hpt))
    · by_cases hpp : oldPs.plane = sp
      · have hstep : dup_free_same_plane sp acc a
            = drm_plane_state_free acc (some a) false := by
          unfold dup_free_same_plane
          rw [hpsa]
          try dsimp only
          rw [if_pos hpp]
        rw [hstep]
        have howner := hown a (List.mem_cons_self a t) oldPs hpsa
        have hosA := drm_plane_state_free_osGet_owner acc a tgt oldPs osAcc
          hpsa howner hos
        have hown' : ∀ p ∈ t, ∀ ps,
            (drm_plane_state_free acc (some a) false).psGet p = some ps →
              ps.output_state = some tgt := by
          intro p hp ps hps
          rw [drm_plane_state_free_psGet_ne acc a false p
            (fun e => hat (e ▸ hp))] at hps
          exact hown p (List.mem_cons_of_mem a hp) ps hps
        obtain ⟨os2, h2, hf1, hf2, hf3, hsub, hsame, hpres⟩ :=
          ih (drm_plane_state_free acc (some a) false) _ hndt hosA hown'
        refine ⟨os2, h2, hf1, hf2, hf3, ?_, ?_, ?_⟩
        · intro p hp
          exact List.mem_of_mem_filter (hsub p hp)
        · intro p hp hpl ps' hps'
          rcases List.mem_cons.mp hpl with rfl | hpt
          · have := hsub p hp
            rw [List.mem_filter] at this
            have hne : (p != p) = true := this.2
            simp at hne
          · exact hsame p hp hpt ps' hps'
        · intro p hp
          rw [hpres p (fun hpt => hp (List.mem_cons_of_mem a hpt)),
            drm_plane_state_free_psGet_ne acc a false p
              (fun e => hp (e ▸ List.mem_cons_self a t))]
      · have hstep : dup_free_same_plane sp acc a = acc := by
          unfold dup_free_same_plane
          rw [hpsa]
          try dsimp only
          rw [if_neg hpp]
        rw [hstep]
        obtain ⟨os2, h2, hf1, hf2, hf3, hsub, hsame, hpres⟩ := ih acc osAcc hndt hos
          (fun p hp ps hps => hown p (List.mem_cons_of_mem a hp) ps hps)
        refine ⟨os2, h2, hf1, hf2, hf3, hsub, ?_, ?_⟩
        · intro p hp hpl ps' hps'
          rcases List.mem_cons.mp hpl with rfl | hpt
          · rw [hpres p hat, hpsa] at hps'
            rw [← Option.some.inj hps']
            exact hpp
          · exact hsame p hp hpt ps' hps'
        · intro p hp
          exact hpres p (fun hpt => hp (List.mem_cons_of_mem a hpt))
/-- C5: plane exclusivity inside an output state. `drm_plane_state_duplicate`
first frees (unlinks) every pre-existing state for the same plane in the
target output state before inserting the copy, so the target's plane list is
the fresh copy followed by survivors none of which is on the source's plane;
and `drm_output_state_get_plane` returns the existing entry for a plane — a
listed state of that very plane — without touching the world, rather than
allocating a second one. -/
theorem c5_plane_exclusivity (w : World) (tgt src : Nat) (os : OutputState)
    (srcPs : PlaneState)
    (hos : w.osGet tgt = some os)
    (hsrc : w.psGet src = some srcPs)
    (hnd : os.plane_list.Nodup)
    (hown : ∀ p ∈ os.plane_list, ∀ ps, w.psGet p = some ps →
      ps.output_state = some tgt)
    (hfresh : w.next_id ∉ os.plane_list) :
    (drm_plane_state_duplicate w tgt src).2 = w.next_id ∧
    (drm_plane_state_duplicate w tgt src).1.psGet w.next_id
      = some { srcPs with output_state := some tgt, complete := false } ∧
    (∃ rest, (drm_plane_state_duplicate w tgt src).1.osGet tgt
        = some { os with plane_list := w.next_id :: rest } ∧
      ∀ p ∈ rest, ∀ ps', (drm_plane_state_duplicate w tgt src).1.psGet p
        = some ps' → ps'.plane ≠ srcPs.plane) ∧
    (∀ (w2 : World) (osId plane psId : Nat),
      drm_output_state_get_existing_plane w2 osId plane = some psId →
        drm_output_state_get_plane w2 osId plane = (w2, psId) ∧
        ∃ os2 ps, w2.osGet osId = some os2 ∧ psId ∈ os2.plane_list ∧
          w2.psGet psId = some ps ∧ ps.plane = plane) := by
  have hnid : ({ w with
      next_id := w.next_id + 1,
      plane_states := (w.next_id, srcPs) :: w.plane_states } : World).psGet w.next_id
      = some srcPs := by
    simp only [World.psGet, assocFind_cons, if_true]
  have h1os : ({ w with
      next_id := w.next_id + 1,
      plane_states := (w.next_id, srcPs) :: w.plane_states } : World).osGet tgt
      = some os := hos
  have h1own : ∀ p ∈ os.plane_list, ∀ ps,
      ({ w with
        next_id := w.next_id + 1,
        plane_states := (w.next_id, srcPs) :: w.plane_states } : World).psGet p
        = some ps → ps.output_state = some tgt := by
    intro p hp ps hps
    have hpne : w.next_id ≠ p := fun e => hfresh (e ▸ hp)
    simp only [World.psGet, assocFind_cons] at hps
    rw [if_neg hpne] at hps
    exact hown p hp ps hps
  obtain ⟨os2, h2, hf1, hf2, hf3, hsub, hsame, hpres⟩ :=
    dup_free_fold_spec srcPs.plane tgt os.plane_list _ os hnd h1os h1own
  have hA : (drm_plane_state_duplicate w tgt src).2 = w.next_id ∧
      (drm_plane_state_duplicate w tgt src).1.psGet w.next_id
        = some { srcPs with output_state := some tgt, complete := false } ∧
      (∃ rest, (drm_plane_state_duplicate w tgt src).1.osGet tgt
          = some { os with plane_list := w.next_id :: rest } ∧
        ∀ p ∈ rest, ∀ ps', (drm_plane_state_duplicate w tgt src).1.psGet p
          = some ps' → ps'.plane ≠ srcPs.plane) := by
    unfold drm_plane_state_duplicate
    rw [hsrc]
    try dsimp only
    rw [h1os]
    try dsimp only
    rw [h2]
    try dsimp only
    rcases hfb : srcPs.fb with _ | f
    all_goals try dsimp only
    all_goals refine ⟨rfl, ?_, os2.plane_list, ?_, ?_⟩
    · refine psGet_psSet_self _ _ _ srcPs ?_
      rw [psGet_osSet, hpres w.next_id hfresh]
      exact hnid
    · rw [osGet_psSet, osGet_osSet_self _ _ _ os2 h2, hf1, hf2, hf3]
    · intro p hp ps' hps'
      have hpl : p ∈ os.plane_list := hsub p hp
      have hpne : p ≠ w.next_id := fun e => hfresh (e ▸ hpl)
      rw [psGet_psSet_ne _ _ _ _ hpne, psGet_osSet] at hps'
      exact hsame p hp hpl ps' hps'
    · refine psGet_psSet_self _ _ _ srcPs ?_
      rw [psGet_world_fb_ref, psGet_osSet, hpres w.next_id hfresh]
      exact hnid
    · rw [osGet_psSet, osGet_world_fb_ref, osGet_osSet_self _ _ _ os2 h2,
        hf1, hf2, hf3]
    · intro p hp ps' hps'
      have hpl : p ∈ os.plane_list := hsub p hp
      have hpne : p ≠ w.next_id := fun e => hfresh (e ▸ hpl)
      rw [psGet_psSet_ne _ _ _ _ hpne, psGet_world_fb_ref, psGet_osSet] at hps'
      exact hsame p hp hpl ps' hps'
  refine ⟨hA.1, hA.2.1, hA.2.2, ?_⟩
  intro w2 osId plane psId hexi
  constructor
  · unfold drm_output_state_get_plane
    rw [hexi]
  · revert hexi
    unfold drm_output_state_get_existing_plane
    rcases hosg : w2.osGet osId with _ | os2'
    · intro hexi
      exact Option.noConfusion hexi
    · intro hexi
      have hmem := List.mem_of_find?_eq_some hexi
      have hpred := List.find?_some hexi
      rcases hpsg : w2.psGet psId with _ | ps
      · rw [hpsg] at hpred
        exact Bool.noConfusion hpred
      · rw [hpsg] at hpred
        exact ⟨os2', ps, rfl, hmem, rfl, eq_of_beq hpred⟩
/-- Witness for C5: duplicating plane state 4 (plane 1) into output state 21,
which already lists plane state 5 on plane 1, in the concrete world. -/
theorem c5_plane_exclusivity_witness :
    (drm_plane_state_duplicate wC3 21 4).2 = wC3.next_id ∧
    (drm_plane_state_duplicate wC3 21 4).1.psGet wC3.next_id
      = some { plane := 1, output := some 10, output_state := some 21,
               fb := none, complete := false } ∧
    (∃ rest, (drm_plane_state_duplicate wC3 21 4).1.osGet 21
        = some { osC3 with plane_list := wC3.next_id :: rest } ∧
      ∀ p ∈ rest, ∀ ps', (drm_plane_state_duplicate wC3 21 4).1.psGet p
        = some ps' → ps'.plane ≠ 1) ∧
    (∀ (w2 : World) (osId plane psId : Nat),
      drm_output_state_get_existing_plane w2 osId plane = some psId →
        drm_output_state_get_plane w2 osId plane = (w2, psId) ∧
        ∃ os2 ps, w2.osGet osId = some os2 ∧ psId ∈ os2.plane_list ∧
          w2.psGet psId = some ps ∧ ps.plane = plane) :=
  c5_plane_exclusivity wC3 21 4 osC3
    { plane := 1, output := some 10, output_state := some 20,
      fb := none, complete := true }
    rfl rfl (by decide)
    (by
      intro p hp ps hps
      cases List.mem_singleton.mp hp
      cases Option.some.inj hps
      rfl)
    (by decide)
theorem drm_output_state_free_none (w : World) :
    drm_output_state_free w none = w := rfl

/-- Freeing a plane state never changes the framebuffer of a surviving
state. -/
theorem drm_plane_state_free_psGet_fb (w : World) (s : Option Nat) (f : Bool)
    (x : Nat) (ps' : PlaneState)
    (h : (drm_plane_state_free w s f).psGet x = some ps') :
    ∃ ps0, w.psGet x = some ps0 ∧ ps'.fb = ps0.fb := by
  rcases s with _ | psId
  · exact ⟨ps', h, rfl⟩
  · rcases hps : w.psGet psId with _ | ps
    · refine ⟨ps', ?_, rfl⟩
      unfold drm_plane_state_free at h
      try dsimp only at h
      rw [hps] at h
      exact h
    · by_cases hx : x = psId
      · subst hx
        refine ⟨ps, hps, ?_⟩
        revert h
        unfold drm_plane_state_free
        try dsimp only
        rw [hps]
        try dsimp only
        repeat' split
        all_goals intro h
        all_goals first
          | (simp only [World.psGet, World.psSet, World.osSet, world_fb_unref,
               assocFind_assocErase, if_true] at h
             exact Option.noConfusion h)
          | (rw [psGet_psSet_self _ _ _ ps
               (by first | exact hps | (rw [psGet_osSet]; exact hps))] at h
             rw [← Option.some.inj h])
      · rw [drm_plane_state_free_psGet_ne w psId f x (fun e => hx e.symm)] at h
        exact ⟨ps', h, rfl⟩

/-- The plane-state-freeing loop never changes the framebuffer of a surviving
state. -/
theorem free_fold_psGet_fb : ∀ (l : List Nat) (w : World) (x : Nat)
    (ps' : PlaneState),
    (l.foldl (fun a psId => drm_plane_state_free a (some psId) false) w).psGet x
      = some ps' →
    ∃ ps0, w.psGet x = some ps0 ∧ ps'.fb = ps0.fb := by
  intro l
  induction l with
  | nil =>
    intro w x ps' h
    exact ⟨ps', h, rfl⟩
  | cons a t ih =>
    intro w x ps' h
    rw [List.foldl_cons] at h
    obtain ⟨q, hq, hfb1⟩ := ih _ x ps' h
    obtain ⟨q0, hq0, hfb2⟩ := drm_plane_state_free_psGet_fb w (some a) false x q hq
    exact ⟨q0, hq0, hfb1.trans hfb2⟩

/-- Freeing an output state never changes the framebuffer of a surviving
plane state. -/
theorem drm_output_state_free_psGet_fb (w : World) (s : Option Nat) (x : Nat)
    (ps' : PlaneState)
    (h : (drm_output_state_free w s).psGet x = some ps') :
    ∃ ps0, w.psGet x = some ps0 ∧ ps'.fb = ps0.fb := by
  rcases s with _ | sId
  · exact ⟨ps', h, rfl⟩
  · revert h
    unfold drm_output_state_free
    try dsimp only
    rcases hos : w.osGet sId with _ | os
    · intro h
      exact ⟨ps', h, rfl⟩
    · try dsimp only
      repeat' split
      all_goals intro h
      all_goals (
        simp only [World.psGet, World.pdSet] at h
        exact free_fold_psGet_fb _ w x ps' h)

theorem mark_complete_body_psGet_fb (acc : World) (psId x : Nat)
    (ps' : PlaneState)
    (h : (mark_complete_body acc psId).psGet x = some ps') :
    ∃ ps0, acc.psGet x = some ps0 ∧ ps'.fb = ps0.fb := by
  revert h
  unfold mark_complete_body
  rcases hps : acc.psGet psId with _ | ps
  · intro h
    exact ⟨ps', h, rfl⟩
  · intro h
    by_cases hx : x = psId
    · subst hx
      rw [psGet_psSet_self _ _ _ ps hps] at h
      refine ⟨ps, hps, ?_⟩
      rw [← Option.some.inj h]
    · rw [psGet_psSet_ne _ _ _ _ hx] at h
      exact ⟨ps', h, rfl⟩

theorem mark_fold_psGet_fb : ∀ (l : List Nat) (acc : World) (x : Nat)
    (ps' : PlaneState),
    (l.foldl mark_complete_body acc).psGet x = some ps' →
    ∃ ps0, acc.psGet x = some ps0 ∧ ps'.fb = ps0.fb := by
  intro l
  induction l with
  | nil =>
    intro acc x ps' h
    exact ⟨ps', h, rfl⟩
  | cons a t ih =>
    intro acc x ps' h
    rw [List.foldl_cons] at h
    obtain ⟨q, hq, hfb1⟩ := ih _ x ps' h
    obtain ⟨q0, hq0, hfb2⟩ := mark_complete_body_psGet_fb acc a x q hq
    exact ⟨q0, hq0, hfb1.trans hfb2⟩
theorem assign_plane_dispose_psGet_fb (w : World) (pl : Plane) (x : Nat)
    (ps' : PlaneState)
    (h : (assign_plane_dispose w pl).psGet x = some ps') :
    ∃ ps0, w.psGet x = some ps0 ∧ ps'.fb = ps0.fb := by
  revert h
  unfold assign_plane_dispose
  repeat' split
  all_goals intro h
  all_goals first
    | exact ⟨ps', h, rfl⟩
    | exact drm_plane_state_free_psGet_fb _ _ _ x ps' h

/-- A synchronous assignment-loop step never changes the framebuffer of a
surviving plane state. -/
theorem assign_plane_psGet_fb_sync (w : World) (outputId psId x : Nat)
    (ps' : PlaneState)
    (h : (drm_output_assign_state_plane w outputId ApplyMode.Sync psId).psGet x
      = some ps') :
    ∃ ps0, w.psGet x = some ps0 ∧ ps'.fb = ps0.fb := by
  revert h
  unfold drm_output_assign_state_plane
  rcases hps : w.psGet psId with _ | ps
  · intro h
    exact ⟨ps', h, rfl⟩
  · try dsimp only
    rcases hpl : w.plGet ps.plane with _ | pl
    · intro h
      exact ⟨ps', h, rfl⟩
    · try dsimp only
      rw [if_pos (show ApplyMode.Sync ≠ ApplyMode.Async from
        fun hh => ApplyMode.noConfusion hh)]
      rcases hv : (assign_plane_dispose w pl).plGet ps.plane with _ | pl2
      all_goals try dsimp only
      all_goals repeat' split
      all_goals intro h
      all_goals (
        first
          | (rename_i ps2 heq
             by_cases hx : x = psId
             · subst hx
               rw [psGet_psSet_self _ _ _ ps2 heq] at h
               try rw [psGet_plSet] at heq
               obtain ⟨q0, hq0, hfb⟩ := assign_plane_dispose_psGet_fb w pl x ps2 heq
               refine ⟨q0, hq0, ?_⟩
               rw [← Option.some.inj h]
               exact hfb
             · rw [psGet_psSet_ne _ _ _ _ hx] at h
               try rw [psGet_plSet] at h
               exact assign_plane_dispose_psGet_fb w pl x ps' h)
          | (try rw [psGet_plSet] at h
             exact assign_plane_dispose_psGet_fb w pl x ps' h))

theorem assign_fold_psGet_fb_sync (outputId : Nat) : ∀ (l : List Nat)
    (v : World) (x : Nat) (ps' : PlaneState),
    (l.foldl (fun acc psId =>
      drm_output_assign_state_plane acc outputId ApplyMode.Sync psId) v).psGet x
      = some ps' →
    ∃ ps0, v.psGet x = some ps0 ∧ ps'.fb = ps0.fb := by
  intro l
  induction l with
  | nil =>
    intro v x ps' h
    exact ⟨ps', h, rfl⟩
  | cons a t ih =>
    intro v x ps' h
    rw [List.foldl_cons] at h
    obtain ⟨q, hq, hfb1⟩ := ih _ x ps' h
    obtain ⟨q0, hq0, hfb2⟩ := assign_plane_psGet_fb_sync v outputId a x q hq
    exact ⟨q0, hq0, hfb1.trans hfb2⟩

/-- A synchronous `drm_output_assign_state` never changes the framebuffer of
a surviving plane state. -/
theorem drm_output_assign_state_psGet_fb_sync (w : World) (osId x : Nat)
    (ps' : PlaneState)
    (h : (drm_output_assign_state w osId ApplyMode.Sync).psGet x = some ps') :
    ∃ ps0, w.psGet x = some ps0 ∧ ps'.fb = ps0.fb := by
  revert h
  unfold drm_output_assign_state
  rcases hos : w.osGet osId with _ | os
  · intro h
    exact ⟨ps', h, rfl⟩
  · try dsimp only
    rcases hout : w.outGet os.output with _ | out
    · intro h
      exact ⟨ps', h, rfl⟩
    · try dsimp only
      rw [if_neg (show ¬ApplyMode.Sync = ApplyMode.Async from
        fun hh => ApplyMode.noConfusion hh)]
      intro h
      obtain ⟨q, hq, hfb1⟩ := assign_fold_psGet_fb_sync os.output os.plane_list _ x ps' h
      rw [assign_arm_atomic_psGet, assign_point_output_psGet,
        assign_set_pending_none_psGet, assign_unlink_pending_psGet] at hq
      obtain ⟨q0, hq0, hfb2⟩ := drm_output_state_free_psGet_fb w out.state_cur x q hq
      exact ⟨q0, hq0, hfb1.trans hfb2⟩
/-- Retirement of an output whose previous state is already gone: the output
record keeps its live-state pointer, output states are untouched, and no
surviving plane state changes its framebuffer. -/
theorem drm_output_update_complete_frame (w : World) (oO : Nat) (out : Output)
    (hout : w.outGet oO = some out)
    (hlast : out.state_last = none) :
    (∃ out2, (drm_output_update_complete w oO).1.outGet oO = some out2 ∧
      out2.state_cur = out.state_cur) ∧
    (∀ j, (drm_output_update_complete w oO).1.osGet j = w.osGet j) ∧
    (∀ x ps', (drm_output_update_complete w oO).1.psGet x = some ps' →
      ∃ ps0, w.psGet x = some ps0 ∧ ps'.fb = ps0.fb) := by
  unfold drm_output_update_complete
  rw [hout]
  try dsimp only
  rw [hlast]
  rcases hcur : out.state_cur with _ | cur
  all_goals try dsimp only
  · rw [drm_output_state_free_none]
    rw [hout]
    try dsimp only
    rw [outGet_outSet_self _ _ _ _ hout]
    try dsimp only
    repeat' split
    all_goals refine ⟨?_, ?_, ?_⟩
    all_goals first
      | exact ⟨_, outGet_outSet_self _ _ _ _ (outGet_outSet_self _ _ _ _ hout), hcur⟩
      | exact ⟨_, outGet_outSet_self _ _ _ _ hout, hcur⟩
      | (intro x ps' h
         simp only [psGet_outSet] at h
         exact ⟨ps', h, rfl⟩)
      | (intro j
         simp only [osGet_outSet])
  · rcases hosg : w.osGet cur with _ | os
    all_goals try dsimp only
    · rw [drm_output_state_free_none]
      rw [hout]
      try dsimp only
      rw [outGet_outSet_self _ _ _ _ hout]
      try dsimp only
      repeat' split
      all_goals refine ⟨?_, ?_, ?_⟩
      all_goals first
        | exact ⟨_, outGet_outSet_self _ _ _ _ (outGet_outSet_self _ _ _ _ hout), hcur⟩
        | exact ⟨_, outGet_outSet_self _ _ _ _ hout, hcur⟩
        | (intro x ps' h
           simp only [psGet_outSet] at h
           exact ⟨ps', h, rfl⟩)
        | (intro j
           simp only [osGet_outSet])
    · rw [drm_output_state_free_none]
      have hm_out : (os.plane_list.foldl mark_complete_body w).outGet oO
          = some out := by
        rw [mark_fold_outGet, hout]
      rw [hm_out]
      try dsimp only
      rw [outGet_outSet_self _ _ _ _ hm_out]
      try dsimp only
      repeat' split
      all_goals refine ⟨?_, ?_, ?_⟩
      all_goals first
        | exact ⟨_, outGet_outSet_self _ _ _ _ (outGet_outSet_self _ _ _ _ hm_out), hcur⟩
        | exact ⟨_, outGet_outSet_self _ _ _ _ hm_out, hcur⟩
        | (intro x ps' h
           simp only [psGet_outSet] at h
           exact mark_fold_psGet_fb os.plane_list w x ps' h)
        | (intro j
           simp only [osGet_outSet]
           rw [mark_fold_osGet])
/-- C6: a legacy-path commit of a full-disable output state (power state off)
returns 0 and emits exactly the overlay-clearing `SetPlane(0)` ioctls, then
the cursor clear, then the CRTC clear with a null framebuffer, completing
synchronously before the call returns (the completion event is part of the
same call's trace); afterwards the output's live state is the committed state,
whose power state is off and none of whose listed plane states holds a
framebuffer. -/
theorem c6_legacy_disable (w : World) (osId : Nat) (io : LegacyIo)
    (st : OutputState) (out : Output)
    (hos : w.osGet osId = some st)
    (hout : w.outGet st.output = some out)
    (hdpms : st.dpms = Dpms.Off)
    (hlast : out.state_last = none)
    (hdp : out.disable_planes = false)
    (hsync : ∀ oldId, out.state_cur = some oldId →
      oldId ≠ osId ∧ ∃ oldOs, w.osGet oldId = some oldOs ∧
        (∀ p ∈ oldOs.plane_list, p ∉ st.plane_list) ∧
        (∀ p ∈ oldOs.plane_list, ∀ ps, w.psGet p = some ps →
          ps.output_state ≠ some osId))
    (hfb : ∀ p ∈ st.plane_list, ∀ ps, w.psGet p = some ps → ps.fb = none) :
    (drm_output_apply_state_legacy w osId io).2.1 = 0 ∧
    (∃ ovs cvs act, (drm_output_apply_state_legacy w osId io).2.2
        = ovs ++ cvs ++ [Ev.SetCrtcIoctl 0, Ev.Complete act] ∧
      (∀ e ∈ ovs, ∃ pId, e = Ev.SetPlaneIoctl pId 0) ∧
      (cvs = [] ∨ cvs = [Ev.SetCursorIoctl 0])) ∧
    (∃ out2, (drm_output_apply_state_legacy w osId io).1.outGet st.output
        = some out2 ∧ out2.state_cur = some osId) ∧
    (∃ os', (drm_output_apply_state_legacy w osId io).1.osGet osId = some os' ∧
      os'.dpms = Dpms.Off ∧
      ∀ p ∈ os'.plane_list, ∀ ps',
        (drm_output_apply_state_legacy w osId io).1.psGet p = some ps' →
          ps'.fb = none) := by
  obtain ⟨v, heq, hvos, hvkey, hvpl, hvps, hvold⟩ :=
    assign_prefold_spec w osId ApplyMode.Sync st out hos hout hlast (fun _ => hsync)
  have h1os : (drm_output_assign_state w osId ApplyMode.Sync).osGet osId
      = some { st with pending_state := none } := by
    rw [heq, assign_fold_osGet]
    exact hvos
  have h1keymap : ((drm_output_assign_state w osId ApplyMode.Sync).outGet st.output).map outKey
      = some (some osId, none) := by
    rw [heq, assign_fold_outKey, hvkey,
      if_neg (show ¬ApplyMode.Sync = ApplyMode.Async from
        fun hh => ApplyMode.noConfusion hh)]
  obtain ⟨out1, hout1, hkey1⟩ := outKey_map_extract _ _ h1keymap
  have hcur1 : out1.state_cur = some osId := congrArg Prod.fst hkey1
  have hlast1 : out1.state_last = none := congrArg Prod.snd hkey1
  obtain ⟨⟨out2, hout2, hcur2⟩, hosp, hfbp⟩ :=
    drm_output_update_complete_frame (drm_output_assign_state w osId ApplyMode.Sync)
      st.output out1 hout1 hlast1
  unfold drm_output_apply_state_legacy
  rw [hos]
  try dsimp only
  rw [hout]
  try dsimp only
  rw [hdp, if_neg Bool.false_ne_true, hdpms,
    if_pos (show Dpms.Off ≠ Dpms.On from fun hh => Dpms.noConfusion hh)]
  try dsimp only
  refine ⟨rfl, ⟨_, _, _, rfl, ?_, ?_⟩, ?_, ?_⟩
  · intro e he
    rw [List.mem_filterMap] at he
    obtain ⟨a, _, hfa⟩ := he
    rcases hq : w.psGet a with _ | ps
    · simp only [hq] at hfa
      exact Option.noConfusion hfa
    · simp only [hq] at hfa
      rcases hpl : w.plGet ps.plane with _ | pl
      · simp only [hpl] at hfa
        exact Option.noConfusion hfa
      · simp only [hpl] at hfa
        split at hfa
        · exact ⟨ps.plane, (Option.some.inj hfa).symm⟩
        · exact Option.noConfusion hfa
  · rcases hcp : out.cursor_plane with _ | cp
    · exact Or.inl rfl
    · exact Or.inr rfl
  · exact ⟨out2, hout2, hcur2.trans hcur1⟩
  · refine ⟨{ st with pending_state := none }, ?_, hdpms, ?_⟩
    · rw [hosp osId]
      exact h1os
    · intro p hp ps' hps'
      obtain ⟨q, hq, hfb1⟩ := hfbp p ps' hps'
      obtain ⟨q0, hq0, hfb2⟩ := drm_output_assign_state_psGet_fb_sync w osId p q hq
      rw [hfb1, hfb2]
      exact hfb p hp q0 hq0
/-- Concrete full-disable output state 21 for output 10: power off, one
framebuffer-less plane state. -/
def osC6 : OutputState :=
  { output := 10, pending_state := some 30, plane_list := [5], dpms := Dpms.Off }

/-- Concrete world for the legacy disable commit: output 10 is live on state
20 while the disable state 21 is pending. -/
def wC6 : World :=
  { next_id := 50,
    plane_states :=
      [(5, { plane := 1, output := none, output_state := some 21,
             fb := none, complete := false }),
       (4, { plane := 1, output := some 10, output_state := some 20,
             fb := none, complete := true })],
    output_states :=
      [(21, osC6),
       (20, { output := 10, pending_state := none, plane_list := [4],
              dpms := Dpms.On })],
    pendings := [(30, { output_list := [21] })],
    planes := [(1, { ptype := PlaneType.Primary, state_cur := some 4 })],
    outputs := [(10, outC3)],
    fb_refs := [],
    state_invalid := false, atomic_modeset := false, sprites_hidden := false }

/-- Witness for C6: committing disable state 21 through the legacy path in
the concrete world. -/
theorem c6_legacy_disable_witness :
    (drm_output_apply_state_legacy wC6 21
      { setCrtcOk := true, pageFlipOk := true }).2.1 = 0 ∧
    (∃ ovs cvs act, (drm_output_apply_state_legacy wC6 21
        { setCrtcOk := true, pageFlipOk := true }).2.2
        = ovs ++ cvs ++ [Ev.SetCrtcIoctl 0, Ev.Complete act] ∧
      (∀ e ∈ ovs, ∃ pId, e = Ev.SetPlaneIoctl pId 0) ∧
      (cvs = [] ∨ cvs = [Ev.SetCursorIoctl 0])) ∧
    (∃ out2, (drm_output_apply_state_legacy wC6 21
        { setCrtcOk := true, pageFlipOk := true }).1.outGet osC6.output
        = some out2 ∧ out2.state_cur = some 21) ∧
    (∃ os', (drm_output_apply_state_legacy wC6 21
        { setCrtcOk := true, pageFlipOk := true }).1.osGet 21 = some os' ∧
      os'.dpms = Dpms.Off ∧
      ∀ p ∈ os'.plane_list, ∀ ps',
        (drm_output_apply_state_legacy wC6 21
          { setCrtcOk := true, pageFlipOk := true }).1.psGet p = some ps' →
          ps'.fb = none) :=
  c6_legacy_disable wC6 21 { setCrtcOk := true, pageFlipOk := true } osC6 outC3
    rfl rfl rfl rfl rfl
    (by
      intro oldId hcur
      cases Option.some.inj hcur
      refine ⟨by decide,
        { output := 10, pending_state := none, plane_list := [4],
          dpms := Dpms.On }, rfl, by decide, ?_⟩
      intro p hp ps hps
      cases List.mem_singleton.mp hp
      cases Option.some.inj hps
      decide)
    (by
      intro p hp ps hps
      cases List.mem_singleton.mp hp
      cases Option.some.inj hps
      rfl)
/-- Freeing a plane state can only shrink an output state's plane list. -/
theorem drm_plane_state_free_osGet_shrink (w : World) (s : Option Nat) (f : Bool)
    (j : Nat) (os' : OutputState)
    (h : (drm_plane_state_free w s f).osGet j = some os') :
    ∃ os0, w.osGet j = some os0 ∧ ∀ q ∈ os'.plane_list, q ∈ os0.plane_list := by
  rcases s with _ | psId
  · exact ⟨os', h, fun q hq => hq⟩
  · rcases hps : w.psGet psId with _ | ps
    · refine ⟨os', ?_, fun q hq => hq⟩
      unfold drm_plane_state_free at h
      try dsimp only at h
      rw [hps] at h
      exact h
    · revert h
      unfold drm_plane_state_free
      try dsimp only
      rw [hps]
      try dsimp only
      rcases hom : ps.output_state with _ | osId'
      · try dsimp only
        repeat' split
        all_goals intro h
        all_goals (
          simp only [World.osGet, World.psSet, world_fb_unref] at h
          exact ⟨os', h, fun q hq => hq⟩)
      · try dsimp only
        rcases hoget : w.osGet osId' with _ | os0
        · try dsimp only
          repeat' split
          all_goals intro h
          all_goals (
            simp only [World.osGet, World.psSet, world_fb_unref] at h
            exact ⟨os', h, fun q hq => hq⟩)
        · try dsimp only
          repeat' split
          all_goals intro h
          all_goals (
            simp only [World.osGet, World.psSet, World.osSet, world_fb_unref] at h
            by_cases hj : j = osId'
            · subst hj
              rw [assocFind_assocSet_self w.output_states j _ os0 hoget] at h
              cases Option.some.inj h
              refine ⟨os0, hoget, ?_⟩
              intro q hq
              exact List.mem_of_mem_filter hq
            · rw [assocFind_assocSet_ne w.output_states osId' j _ hj] at h
              exact ⟨os', h, fun q hq => hq⟩)

/-- The plane-state-freeing loop can only shrink an output state's plane
list. -/
theorem free_fold_osGet_shrink : ∀ (l : List Nat) (acc : World) (j : Nat)
    (os' : OutputState),
    ((l.foldl (fun a psId => drm_plane_state_free a (some psId) false) acc).osGet j
      = some os') →
    ∃ os0, acc.osGet j = some os0 ∧ ∀ q ∈ os'.plane_list, q ∈ os0.plane_list := by
  intro l
  induction l with
  | nil =>
    intro acc j os' h
    exact ⟨os', h, fun q hq => hq⟩
  | cons a t ih =>
    intro acc j os' h
    rw [List.foldl_cons] at h
    obtain ⟨os1, hos1, hsub1⟩ := ih _ j os' h
    obtain ⟨os0, hos0, hsub0⟩ :=
      drm_plane_state_free_osGet_shrink acc (some a) false j os1 hos1
    exact ⟨os0, hos0, fun q hq => hsub0 q (hsub1 q hq)⟩

/-- Freeing an output state can only remove a different output state's plane
list entries, never add them. -/
theorem drm_output_state_free_osGet_shrink (w : World) (sId j : Nat)
    (os' : OutputState)
    (h : (drm_output_state_free w (some sId)).osGet j = some os') :
    ∃ os0, w.osGet j = some os0 ∧ ∀ q ∈ os'.plane_list, q ∈ os0.plane_list := by
  revert h
  unfold drm_output_state_free
  try dsimp only
  rcases hos : w.osGet sId with _ | os
  · intro h
    exact ⟨os', h, fun q hq => hq⟩
  · try dsimp only
    repeat' split
    all_goals intro h
    all_goals (
      simp only [World.osGet, World.pdSet, assocFind_assocErase] at h
      by_cases hj : j = sId
      · rw [if_pos hj] at h
        exact Option.noConfusion h
      · rw [if_neg hj] at h
        exact free_fold_osGet_shrink os.plane_list w j os' h)

/-- The output-state-freeing loop of `drm_pending_state_free` leaves a plane
state untouched when no listed output state contains it. -/
theorem pending_free_fold_psGet (x : Nat) : ∀ (l : List Nat) (acc : World),
    (∀ osId ∈ l, ∀ os, acc.osGet osId = some os → x ∉ os.plane_list) →
    (l.foldl (fun a osId => drm_output_state_free a (some osId)) acc).psGet x
      = acc.psGet x := by
  intro l
  induction l with
  | nil =>
    intro acc _
    rfl
  | cons a t ih =>
    intro acc hall
    rw [List.foldl_cons]
    have hstep : (drm_output_state_free acc (some a)).psGet x = acc.psGet x := by
      rcases hos : acc.osGet a with _ | os
      · unfold drm_output_state_free
        try dsimp only
        rw [hos]
      · exact drm_output_state_free_psGet acc a os x hos
          (hall a (List.mem_cons_self a t) os hos)
    have hnext : ∀ osId ∈ t, ∀ os,
        (drm_output_state_free acc (some a)).osGet osId = some os →
          x ∉ os.plane_list := by
      intro osId hmem os hoget
      obtain ⟨os0, hos0, hsub⟩ :=
        drm_output_state_free_osGet_shrink acc a osId os hoget
      exact fun hxx => hall osId (List.mem_cons_of_mem a hmem) os0 hos0 (hsub x hxx)
    rw [ih _ hnext, hstep]

/-- Freeing a pending state removes it from the heap. -/
theorem drm_pending_state_free_pdGet_self (w : World) (pid : Nat) :
    (drm_pending_state_free w (some pid)).pdGet pid = none := by
  unfold drm_pending_state_free
  try dsimp only
  rcases hpd : w.pdGet pid with _ | p
  · exact hpd
  · try dsimp only
    simp only [World.pdGet, assocFind_assocErase, if_true]

/-- Freeing a pending state leaves a plane state untouched when none of the
pending state's output states contains it. -/
theorem drm_pending_state_free_psGet (w : World) (pid : Nat) (p : PendingState)
    (x : Nat) (hpd : w.pdGet pid = some p)
    (hx : ∀ osId ∈ p.output_list, ∀ os, w.osGet osId = some os →
      x ∉ os.plane_list) :
    (drm_pending_state_free w (some pid)).psGet x = w.psGet x := by
  unfold drm_pending_state_free
  try dsimp only
  rw [hpd]
  try dsimp only
  simp only [World.psGet]
  exact pending_free_fold_psGet x p.output_list w hx
/-- C1: when an atomic submission fails — state compilation (including the
forced resync) or the commit ioctl — nothing is assigned: every output and
every plane keeps its prior record, live plane states outside the pending
state survive untouched, the pending state is freed, the resync-needed flag
is left exactly as it was, and the call returns -1. The flag is cleared
(only) by a successful commit, which returns 0. -/
theorem c1_atomic_failure_rollback (w : World) (pid : Nat) (mode : ApplyMode)
    (io : AtomicIo) (p : PendingState)
    (hpd : w.pdGet pid = some p)
    (halloc : io.reqAllocOk = true) :
    (((w.state_invalid ∧ ¬io.resyncOk) ∨
        p.output_list.any (fun osId => ¬io.compileOk osId) ∨ ¬io.commitOk) →
      (drm_pending_state_apply_atomic w pid mode io).2.1 = -1 ∧
      (∀ j, (drm_pending_state_apply_atomic w pid mode io).1.outGet j
        = w.outGet j) ∧
      (∀ j, (drm_pending_state_apply_atomic w pid mode io).1.plGet j
        = w.plGet j) ∧
      (drm_pending_state_apply_atomic w pid mode io).1.pdGet pid = none ∧
      (drm_pending_state_apply_atomic w pid mode io).1.state_invalid
        = w.state_invalid ∧
      (∀ x, (∀ osId ∈ p.output_list, ∀ os, w.osGet osId = some os →
          x ∉ os.plane_list) →
        (drm_pending_state_apply_atomic w pid mode io).1.psGet x = w.psGet x)) ∧
    (¬((w.state_invalid ∧ ¬io.resyncOk) ∨
        p.output_list.any (fun osId => ¬io.compileOk osId)) → io.commitOk →
      (drm_pending_state_apply_atomic w pid mode io).2.1 = 0 ∧
      (drm_pending_state_apply_atomic w pid mode io).1.state_invalid = false) := by
  constructor
  · intro hfail
    unfold drm_pending_state_apply_atomic
    rw [hpd]
    try dsimp only
    rw [if_neg (fun hn => hn halloc)]
    by_cases hcf : (w.state_invalid ∧ ¬io.resyncOk) ∨
        p.output_list.any (fun osId => ¬io.compileOk osId)
    · rw [if_pos hcf]
      exact ⟨rfl, fun j => drm_pending_state_free_outGet w (some pid) j,
        fun j => drm_pending_state_free_plGet w (some pid) j,
        drm_pending_state_free_pdGet_self w pid,
        drm_pending_state_free_state_invalid w (some pid),
        fun x hx => drm_pending_state_free_psGet w pid p x hpd hx⟩
    · have hcm : ¬io.commitOk := by
        rcases hfail with h | h | h
        · exact absurd (Or.inl h) hcf
        · exact absurd (Or.inr h) hcf
        · exact h
      rw [if_neg hcf, if_pos hcm]
      exact ⟨rfl, fun j => drm_pending_state_free_outGet w (some pid) j,
        fun j => drm_pending_state_free_plGet w (some pid) j,
        drm_pending_state_free_pdGet_self w pid,
        drm_pending_state_free_state_invalid w (some pid),
        fun x hx => drm_pending_state_free_psGet w pid p x hpd hx⟩
  · intro hnf hck
    unfold drm_pending_state_apply_atomic
    rw [hpd]
    try dsimp only
    rw [if_neg (fun hn => hn halloc), if_neg hnf, if_neg (fun hn => hn hck)]
    refine ⟨rfl, ?_⟩
    rw [drm_pending_state_free_state_invalid]
/-- Witness for C1: a failed commit ioctl over the concrete world's pending
state 30. -/
theorem c1_atomic_failure_rollback_witness :
    (((wC6.state_invalid ∧
        ¬({ reqAllocOk := true, resyncOk := true, compileOk := fun _ => true,
            commitOk := false } : AtomicIo).resyncOk) ∨
        ([21] : List Nat).any (fun osId =>
          ¬({ reqAllocOk := true, resyncOk := true, compileOk := fun _ => true,
              commitOk := false } : AtomicIo).compileOk osId) ∨
        ¬({ reqAllocOk := true, resyncOk := true, compileOk := fun _ => true,
            commitOk := false } : AtomicIo).commitOk) →
      (drm_pending_state_apply_atomic wC6 30 ApplyMode.Async
        { reqAllocOk := true, resyncOk := true, compileOk := fun _ => true,
          commitOk := false }).2.1 = -1 ∧
      (∀ j, (drm_pending_state_apply_atomic wC6 30 ApplyMode.Async
        { reqAllocOk := true, resyncOk := true, compileOk := fun _ => true,
          commitOk := false }).1.outGet j = wC6.outGet j) ∧
      (∀ j, (drm_pending_state_apply_atomic wC6 30 ApplyMode.Async
        { reqAllocOk := true, resyncOk := true, compileOk := fun _ => true,
          commitOk := false }).1.plGet j = wC6.plGet j) ∧
      (drm_pending_state_apply_atomic wC6 30 ApplyMode.Async
        { reqAllocOk := true, resyncOk := true, compileOk := fun _ => true,
          commitOk := false }).1.pdGet 30 = none ∧
      (drm_pending_state_apply_atomic wC6 30 ApplyMode.Async
        { reqAllocOk := true, resyncOk := true, compileOk := fun _ => true,
          commitOk := false }).1.state_invalid = wC6.state_invalid ∧
      (∀ x, (∀ osId ∈ ([21] : List Nat), ∀ os, wC6.osGet osId = some os →
          x ∉ os.plane_list) →
        (drm_pending_state_apply_atomic wC6 30 ApplyMode.Async
          { reqAllocOk := true, resyncOk := true, compileOk := fun _ => true,
            commitOk := false }).1.psGet x = wC6.psGet x)) ∧
    (¬((wC6.state_invalid ∧
        ¬({ reqAllocOk := true, resyncOk := true, compileOk := fun _ => true,
            commitOk := false } : AtomicIo).resyncOk) ∨
        ([21] : List Nat).any (fun osId =>
          ¬({ reqAllocOk := true, resyncOk := true, compileOk := fun _ => true,
              commitOk := false } : AtomicIo).compileOk osId)) →
      ({ reqAllocOk := true, resyncOk := true, compileOk := fun _ => true,
         commitOk := false } : AtomicIo).commitOk →
      (drm_pending_state_apply_atomic wC6 30 ApplyMode.Async
        { reqAllocOk := true, resyncOk := true, compileOk := fun _ => true,
          commitOk := false }).2.1 = 0 ∧
      (drm_pending_state_apply_atomic wC6 30 ApplyMode.Async
        { reqAllocOk := true, resyncOk := true, compileOk := fun _ => true,
          commitOk := false }).1.state_invalid = false) :=
  c1_atomic_failure_rollback wC6 30 ApplyMode.Async
    { reqAllocOk := true, resyncOk := true, compileOk := fun _ => true,
      commitOk := false }
    { output_list := [21] } rfl rfl
theorem free_fold_pdGet (l : List Nat) (w : World) (j : Nat) :
    (l.foldl (fun a psId => drm_plane_state_free a (some psId) false) w).pdGet j
      = w.pdGet j := by
  induction l generalizing w with
  | nil => rfl
  | cons a t ih =>
    rw [List.foldl_cons, ih, drm_plane_state_free_pdGet]

/-- Freeing an output state unlinks it from its pending state's output
list. -/
theorem drm_output_state_free_pdGet_unlink (w : World) (sId pid : Nat)
    (os : OutputState) (q : PendingState)
    (hos : w.osGet sId = some os)
    (hp : os.pending_state = some pid)
    (hq : w.pdGet pid = some q) :
    (drm_output_state_free w (some sId)).pdGet pid
      = some { q with output_list := q.output_list.filter (· != sId) } := by
  unfold drm_output_state_free
  try dsimp only
  rw [hos]
  try dsimp only
  rw [hp]
  try dsimp only
  have hq1 : (os.plane_list.foldl
      (fun a psId => drm_plane_state_free a (some psId) false) w).pdGet pid
      = some q := by
    rw [free_fold_pdGet]
    exact hq
  rw [hq1]
  try dsimp only
  simp only [World.pdGet]
  exact pdGet_pdSet_self _ _ _ q hq1

theorem assign_plane_pdGet (w : World) (outputId : Nat) (mode : ApplyMode)
    (psId j : Nat) :
    (drm_output_assign_state_plane w outputId mode psId).pdGet j = w.pdGet j := by
  unfold drm_output_assign_state_plane
  rcases hps : w.psGet psId with _ | ps
  · rfl
  · try dsimp only
    rcases hpl : w.plGet ps.plane with _ | pl
    · rfl
    · try dsimp only
      have hdisp : (assign_plane_dispose w pl).pdGet j = w.pdGet j := by
        unfold assign_plane_dispose
        repeat' split
        all_goals first
          | rfl
          | rw [drm_plane_state_free_pdGet]
      rcases hv : (assign_plane_dispose w pl).plGet ps.plane with _ | pl2
      all_goals try dsimp only
      all_goals repeat' split
      all_goals (
        repeat first
          | rw [pdGet_psSet]
          | rw [pdGet_plSet]
          | rw [pdGet_outSet]
        exact hdisp)

theorem assign_fold_pdGet (outputId : Nat) (mode : ApplyMode) (j : Nat)
    (l : List Nat) (v : World) :
    (l.foldl (fun acc psId => drm_output_assign_state_plane acc outputId mode psId) v).pdGet j
      = v.pdGet j := by
  induction l generalizing v with
  | nil => rfl
  | cons a t ih =>
    rw [List.foldl_cons, ih, assign_plane_pdGet]

/-- Freeing a plane state preserves every output state's identity fields;
only the plane list can shrink. -/
theorem drm_plane_state_free_osGet_fields (w : World) (s : Option Nat)
    (f : Bool) (j : Nat) (os0 : OutputState)
    (h : w.osGet j = some os0) :
    ∃ os', (drm_plane_state_free w s f).osGet j = some os' ∧
      os'.output = os0.output ∧ os'.pending_state = os0.pending_state ∧
      os'.dpms = os0.dpms := by
  rcases s with _ | psId
  · exact ⟨os0, h, rfl, rfl, rfl⟩
  · rcases hps : w.psGet psId with _ | ps
    · refine ⟨os0, ?_, rfl, rfl, rfl⟩
      unfold drm_plane_state_free
      try dsimp only
      rw [hps]
      exact h
    · unfold drm_plane_state_free
      try dsimp only
      rw [hps]
      try dsimp only
      rcases hom : ps.output_state with _ | osId'
      · try dsimp only
        repeat' split
        all_goals (
          refine ⟨os0, ?_, rfl, rfl, rfl⟩
          simp only [World.osGet, World.psSet, world_fb_unref]
          exact h)
      · try dsimp only
        rcases hoget : w.osGet osId' with _ | osB
        · try dsimp only
          repeat' split
          all_goals (
            refine ⟨os0, ?_, rfl, rfl, rfl⟩
            simp only [World.osGet, World.psSet, world_fb_unref]
            exact h)
        · try dsimp only
          repeat' split
          all_goals (
            by_cases hj : j = osId'
            · subst hj
              rw [hoget] at h
              cases Option.some.inj h
              refine ⟨{ os0 with
                plane_list := os0.plane_list.filter (· != psId) }, ?_, rfl, rfl, rfl⟩
              simp only [World.osGet, World.psSet, World.osSet, world_fb_unref]
              exact assocFind_assocSet_self w.output_states j _ os0 hoget
            · refine ⟨os0, ?_, rfl, rfl, rfl⟩
              simp only [World.osGet, World.psSet, World.osSet, world_fb_unref]
              rw [assocFind_assocSet_ne w.output_states osId' j _ hj]
              exact h)

theorem free_fold_osGet_fields : ∀ (l : List Nat) (acc : World) (j : Nat)
    (os0 : OutputState), acc.osGet j = some os0 →
    ∃ os', ((l.foldl (fun a psId => drm_plane_state_free a (some psId) false) acc).osGet j
        = some os') ∧
      os'.output = os0.output ∧ os'.pending_state = os0.pending_state ∧
      os'.dpms = os0.dpms := by
  intro l
  induction l with
  | nil =>
    intro acc j os0 h
    exact ⟨os0, h, rfl, rfl, rfl⟩
  | cons a t ih =>
    intro acc j os0 h
    rw [List.foldl_cons]
    obtain ⟨os1, h1, f1, f2, f3⟩ :=
      drm_plane_state_free_osGet_fields acc (some a) false j os0 h
    obtain ⟨os', h', g1, g2, g3⟩ := ih _ j os1 h1
    exact ⟨os', h', g1.trans f1, g2.trans f2, g3.trans f3⟩

/-- Freeing one output state preserves every other output state's identity
fields. -/
theorem drm_output_state_free_osGet_fields_ne (w : World) (sId j : Nat)
    (os0 : OutputState) (hne : j ≠ sId)
    (h : w.osGet j = some os0) :
    ∃ os', (drm_output_state_free w (some sId)).osGet j = some os' ∧
      os'.output = os0.output ∧ os'.pending_state = os0.pending_state ∧
      os'.dpms = os0.dpms := by
  unfold drm_output_state_free
  try dsimp only
  rcases hos : w.osGet sId with _ | os
  · exact ⟨os0, h, rfl, rfl, rfl⟩
  · try dsimp only
    obtain ⟨os', h', g1, g2, g3⟩ := free_fold_osGet_fields os.plane_list w j os0 h
    repeat' split
    all_goals (
      refine ⟨os', ?_, g1, g2, g3⟩
      simp only [World.osGet, World.pdSet, assocFind_assocErase]
      rw [if_neg hne]
      exact h')
theorem assign_set_pending_none_pdGet (w : World) (osId j : Nat) :
    (assign_set_pending_none w osId).pdGet j = w.pdGet j := by
  unfold assign_set_pending_none
  repeat' split
  all_goals simp only [pdGet_osSet]

theorem assign_point_output_pdGet (w : World) (output osId j : Nat) :
    (assign_point_output w output osId).pdGet j = w.pdGet j := by
  unfold assign_point_output
  repeat' split
  all_goals simp only [pdGet_outSet]

theorem assign_arm_atomic_pdGet (w : World) (output : Nat) (mode : ApplyMode)
    (j : Nat) :
    (assign_arm_atomic w output mode).pdGet j = w.pdGet j := by
  unfold assign_arm_atomic
  repeat' split
  all_goals simp only [pdGet_outSet]

theorem assign_point_output_outGet_ne (w : World) (output osId j : Nat)
    (hne : j ≠ output) :
    (assign_point_output w output osId).outGet j = w.outGet j := by
  unfold assign_point_output
  repeat' split
  · exact outGet_outSet_ne w output _ j hne
  · rfl

theorem assign_arm_atomic_outGet_ne (w : World) (output : Nat)
    (mode : ApplyMode) (j : Nat) (hne : j ≠ output) :
    (assign_arm_atomic w output mode).outGet j = w.outGet j := by
  unfold assign_arm_atomic
  repeat' split
  all_goals first
    | rfl
    | exact outGet_outSet_ne w output _ j hne

/-- An asynchronous assignment unlinks the committed state from its pending
state's output list. -/
theorem assign_async_pdGet_unlink (w : World) (osId pid : Nat)
    (os : OutputState) (out : Output) (q : PendingState)
    (hos : w.osGet osId = some os)
    (hout : w.outGet os.output = some out)
    (hp : os.pending_state = some pid)
    (hq : w.pdGet pid = some q) :
    (drm_output_assign_state w osId ApplyMode.Async).pdGet pid
      = some { q with output_list := q.output_list.filter (· != osId) } := by
  unfold drm_output_assign_state
  rw [hos]
  try dsimp only
  rw [hout]
  try dsimp only
  rw [if_pos (Eq.refl ApplyMode.Async)]
  rw [assign_fold_pdGet, assign_arm_atomic_pdGet, assign_point_output_pdGet,
    assign_set_pending_none_pdGet]
  unfold assign_unlink_pending
  rw [hp]
  try dsimp only
  have hq1 : (w.outSet os.output { out with state_last := out.state_cur }).pdGet pid
      = some q := by
    rw [pdGet_outSet]
    exact hq
  rw [hq1]
  try dsimp only
  exact pdGet_pdSet_self _ _ _ q hq1

theorem assign_async_osGet_ne (w : World) (osId j : Nat) (hne : j ≠ osId) :
    (drm_output_assign_state w osId ApplyMode.Async).osGet j = w.osGet j := by
  unfold drm_output_assign_state
  rcases hos : w.osGet osId with _ | os
  · rfl
  · try dsimp only
    rcases hout : w.outGet os.output with _ | out
    · rfl
    · try dsimp only
      rw [if_pos (Eq.refl ApplyMode.Async)]
      rw [assign_fold_osGet, assign_arm_atomic_osGet, assign_point_output_osGet,
        assign_set_pending_none_osGet_ne _ _ _ hne, assign_unlink_pending_osGet,
        osGet_outSet]

/-- One assignment-loop step only touches the output it is armed for. -/
theorem assign_plane_outGet_ne (w : World) (outputId : Nat) (mode : ApplyMode)
    (psId j : Nat) (hne : j ≠ outputId) :
    (drm_output_assign_state_plane w outputId mode psId).outGet j = w.outGet j := by
  unfold drm_output_assign_state_plane
  rcases hps : w.psGet psId with _ | ps
  · rfl
  · try dsimp only
    rcases hpl : w.plGet ps.plane with _ | pl
    · rfl
    · try dsimp only
      rcases hv : (assign_plane_dispose w pl).plGet ps.plane with _ | pl2
      all_goals try dsimp only
      all_goals repeat' split
      all_goals (
        repeat first
          | rw [outGet_psSet]
          | rw [outGet_plSet]
          | rw [outGet_outSet_ne _ _ _ _ hne]
        exact assign_plane_dispose_outGet w pl j)

theorem assign_fold_outGet_ne (outputId : Nat) (mode : ApplyMode) (j : Nat)
    (hne : j ≠ outputId) (l : List Nat) (v : World) :
    (l.foldl (fun acc psId => drm_output_assign_state_plane acc outputId mode psId) v).outGet j
      = v.outGet j := by
  induction l generalizing v with
  | nil => rfl
  | cons a t ih =>
    rw [List.foldl_cons, ih, assign_plane_outGet_ne _ _ _ _ _ hne]

/-- An assignment only touches the committed state's output. -/
theorem assign_outGet_ne (w : World) (osId : Nat) (mode : ApplyMode) (j : Nat)
    (hne : ∀ os, w.osGet osId = some os → j ≠ os.output) :
    (drm_output_assign_state w osId mode).outGet j = w.outGet j := by
  unfold drm_output_assign_state
  rcases hos : w.osGet osId with _ | os
  · rfl
  · have hj := hne os hos
    try dsimp only
    rcases hout : w.outGet os.output with _ | out
    · rfl
    · try dsimp only
      rw [assign_fold_outGet_ne _ _ _ hj, assign_arm_atomic_outGet_ne _ _ _ _ hj,
        assign_point_output_outGet_ne _ _ _ _ hj, assign_set_pending_none_outGet,
        assign_unlink_pending_outGet]
      split
      · rw [outGet_outSet_ne _ _ _ _ hj]
      · rw [drm_output_state_free_outGet]
/-- The legacy `err:` path unlinks the freed state from its pending state. -/
theorem legacy_err_pdGet_unlink (w : World) (oO osId pid : Nat)
    (os : OutputState) (q : PendingState)
    (hos : w.osGet osId = some os)
    (hp : os.pending_state = some pid)
    (hq : w.pdGet pid = some q) :
    (drm_output_apply_state_legacy_err w oO osId).pdGet pid
      = some { q with output_list := q.output_list.filter (· != osId) } := by
  unfold drm_output_apply_state_legacy_err
  try dsimp only
  split
  · exact drm_output_state_free_pdGet_unlink _ osId pid os q
      (by rw [osGet_outSet]; exact hos) hp (by rw [pdGet_outSet]; exact hq)
  · exact drm_output_state_free_pdGet_unlink _ osId pid os q hos hp hq

/-- The legacy `err:` path preserves other output states' identity fields. -/
theorem legacy_err_osGet_fields_ne (w : World) (oO osId j : Nat)
    (os0 : OutputState) (hne : j ≠ osId)
    (h : w.osGet j = some os0) :
    ∃ os', (drm_output_apply_state_legacy_err w oO osId).osGet j = some os' ∧
      os'.output = os0.output ∧ os'.pending_state = os0.pending_state ∧
      os'.dpms = os0.dpms := by
  unfold drm_output_apply_state_legacy_err
  try dsimp only
  split
  · exact drm_output_state_free_osGet_fields_ne _ osId j os0 hne
      (by rw [osGet_outSet]; exact h)
  · exact drm_output_state_free_osGet_fields_ne _ osId j os0 hne h

/-- The legacy `err:` path leaves other outputs untouched. -/
theorem legacy_err_outGet_ne (w : World) (oO osId j : Nat) (hne : j ≠ oO) :
    (drm_output_apply_state_legacy_err w oO osId).outGet j = w.outGet j := by
  unfold drm_output_apply_state_legacy_err
  try dsimp only
  split
  · rw [drm_output_state_free_outGet, outGet_outSet_ne _ _ _ _ hne]
  · rw [drm_output_state_free_outGet]

/-- Applying an enabled (power-on) state through the legacy path always
unlinks the state from its pending state, on the failure paths via the freed
state's unlink and on success via the asynchronous assignment. -/
theorem apply_legacy_enable_pdGet_unlink (w : World) (osId pid : Nat)
    (io : LegacyIo) (st : OutputState) (out : Output) (q : PendingState)
    (hos : w.osGet osId = some st)
    (hout : w.outGet st.output = some out)
    (hdpms : st.dpms = Dpms.On)
    (hp : st.pending_state = some pid)
    (hq : w.pdGet pid = some q) :
    ((drm_output_apply_state_legacy w osId io).1).pdGet pid
      = some { q with output_list := q.output_list.filter (· != osId) } := by
  unfold drm_output_apply_state_legacy
  rw [hos]
  try dsimp only
  rw [hout]
  try dsimp only
  rcases hdpl : out.disable_planes
  all_goals first
    | rw [if_neg Bool.false_ne_true]
    | rw [if_pos rfl]
  all_goals rw [hdpms, if_neg (not_not_intro rfl)]
  all_goals repeat' split
  all_goals try dsimp only
  all_goals first
    | exact legacy_err_pdGet_unlink w st.output osId pid st q hos hp hq
    | exact legacy_err_pdGet_unlink _ st.output osId pid st q
        (by rw [osGet_outSet]; exact hos) hp (by rw [pdGet_outSet]; exact hq)
    | exact assign_async_pdGet_unlink w osId pid st out q hos hout hp hq
    | exact assign_async_pdGet_unlink _ osId pid st
        { out with cursor_view := none, disable_planes := true } q
        (by rw [osGet_outSet]; exact hos)
        (outGet_outSet_self w st.output _ out hout) hp
        (by rw [pdGet_outSet]; exact hq)

/-- Applying an enabled state through the legacy path preserves other output
states' identity fields. -/
theorem apply_legacy_enable_osGet_fields_ne (w : World) (osId j : Nat)
    (io : LegacyIo) (st : OutputState) (out : Output) (os0 : OutputState)
    (hos : w.osGet osId = some st)
    (hout : w.outGet st.output = some out)
    (hdpms : st.dpms = Dpms.On)
    (hne : j ≠ osId)
    (h : w.osGet j = some os0) :
    ∃ os', ((drm_output_apply_state_legacy w osId io).1).osGet j = some os' ∧
      os'.output = os0.output ∧ os'.pending_state = os0.pending_state ∧
      os'.dpms = os0.dpms := by
  unfold drm_output_apply_state_legacy
  rw [hos]
  try dsimp only
  rw [hout]
  try dsimp only
  rcases hdpl : out.disable_planes
  all_goals first
    | rw [if_neg Bool.false_ne_true]
    | rw [if_pos rfl]
  all_goals rw [hdpms, if_neg (not_not_intro rfl)]
  all_goals repeat' split
  all_goals try dsimp only
  all_goals first
    | exact legacy_err_osGet_fields_ne w st.output osId j os0 hne h
    | exact legacy_err_osGet_fields_ne _ st.output osId j os0 hne
        (by rw [osGet_outSet]; exact h)
    | (refine ⟨os0, ?_, rfl, rfl, rfl⟩
       rw [assign_async_osGet_ne _ _ _ hne]
       first
         | exact h
         | (rw [osGet_outSet]; exact h))

/-- Applying an enabled state through the legacy path leaves other outputs
untouched. -/
theorem apply_legacy_enable_outGet_ne (w : World) (osId j : Nat)
    (io : LegacyIo) (st : OutputState) (out : Output)
    (hos : w.osGet osId = some st)
    (hout : w.outGet st.output = some out)
    (hdpms : st.dpms = Dpms.On)
    (hnej : j ≠ st.output) :
    ((drm_output_apply_state_legacy w osId io).1).outGet j = w.outGet j := by
  unfold drm_output_apply_state_legacy
  rw [hos]
  try dsimp only
  rw [hout]
  try dsimp only
  rcases hdpl : out.disable_planes
  all_goals first
    | rw [if_neg Bool.false_ne_true]
    | rw [if_pos rfl]
  all_goals rw [hdpms, if_neg (not_not_intro rfl)]
  all_goals repeat' split
  all_goals try dsimp only
  all_goals first
    | (rw [legacy_err_outGet_ne _ st.output osId j hnej]
       try (first
         | rfl
         | rw [outGet_outSet_ne _ _ _ _ hnej]))
    | (rw [assign_outGet_ne _ osId ApplyMode.Async j
        (fun os2 hos2 => by
          first
            | rw [hos] at hos2
            | (rw [osGet_outSet, hos] at hos2)
          cases Option.some.inj hos2
          exact hnej)]
       try (first
         | rfl
         | rw [outGet_outSet_ne _ _ _ _ hnej]))
/-- One iteration of the legacy flush loop unlinks its output state from the
pending state. -/
theorem body_pdGet_unlink (io : Nat → LegacyIo) (acc : World) (x pid : Nat)
    (st : OutputState) (out : Output) (q : PendingState)
    (hos : acc.osGet x = some st)
    (hout : acc.outGet st.output = some out)
    (hbr : st.dpms = Dpms.On ∨ out.virtualOut = true)
    (hp : st.pending_state = some pid)
    (hq : acc.pdGet pid = some q) :
    (drm_pending_state_apply_body io acc x).pdGet pid
      = some { q with output_list := q.output_list.filter (· != x) } := by
  unfold drm_pending_state_apply_body
  rw [hos]
  try dsimp only
  rw [hout]
  try dsimp only
  rcases hv : out.virtualOut
  · rw [if_neg Bool.false_ne_true]
    have hdpms : st.dpms = Dpms.On := by
      rcases hbr with h | h
      · exact h
      · rw [hv] at h
        exact Bool.noConfusion h
    exact apply_legacy_enable_pdGet_unlink acc x pid (io x) st out q
      hos hout hdpms hp hq
  · rw [if_pos rfl]
    exact assign_async_pdGet_unlink acc x pid st out q hos hout hp hq

/-- One iteration of the legacy flush loop preserves other output states'
identity fields. -/
theorem body_osGet_fields_ne (io : Nat → LegacyIo) (acc : World) (x j : Nat)
    (st : OutputState) (out : Output) (os0 : OutputState)
    (hos : acc.osGet x = some st)
    (hout : acc.outGet st.output = some out)
    (hbr : st.dpms = Dpms.On ∨ out.virtualOut = true)
    (hne : j ≠ x)
    (h : acc.osGet j = some os0) :
    ∃ os', (drm_pending_state_apply_body io acc x).osGet j = some os' ∧
      os'.output = os0.output ∧ os'.pending_state = os0.pending_state ∧
      os'.dpms = os0.dpms := by
  unfold drm_pending_state_apply_body
  rw [hos]
  try dsimp only
  rw [hout]
  try dsimp only
  rcases hv : out.virtualOut
  · rw [if_neg Bool.false_ne_true]
    have hdpms : st.dpms = Dpms.On := by
      rcases hbr with hd | hd
      · exact hd
      · rw [hv] at hd
        exact Bool.noConfusion hd
    exact apply_legacy_enable_osGet_fields_ne acc x j (io x) st out os0
      hos hout hdpms hne h
  · rw [if_pos rfl]
    refine ⟨os0, ?_, rfl, rfl, rfl⟩
    rw [assign_async_osGet_ne _ _ _ hne]
    exact h

/-- One iteration of the legacy flush loop leaves other outputs untouched. -/
theorem body_outGet_ne (io : Nat → LegacyIo) (acc : World) (x j : Nat)
    (st : OutputState) (out : Output)
    (hos : acc.osGet x = some st)
    (hout : acc.outGet st.output = some out)
    (hbr : st.dpms = Dpms.On ∨ out.virtualOut = true)
    (hnej : j ≠ st.output) :
    (drm_pending_state_apply_body io acc x).outGet j = acc.outGet j := by
  unfold drm_pending_state_apply_body
  rw [hos]
  try dsimp only
  rw [hout]
  try dsimp only
  rcases hv : out.virtualOut
  · rw [if_neg Bool.false_ne_true]
    have hdpms : st.dpms = Dpms.On := by
      rcases hbr with hd | hd
      · exact hd
      · rw [hv] at hd
        exact Bool.noConfusion hd
    exact apply_legacy_enable_outGet_ne acc x j (io x) st out hos hout hdpms hnej
  · rw [if_pos rfl]
    exact assign_outGet_ne acc x ApplyMode.Async j
      (fun os2 hos2 => by
        rw [hos] at hos2
        cases Option.some.inj hos2
        exact hnej)

/-- The legacy flush loop empties the pending state's output list: every
iteration unlinks its own output state, and no iteration relinks another. -/
theorem apply_loop_empty (io : Nat → LegacyIo) (pid : Nat) :
    ∀ (l : List Nat) (acc : World) (q : PendingState), l.Nodup →
    acc.pdGet pid = some q →
    (∀ z ∈ q.output_list, z ∈ l) →
    (∀ a ∈ l, ∃ os_a, acc.osGet a = some os_a ∧ os_a.pending_state = some pid ∧
      ∃ out_a, acc.outGet os_a.output = some out_a ∧
        (os_a.dpms = Dpms.On ∨ out_a.virtualOut = true)) →
    (∀ a ∈ l, ∀ b ∈ l, ∀ os_a os_b, acc.osGet a = some os_a →
      acc.osGet b = some os_b → os_a.output = os_b.output → a = b) →
    ∃ q', (drm_pending_state_apply_loop acc l io).pdGet pid = some q' ∧
      q'.output_list = [] := by
  intro l
  induction l with
  | nil =>
    intro acc q _ hq hmem _ _
    refine ⟨q, hq, List.eq_nil_iff_forall_not_mem.mpr ?_⟩
    intro z hz
    exact (List.not_mem_nil z) (hmem z hz)
  | cons x t ih =>
    intro acc q hnd hq hmem hdata hdist
    obtain ⟨hxt, hndt⟩ := List.nodup_cons.mp hnd
    obtain ⟨os_x, hosx, hpx, out_x, houtx, hbrx⟩ :=
      hdata x (List.mem_cons_self x t)
    have hstep_pd := body_pdGet_unlink io acc x pid os_x out_x q
      hosx houtx hbrx hpx hq
    have hmem' : ∀ z ∈ ({ q with
        output_list := q.output_list.filter (· != x) } : PendingState).output_list,
        z ∈ t := by
      intro z hz
      obtain ⟨hz1, hz2⟩ := List.mem_filter.mp hz
      have hzx : z ≠ x := by
        intro e
        rw [e] at hz2
        simp at hz2
      rcases List.mem_cons.mp (hmem z hz1) with e | hzt
      · exact absurd e hzx
      · exact hzt
    have hdata' : ∀ a ∈ t, ∃ os_a,
        (drm_pending_state_apply_body io acc x).osGet a = some os_a ∧
        os_a.pending_state = some pid ∧
        ∃ out_a, (drm_pending_state_apply_body io acc x).outGet os_a.output
          = some out_a ∧ (os_a.dpms = Dpms.On ∨ out_a.virtualOut = true) := by
      intro a ha
      obtain ⟨os_a, hosa, hpa, out_a, houta, hbra⟩ :=
        hdata a (List.mem_cons_of_mem x ha)
      have hax : a ≠ x := fun e => hxt (e ▸ ha)
      obtain ⟨os_a', hosa', f1, f2, f3⟩ :=
        body_osGet_fields_ne io acc x a os_x out_x os_a hosx houtx hbrx hax hosa
      have hone : os_a.output ≠ os_x.output := by
        intro e
        exact hax (hdist a (List.mem_cons_of_mem x ha) x (List.mem_cons_self x t)
          os_a os_x hosa hosx e)
      have houta' : (drm_pending_state_apply_body io acc x).outGet os_a.output
          = some out_a := by
        rw [body_outGet_ne io acc x os_a.output os_x out_x hosx houtx hbrx hone]
        exact houta
      refine ⟨os_a', hosa', f2.trans hpa, out_a, ?_, ?_⟩
      · rw [f1]
        exact houta'
      · rcases hbra with hd | hd
        · exact Or.inl (f3.trans hd)
        · exact Or.inr hd
    have hdist' : ∀ a ∈ t, ∀ b ∈ t, ∀ os_a os_b,
        (drm_pending_state_apply_body io acc x).osGet a = some os_a →
        (drm_pending_state_apply_body io acc x).osGet b = some os_b →
        os_a.output = os_b.output → a = b := by
      intro a ha b hb A B hA hB he
      obtain ⟨os_a, hosa, _, _, _, _⟩ := hdata a (List.mem_cons_of_mem x ha)
      obtain ⟨os_b, hosb, _, _, _, _⟩ := hdata b (List.mem_cons_of_mem x hb)
      have hax : a ≠ x := fun e => hxt (e ▸ ha)
      have hbx : b ≠ x := fun e => hxt (e ▸ hb)
      obtain ⟨os_a', hosa', fa1, _, _⟩ :=
        body_osGet_fields_ne io acc x a os_x out_x os_a hosx houtx hbrx hax hosa
      obtain ⟨os_b', hosb', fb1, _, _⟩ :=
        body_osGet_fields_ne io acc x b os_x out_x os_b hosx houtx hbrx hbx hosb
      have hA' : A = os_a' := Option.some.inj (hA.symm.trans hosa')
      have hB' : B = os_b' := Option.some.inj (hB.symm.trans hosb')
      refine hdist a (List.mem_cons_of_mem x ha) b (List.mem_cons_of_mem x hb)
        os_a os_b hosa hosb ?_
      rw [← fa1, ← hA', ← fb1, ← hB']
      exact he
    exact ih (drm_pending_state_apply_body io acc x)
      { q with output_list := q.output_list.filter (· != x) }
      hndt hstep_pd hmem' hdata' hdist'
/-- C9: on the legacy (non-atomic) path, flushing a pending state returns 0
regardless of what the per-output ioctls do, unconditionally frees the
pending state and clears `state_invalid`; and — for a well-formed pending
state of enabled or virtual outputs on distinct connectors — the output loop
leaves the pending state's output list empty before the free, each iteration
having unlinked its own output state (on the error path via the freed
state's unlink, otherwise via the assignment). -/
theorem c9_legacy_flush (w : World) (pid : Nat) (io : PendingIo)
    (p : PendingState)
    (hatomic : w.atomic_modeset = false)
    (hpd : w.pdGet pid = some p)
    (hnd : p.output_list.Nodup)
    (hdata : ∀ a ∈ p.output_list, ∃ os_a, w.osGet a = some os_a ∧
      os_a.pending_state = some pid ∧ ∃ out_a,
        w.outGet os_a.output = some out_a ∧
        (os_a.dpms = Dpms.On ∨ out_a.virtualOut = true))
    (hdist : ∀ a ∈ p.output_list, ∀ b ∈ p.output_list, ∀ os_a os_b,
      w.osGet a = some os_a → w.osGet b = some os_b →
      os_a.output = os_b.output → a = b) :
    (drm_pending_state_apply w pid io).2 = 0 ∧
    (drm_pending_state_apply w pid io).1.pdGet pid = none ∧
    (drm_pending_state_apply w pid io).1.state_invalid = false ∧
    (∃ q', (drm_pending_state_apply_loop w p.output_list io.legacy).pdGet pid
        = some q' ∧ q'.output_list = []) := by
  have hloop := apply_loop_empty io.legacy pid p.output_list w p hnd hpd
    (fun z hz => hz) hdata hdist
  unfold drm_pending_state_apply
  rw [if_neg (by rw [hatomic]; exact Bool.false_ne_true)]
  try dsimp only
  rw [hpd]
  try dsimp only
  refine ⟨rfl, ?_, ?_, hloop⟩
  · exact drm_pending_state_free_pdGet_self _ pid
  · rw [drm_pending_state_free_state_invalid]
/-- Concrete virtual output for the legacy flush scenario. -/
def outC9 : Output :=
  { state_cur := some 20, state_last := none, page_flip_pending := false,
    vblank_pending := 0, atomic_complete_pending := false,
    destroy_pending := false, disable_pending := false, dpms_off_pending := false,
    enabled := true, virtualOut := true, scanout_plane := 1, cursor_plane := none,
    cursor_view := none, awaiting_completion := true, has_dpms_prop := false,
    disable_planes := false }

/-- Concrete world for the legacy flush: pending state 30 holds output state
21 for the virtual output 10, with a stale resync flag. -/
def wC9 : World :=
  { next_id := 50,
    plane_states := [],
    output_states :=
      [(21, { output := 10, pending_state := some 30, plane_list := [],
              dpms := Dpms.On }),
       (20, { output := 10, pending_state := none, plane_list := [],
              dpms := Dpms.On })],
    pendings := [(30, { output_list := [21] })],
    planes := [],
    outputs := [(10, outC9)],
    fb_refs := [],
    state_invalid := true, atomic_modeset := false, sprites_hidden := false }

/-- Witness for C9: flushing pending state 30 in the concrete world. -/
theorem c9_legacy_flush_witness :
    (drm_pending_state_apply wC9 30
      { atomic := { reqAllocOk := true, resyncOk := true,
                    compileOk := fun _ => true, commitOk := true },
        legacy := fun _ => { setCrtcOk := true, pageFlipOk := true } }).2 = 0 ∧
    (drm_pending_state_apply wC9 30
      { atomic := { reqAllocOk := true, resyncOk := true,
                    compileOk := fun _ => true, commitOk := true },
        legacy := fun _ => { setCrtcOk := true, pageFlipOk := true } }).1.pdGet 30
      = none ∧
    (drm_pending_state_apply wC9 30
      { atomic := { reqAllocOk := true, resyncOk := true,
                    compileOk := fun _ => true, commitOk := true },
        legacy := fun _ => { setCrtcOk := true, pageFlipOk := true } }).1.state_invalid
      = false ∧
    (∃ q', (drm_pending_state_apply_loop wC9 [21]
        (fun _ => { setCrtcOk := true, pageFlipOk := true })).pdGet 30
        = some q' ∧ q'.output_list = []) :=
  c9_legacy_flush wC9 30
    { atomic := { reqAllocOk := true, resyncOk := true,
                  compileOk := fun _ => true, commitOk := true },
      legacy := fun _ => { setCrtcOk := true, pageFlipOk := true } }
    { output_list := [21] } rfl rfl (by decide)
    (by
      intro a ha
      cases List.mem_singleton.mp ha
      exact ⟨{ output := 10, pending_state := some 30, plane_list := [],
               dpms := Dpms.On }, rfl, rfl, outC9, rfl, Or.inr rfl⟩)
    (by
      intro a ha b hb os_a os_b _ _ _
      cases List.mem_singleton.mp ha
      cases List.mem_singleton.mp hb
      rfl)
